import Mathlib

/-!
OneTwoGame (Rock - Scissors - Paper): kernel model

A shallow embedding of the kernel classes of the repository
(`Combination`, `Hand`, `Move`, `IPlayer`, `User`, `ComputerAI`, `Session`, `Game`) together
with the properties of the rules table, the round evaluator, the match engine
and the lifecycle controller.

Conventions of the embedding

* A C++ object is a Lean structure holding its data members; a method that
  mutates the object returns the new object.
* Code injected into the kernel (an `IPlayer`, an input callback, a round
  callback, an output sink) runs on a caller-owned state of an arbitrary type
  `σ`, returns normally, and calls back into the kernel only through `stop()`
  from a round callback.  The steady clock is an observable of that state.
* `World σ` is that state plus a ghost log of the calls the kernel makes
  through its injection points, in call order.
* A C++ exception is an `Except.error`; the object and the world reached at
  the throw are returned next to it.
* `int` is modelled by `Int` without wrap-around: every counter of a session
  is bounded by the number of recorded moves, which never exceeds the `int`
  argument of the constructor.
-/

namespace OneTwoGame

/-! ## Combination.h -/

/-- The three gestures, `enum class Combination`, in declaration order. -/
inductive Combination where
  | Rock
  | Scissors
  | Paper
  deriving DecidableEq, Repr

/-- Underlying integer value of the enumerator (Rock = 0, Scissors = 1, Paper = 2). -/
def Combination.underlying : Combination → Nat
  | Combination.Rock => 0
  | Combination.Scissors => 1
  | Combination.Paper => 2

/-- Free function `beats(lhs, rhs)` of Combination.h. -/
def beats (lhs rhs : Combination) : Bool :=
  (lhs == Combination.Rock && rhs == Combination.Scissors) ||
  (lhs == Combination.Scissors && rhs == Combination.Paper) ||
  (lhs == Combination.Paper && rhs == Combination.Rock)

/-- Free function `combinationToString` of Combination.h on the three enumerators (the
`throw` after the `switch` is reached by none of them). -/
def combinationToString (c : Combination) : String :=
  match c with
  | Combination.Rock => "Rock"
  | Combination.Scissors => "Scissors"
  | Combination.Paper => "Paper"

/-! ## Hand.h / Hand.cpp -/

/-- Class `Hand`: a wrapper around one `Combination` (`Hand(Combination)` is `Hand.mk`). -/
structure Hand where
  currentCombination : Combination
  deriving DecidableEq, Repr

/-- Default constructor `Hand()`: holds Rock. -/
def Hand.default : Hand := { currentCombination := Combination.Rock }

/-- Method `Hand::getCombination`. -/
def Hand.getCombination (h : Hand) : Combination := h.currentCombination

/-- Method `Hand::setCombination`: overwrites the stored gesture. -/
def Hand.setCombination (_h : Hand) (combination : Combination) : Hand :=
  { currentCombination := combination }

/-- Member `Hand::operator==`: compares the stored gestures. -/
def Hand.eq (h other : Hand) : Bool :=
  h.currentCombination == other.currentCombination

/-- Member `Hand::operator!=`: the negation of `operator==`. -/
def Hand.ne (h other : Hand) : Bool := !(h.eq other)

/-! ## Move.h / Move.cpp -/

/-- The outcomes of one move, `enum class MoveResult`. -/
inductive MoveResult where
  | UserWins
  | ComputerWins
  | Draw
  deriving DecidableEq, Repr

/-- Class `Move`: the two hands of one round (`Move(userHand, computerHand)` is `Move.mk`). -/
structure Move where
  userHand : Hand
  computerHand : Hand
  deriving DecidableEq, Repr

/-- Method `Move::getWhoWins`. -/
def Move.getWhoWins (m : Move) : MoveResult :=
  if m.userHand.eq m.computerHand then MoveResult.Draw
  else if beats m.userHand.getCombination m.computerHand.getCombination then MoveResult.UserWins
  else MoveResult.ComputerWins

/-- Free function `moveResultToString` of Move.h. -/
def moveResultToString (result : MoveResult) : String :=
  match result with
  | MoveResult.UserWins => "User Wins"
  | MoveResult.ComputerWins => "Computer Wins"
  | MoveResult.Draw => "Draw"

/-- Method `Move::getUserHand`. -/
def Move.getUserHand (m : Move) : Hand := m.userHand

/-- Method `Move::getComputerHand`. -/
def Move.getComputerHand (m : Move) : Hand := m.computerHand

/-! ## Exceptions, clock and call log -/

/-- Exceptions raised by the kernel (`std::runtime_error`, `std::length_error`,
`std::invalid_argument`) with their `what()` text. -/
inductive Error where
  | runtime_error (what : String)
  | length_error (what : String)
  | invalid_argument (what : String)
  deriving DecidableEq, Repr

/-- A reading of `std::chrono::steady_clock`, in clock ticks; a default-constructed
`time_point` is the epoch, 0. -/
abbrev TimePoint := Int

/-- One call made by the kernel through an injection point (ghost data, not in the source). -/
inductive Call where
  /-- The call `user_->chooseHand()` of `Session::playRound`. -/
  | userChooseHand
  /-- The call `computer_->chooseHand()` of `Session::playRound`. -/
  | computerChooseHand
  /-- The call `inputCallback_()` of `User::chooseHand`. -/
  | inputCallback
  /-- The call `roundCallback_(index, move)` of `Session::playRound`. -/
  | roundCallback (roundIndex : Int) (move : Move)
  /-- A delivery of a text line to an output sink. -/
  | output (msg : String)
  deriving DecidableEq, Repr

/-- Everything outside the kernel objects: the caller-owned state `ext`, the steady clock
as an observable of that state, and the ghost log of calls, oldest first. -/
structure World (σ : Type) where
  ext : σ
  steadyClock : σ → TimePoint
  calls : List Call

/-- The value of `std::chrono::steady_clock::now()`. -/
def World.now {σ : Type} (w : World σ) : TimePoint := w.steadyClock w.ext

/-- Appends one call to the ghost log. -/
def World.logCall {σ : Type} (w : World σ) (c : Call) : World σ :=
  { w with calls := w.calls ++ [c] }

/-- What a call that may throw leaves behind: the returned value or the exception, the
object after the call and the world after the call. -/
structure Outcome (σ : Type) (ρ : Type) (α : Type) where
  result : Except Error α
  self : ρ
  world : World σ

/-! ## Values of `Combination` outside the three enumerators, random hands -/

/-- Function `combinationToString` on an arbitrary value of the underlying type `int`, which a
`Combination` made by `static_cast` can hold: the three `case` labels (0, 1, 2) return their
names, every other value leaves the `switch` and reaches the `throw`. -/
def combinationToStringRaw (value : Int) : Except Error String :=
  if value = 0 then Except.ok "Rock"
  else if value = 1 then Except.ok "Scissors"
  else if value = 2 then Except.ok "Paper"
  else Except.error (Error.invalid_argument "Unknown Combination value")

/-- Conversion `static_cast<Combination>(value)` of an `int`: the enumerator with that
underlying value; `none` stands for a value that is none of the three gestures. -/
def Combination.ofUnderlying (value : Int) : Option Combination :=
  if value = 0 then some Combination.Rock
  else if value = 1 then some Combination.Scissors
  else if value = 2 then some Combination.Paper
  else none

/-- Factory `Hand::generateCombination`, as a function of the value `dist(rng)` drawn from
`std::uniform_int_distribution<int> dist(0, 2)`: `Hand(static_cast<Combination>(dist(rng)))`.
The state of the random engine is not modelled. -/
def Hand.generateCombination (drawn : Int) : Option Hand :=
  (Combination.ofUnderlying drawn).map Hand.mk

/-- Class `ComputerAI`: its display name. -/
structure ComputerAI where
  name : String

/-- Constructor `ComputerAI(name)` with its default argument. -/
def ComputerAI.default : ComputerAI := { name := "Computer" }

/-- Method `ComputerAI::getName`. -/
def ComputerAI.getName (ai : ComputerAI) : String := ai.name

/-- Method `ComputerAI::chooseHand`: `return Hand::generateCombination();`, as a function of
the value drawn inside `generateCombination`. -/
def ComputerAI.chooseHand (_ai : ComputerAI) (drawn : Int) : Option Hand :=
  Hand.generateCombination drawn

/-! ## IPlayer.h, User.h / User.cpp -/

/-- Interface `IPlayer`: a display name and a hand-selection step.  The step is assumed to
return normally with a `Hand`, as its signature `Hand chooseHand()` promises. -/
structure IPlayer (σ : Type) where
  getName : σ → String
  chooseHand : World σ → Hand × World σ

/-- Class `User`: a name and an injected input callback returning a `Combination`. -/
structure User (σ : Type) where
  username : String
  inputCallback : σ → Combination × σ

/-- Method `User::getName`. -/
def User.getName {σ : Type} (u : User σ) : String := u.username

/-- Method `User::getUsername`. -/
def User.getUsername {σ : Type} (u : User σ) : String := u.username

/-- Method `User::chooseHand`: `return Hand(inputCallback_());`. -/
def User.chooseHand {σ : Type} (u : User σ) (w : World σ) : Hand × World σ :=
  let r := u.inputCallback w.ext
  (Hand.mk r.1, { w.logCall Call.inputCallback with ext := r.2 })

/-- A `User` seen through the `IPlayer` interface. -/
def User.toIPlayer {σ : Type} (u : User σ) : IPlayer σ :=
  { getName := fun _ => u.getName, chooseHand := u.chooseHand }

/-! ## Session.h / Session.cpp -/

/-- Type `Session::RoundCallback`, a `std::function<void(int, const Move&)>`: it receives the
zero-based round index and the move and runs on the world.  The Boolean tells whether the
callback called `stop()` on the notifying session, the one re-entrant call the model admits. -/
abbrev RoundCallback (σ : Type) := Int → Move → World σ → World σ × Bool

/-- Class `Session`: its data members.  An empty `std::function` is `none`. -/
structure Session (σ : Type) where
  user : IPlayer σ
  computer : IPlayer σ
  moves : List Move
  totalRounds : Int
  userScore : Int
  computerScore : Int
  drawCount : Int
  running : Bool
  roundCallback : Option (RoundCallback σ)
  startTime : TimePoint
  endTime : TimePoint

/-- Constant `Session::DEFAULT_ROUNDS`. -/
def Session.DEFAULT_ROUNDS : Int := 10

/-- The member initialisers of the constructor of `Session`: empty history, zero counters,
not running, no callback, both time points at the epoch. -/
def Session.fresh {σ : Type} (user computer : IPlayer σ) (rounds : Int) : Session σ :=
  { user := user, computer := computer, moves := [], totalRounds := rounds,
    userScore := 0, computerScore := 0, drawCount := 0, running := false,
    roundCallback := none, startTime := 0, endTime := 0 }

/-- Constructor `Session(user, computer, rounds)`.  The body reserves
`static_cast<size_t>(rounds)` elements: a negative `rounds` converts to a size above
`max_size()` and `std::vector::reserve` throws `std::length_error`.  Exhaustion of memory
for a large positive `rounds` is not modelled. -/
def Session.create {σ : Type} (user computer : IPlayer σ) (rounds : Int) :
    Except Error (Session σ) :=
  if rounds < 0 then Except.error (Error.length_error "vector::reserve")
  else Except.ok (Session.fresh user computer rounds)

/-- Method `Session::getUserScore`. -/
def Session.getUserScore {σ : Type} (s : Session σ) : Int := s.userScore

/-- Method `Session::getComputerScore`. -/
def Session.getComputerScore {σ : Type} (s : Session σ) : Int := s.computerScore

/-- Method `Session::getDrawCount`. -/
def Session.getDrawCount {σ : Type} (s : Session σ) : Int := s.drawCount

/-- Method `Session::getMoves`. -/
def Session.getMoves {σ : Type} (s : Session σ) : List Move := s.moves

/-- Method `Session::getTotalRounds`. -/
def Session.getTotalRounds {σ : Type} (s : Session σ) : Int := s.totalRounds

/-- Method `Session::getRoundsPlayed`: `static_cast<int>(moves_.size())`. -/
def Session.getRoundsPlayed {σ : Type} (s : Session σ) : Int := (s.moves.length : Int)

/-- Method `Session::isRunning`. -/
def Session.isRunning {σ : Type} (s : Session σ) : Bool := s.running

/-- Method `Session::onRoundCompleted`: overwrites the single callback slot. -/
def Session.onRoundCompleted {σ : Type} (s : Session σ) (cb : Option (RoundCallback σ)) :
    Session σ :=
  { s with roundCallback := cb }

/-- Method `Session::stop`. -/
def Session.stop {σ : Type} (s : Session σ) (w : World σ) : Session σ :=
  { s with running := false, endTime := w.now }

/-- Method `Session::whoWins`. -/
def Session.whoWins {σ : Type} (s : Session σ) (w : World σ) : String :=
  if s.userScore > s.computerScore then s.user.getName w.ext
  else if s.computerScore > s.userScore then s.computer.getName w.ext
  else "Draw"

/-- Method `Session::getElapsedSeconds`, in clock ticks (the source converts the tick count
to `double` seconds). -/
def Session.getElapsedSeconds {σ : Type} (s : Session σ) (w : World σ) : Int :=
  if s.running then w.now - s.startTime else s.endTime - s.startTime

/-- Lines 40-43 of `Session::playRound`: a session that is not running is marked running and
its start time is stamped. -/
def Session.markRunning {σ : Type} (s : Session σ) (w : World σ) : Session σ :=
  if !s.running then { s with running := true, startTime := w.now } else s

/-- Lines 49-55 of `Session::playRound`: the move is appended to the history and the counter
selected by its outcome is incremented. -/
def Session.record {σ : Type} (s : Session σ) (move : Move) : Session σ :=
  match move.getWhoWins with
  | MoveResult.UserWins =>
      { s with moves := s.moves ++ [move], userScore := s.userScore + 1 }
  | MoveResult.ComputerWins =>
      { s with moves := s.moves ++ [move], computerScore := s.computerScore + 1 }
  | MoveResult.Draw =>
      { s with moves := s.moves ++ [move], drawCount := s.drawCount + 1 }

/-- The point of `Session::playRound` at which the round callback is about to be entered. -/
structure Played (σ : Type) where
  move : Move
  session : Session σ
  world : World σ

/-- Lines 40-55 of `Session::playRound`: mark running, ask the user, then the computer, for
a hand, build the move, record it. -/
def Session.playHands {σ : Type} (s : Session σ) (w : World σ) : Played σ :=
  let s1 := s.markRunning w
  let u := s1.user.chooseHand (w.logCall Call.userChooseHand)
  let c := s1.computer.chooseHand (u.2.logCall Call.computerChooseHand)
  let move := Move.mk u.1 c.1
  { move := move, session := s1.record move, world := c.2 }

/-- Lines 57-59 of `Session::playRound`: a registered callback is called with the index
`size - 1` and the move; a `stop()` it requests takes effect at its return. -/
def Session.notify {σ : Type} (s : Session σ) (move : Move) (w : World σ) :
    Session σ × World σ :=
  match s.roundCallback with
  | some cb =>
      let r := cb (s.getRoundsPlayed - 1) move
        (w.logCall (Call.roundCallback (s.getRoundsPlayed - 1) move))
      (if r.2 then s.stop r.1 else s, r.1)
  | none => (s, w)

/-- Lines 61-64 of `Session::playRound`: after the last configured round the session is
marked not running and its end time is stamped. -/
def Session.closeIfComplete {σ : Type} (s : Session σ) (w : World σ) : Session σ :=
  if s.getRoundsPlayed ≥ s.totalRounds then { s with running := false, endTime := w.now }
  else s

/-- Method `Session::playRound`. -/
def Session.playRound {σ : Type} (s : Session σ) (w : World σ) :
    Outcome σ (Session σ) Move :=
  if s.getRoundsPlayed ≥ s.totalRounds then
    { result := Except.error (Error.runtime_error "All rounds have already been played."),
      self := s, world := w }
  else
    let p := s.playHands w
    let n := p.session.notify p.move p.world
    { result := Except.ok p.move, self := n.1.closeIfComplete n.2, world := n.2 }

/-- The `while` loop of `Session::start`, lines 22-24, with an iteration budget; `none` means
the budget ran out before the loop condition became false. -/
def Session.startLoop {σ : Type} :
    Nat → Session σ → World σ → Option (Outcome σ (Session σ) Unit)
  | 0, _, _ => none
  | fuel + 1, s, w =>
    if s.running && decide (s.getRoundsPlayed < s.totalRounds) then
      match (s.playRound w).result with
      | Except.ok _ => Session.startLoop fuel (s.playRound w).self (s.playRound w).world
      | Except.error e =>
          some { result := Except.error e, self := (s.playRound w).self,
                 world := (s.playRound w).world }
    else some { result := Except.ok (), self := s, world := w }

/-- Lines 19-20 of `Session::start`: mark running and stamp the start time. -/
def Session.startEntry {σ : Type} (s : Session σ) (w : World σ) : Session σ :=
  { s with running := true, startTime := w.now }

/-- Method `Session::start`: lines 19-20, the loop, then lines 26-27 (not running, end time
stamped).  The loop budget is one more than the number of rounds still to be played at
entry. -/
def Session.start {σ : Type} (s : Session σ) (w : World σ) :
    Option (Outcome σ (Session σ) Unit) :=
  match Session.startLoop ((s.totalRounds - s.getRoundsPlayed).toNat + 1)
      (s.startEntry w) w with
  | some r =>
    match r.result with
    | Except.ok _ =>
        some { result := Except.ok (),
               self := { r.self with running := false, endTime := r.world.now },
               world := r.world }
    | Except.error e => some { result := Except.error e, self := r.self, world := r.world }
  | none => none

/-- The caller's sequence of `k` successive `playRound()` calls: the results in call order,
the session and the world after the last call. -/
def Session.playRounds {σ : Type} :
    Nat → Session σ → World σ → List (Except Error Move) × Session σ × World σ
  | 0, s, w => ([], s, w)
  | k + 1, s, w =>
    let rest := Session.playRounds k (s.playRound w).self (s.playRound w).world
    ((s.playRound w).result :: rest.1, rest.2)

/-- The session states that code outside `Session` can observe: the states between public
calls (construction, `onRoundCompleted`, `playRound`, `start`, `stop`), the state from which
`start()` enters its loop, the state in which the players are asked for their hands and the
state in which a round callback is entered. -/
inductive Session.Reachable {σ : Type} : Session σ → Prop where
  | create (user computer : IPlayer σ) (rounds : Int) (s : Session σ) :
      Session.create user computer rounds = Except.ok s → Session.Reachable s
  | onRoundCompleted (s : Session σ) (cb : Option (RoundCallback σ)) :
      Session.Reachable s → Session.Reachable (s.onRoundCompleted cb)
  | playRound (s : Session σ) (w : World σ) :
      Session.Reachable s → Session.Reachable (s.playRound w).self
  | start (s : Session σ) (w : World σ) (r : Outcome σ (Session σ) Unit) :
      Session.Reachable s → s.start w = some r → Session.Reachable r.self
  | stop (s : Session σ) (w : World σ) :
      Session.Reachable s → Session.Reachable (s.stop w)
  | startEntry (s : Session σ) (w : World σ) :
      Session.Reachable s → Session.Reachable (s.startEntry w)
  | inChooseHand (s : Session σ) (w : World σ) :
      Session.Reachable s → s.getRoundsPlayed < s.totalRounds →
      Session.Reachable (s.markRunning w)
  | inCallback (s : Session σ) (w : World σ) :
      Session.Reachable s → s.getRoundsPlayed < s.totalRounds →
      Session.Reachable (s.playHands w).session

/-- The three counters add up to the length of the history. -/
def Session.Conserved {σ : Type} (s : Session σ) : Prop :=
  s.userScore + s.computerScore + s.drawCount = (s.moves.length : Int)

/-- No counter is negative and the history is no longer than the configured number of
rounds. -/
def Session.Bounded {σ : Type} (s : Session σ) : Prop :=
  0 ≤ s.userScore ∧ 0 ≤ s.computerScore ∧ 0 ≤ s.drawCount ∧
    (s.moves.length : Int) ≤ s.totalRounds

/-- The round-callback entries of a call log, oldest first: the index and the move of every
call `roundCallback_(index, move)`. -/
def roundCallbackCalls : List Call → List (Int × Move)
  | [] => []
  | Call.roundCallback i m :: rest => (i, m) :: roundCallbackCalls rest
  | _ :: rest => roundCallbackCalls rest

/-- The arguments the round callback receives when a history is played from its first move
on: the move at position `i` comes with the index `i`. -/
def indexedFrom : Nat → List Move → List (Int × Move)
  | _, [] => []
  | i, m :: rest => ((i : Int), m) :: indexedFrom (i + 1) rest

/-- Whether the round callback entered by `playRound` on session `s` in world `w` calls
`stop()`; `false` when no callback is registered. -/
def Session.stopRequested {σ : Type} (s : Session σ) (w : World σ) : Bool :=
  match s.roundCallback with
  | some cb =>
      (cb s.getRoundsPlayed (s.playHands w).move
        ((s.playHands w).world.logCall
          (Call.roundCallback s.getRoundsPlayed (s.playHands w).move))).2
  | none => false

/-- The registered round callback, if any, never calls `stop()`. -/
def Session.NeverStops {σ : Type} (s : Session σ) : Prop :=
  ∀ cb : RoundCallback σ, s.roundCallback = some cb →
    ∀ (i : Int) (m : Move) (v : World σ), (cb i m v).2 = false

/-- The calls `user_->chooseHand()` and `computer_->chooseHand()` among the logged calls. -/
def Call.isChooseHand : Call → Bool
  | Call.userChooseHand => true
  | Call.computerChooseHand => true
  | _ => false

/-! ## Game.h / Game.cpp -/

/-- The states of the game, `enum class GameState`. -/
inductive GameState where
  | Idle
  | Running
  | Finished
  deriving DecidableEq, Repr

/-- Type `Game::OutputCallback`, a `std::function<void(const std::string&)>`: injected code
that receives one text line and runs on the caller-owned state. -/
abbrev OutputCallback (σ : Type) := String → σ → σ

/-- Class `Game`: its data members.  A null `unique_ptr` and an empty `std::function` are
`none`. -/
structure Game (σ : Type) where
  user : IPlayer σ
  computer : IPlayer σ
  currentSession : Option (Session σ)
  state : GameState
  outputCallback : Option (OutputCallback σ)

/-- Constructor `Game(user, computer)`. -/
def Game.create {σ : Type} (user computer : IPlayer σ) : Game σ :=
  { user := user, computer := computer, currentSession := none, state := GameState.Idle,
    outputCallback := none }

/-- Method `Game::getState`. -/
def Game.getState {σ : Type} (g : Game σ) : GameState := g.state

/-- Method `Game::getCurrentSession` (`none` for `nullptr`). -/
def Game.getCurrentSession {σ : Type} (g : Game σ) : Option (Session σ) := g.currentSession

/-- The body of `Game::emit` for a given sink slot: a registered sink is called with the
message, an empty slot drops it. -/
def emitTo {σ : Type} (sink : Option (OutputCallback σ)) (msg : String) (w : World σ) :
    World σ :=
  match sink with
  | some cb => { w.logCall (Call.output msg) with ext := cb msg w.ext }
  | none => w

/-- Method `Game::emit`. -/
def Game.emit {σ : Type} (g : Game σ) (msg : String) (w : World σ) : World σ :=
  emitTo g.outputCallback msg w

/-- The text built by the lambda of `Game::newSession` for the round with index `idx`. -/
def Game.roundLine (idx : Int) (move : Move) : String :=
  "Round " ++ toString (idx + 1) ++ ": " ++
    combinationToString move.getUserHand.getCombination ++ " vs " ++
    combinationToString move.getComputerHand.getCombination ++ " -> " ++
    moveResultToString move.getWhoWins

/-- The lambda `[this](int idx, const Move& move)` of `Game::newSession`, for the sink the
game holds when the lambda runs: it emits the round line and never stops the session. -/
def Game.roundNotifier {σ : Type} (sink : Option (OutputCallback σ)) : RoundCallback σ :=
  fun idx move w => (emitTo sink (Game.roundLine idx move) w, false)

/-- Method `Game::setOutputCallback`.  The lambda held by the current session reads the sink
through `this` when it runs, so the closure stored in the session follows the new sink. -/
def Game.setOutputCallback {σ : Type} (g : Game σ) (cb : Option (OutputCallback σ)) :
    Game σ :=
  { g with
    outputCallback := cb,
    currentSession :=
      g.currentSession.map (fun s => s.onRoundCompleted (some (Game.roundNotifier cb))) }

/-- Method `Game::newSession`.  An exception of the `Session` constructor leaves the game as
it was. -/
def Game.newSession {σ : Type} (g : Game σ) (rounds : Int) (w : World σ) :
    Outcome σ (Game σ) Unit :=
  match Session.create g.user g.computer rounds with
  | Except.error e => { result := Except.error e, self := g, world := w }
  | Except.ok s =>
    { result := Except.ok (),
      self :=
        { g with
          currentSession :=
            some (s.onRoundCompleted (some (Game.roundNotifier g.outputCallback))),
          state := GameState.Running },
      world := emitTo g.outputCallback
        ("=== New Session (" ++ toString rounds ++ " rounds) ===") w }

/-- Method `Game::newSession` called with its default argument. -/
def Game.newSessionDefault {σ : Type} (g : Game σ) (w : World σ) : Outcome σ (Game σ) Unit :=
  g.newSession Session.DEFAULT_ROUNDS w

/-- The summary text built by `Game::playSingleRound` when the session has ended. -/
def Game.summary {σ : Type} (g : Game σ) (s : Session σ) (w : World σ) : String :=
  "\n=== Session Over ===\n" ++
    g.user.getName w.ext ++ ": " ++ toString s.getUserScore ++ " wins\n" ++
    g.computer.getName w.ext ++ ": " ++ toString s.getComputerScore ++ " wins\n" ++
    "Draws: " ++ toString s.getDrawCount ++ "\n" ++
    "Winner: " ++ s.whoWins w

/-- Method `Game::playSingleRound`. -/
def Game.playSingleRound {σ : Type} (g : Game σ) (w : World σ) : Outcome σ (Game σ) Move :=
  match g.currentSession with
  | none =>
    { result := Except.error (Error.runtime_error "No active session."), self := g, world := w }
  | some s =>
    if g.state ≠ GameState.Running then
      { result := Except.error (Error.runtime_error "No active session."), self := g,
        world := w }
    else
      match (s.playRound w).result with
      | Except.error e =>
        { result := Except.error e, self := { g with currentSession := some (s.playRound w).self },
          world := (s.playRound w).world }
      | Except.ok move =>
        if !(s.playRound w).self.isRunning then
          { result := Except.ok move,
            self := { g with currentSession := some (s.playRound w).self,
                             state := GameState.Finished },
            world := emitTo g.outputCallback
              (g.summary (s.playRound w).self (s.playRound w).world) (s.playRound w).world }
        else
          { result := Except.ok move,
            self := { g with currentSession := some (s.playRound w).self },
            world := (s.playRound w).world }

/-- The caller's sequence of `k` successive `playSingleRound()` calls: the results in call
order, the game and the world after the last call. -/
def Game.playSingleRounds {σ : Type} :
    Nat → Game σ → World σ → List (Except Error Move) × Game σ × World σ
  | 0, g, w => ([], g, w)
  | k + 1, g, w =>
    let rest := Game.playSingleRounds k (g.playSingleRound w).self (g.playSingleRound w).world
    ((g.playSingleRound w).result :: rest.1, rest.2)

/-- The games that a caller can reach through the public methods of `Game`. -/
inductive Game.Reachable {σ : Type} : Game σ → Prop where
  | create (user computer : IPlayer σ) : Game.Reachable (Game.create user computer)
  | setOutputCallback (g : Game σ) (cb : Option (OutputCallback σ)) :
      Game.Reachable g → Game.Reachable (g.setOutputCallback cb)
  | newSession (g : Game σ) (rounds : Int) (w : World σ) :
      Game.Reachable g → Game.Reachable (g.newSession rounds w).self
  | playSingleRound (g : Game σ) (w : World σ) :
      Game.Reachable g → Game.Reachable (g.playSingleRound w).self

/-- The current session, if any, plays the game's two players and holds the lambda of
`newSession` for the game's sink. -/
def Game.Wired {σ : Type} (g : Game σ) : Prop :=
  ∀ s : Session σ, g.currentSession = some s →
    s.user = g.user ∧ s.computer = g.computer ∧
    s.roundCallback = some (Game.roundNotifier g.outputCallback)

/-- The round lines of the moves of a history whose first move has the index `i`. -/
def Game.roundLinesFrom (i : Nat) (moves : List Move) : List String :=
  (indexedFrom i moves).map (fun p => Game.roundLine p.1 p.2)

/-- One call of a caller driving a game: `newSession(rounds)` or `playSingleRound()`. -/
inductive GameOp where
  | newSession (rounds : Int)
  | playSingleRound
  deriving DecidableEq, Repr

/-- The effect of one call of the caller; the returned value is the move played, if the call
returns one. -/
def Game.apply {σ : Type} (g : Game σ) (op : GameOp) (w : World σ) :
    Outcome σ (Game σ) (Option Move) :=
  match op with
  | GameOp.newSession rounds =>
    { result := (g.newSession rounds w).result.map (fun _ => none),
      self := (g.newSession rounds w).self, world := (g.newSession rounds w).world }
  | GameOp.playSingleRound =>
    { result := (g.playSingleRound w).result.map some,
      self := (g.playSingleRound w).self, world := (g.playSingleRound w).world }

/-- A sequence of calls of the caller: the results in call order, the game and the world
after the last call. -/
def Game.run {σ : Type} :
    List GameOp → Game σ → World σ → List (Except Error (Option Move)) × Game σ × World σ
  | [], g, w => ([], g, w)
  | op :: rest, g, w =>
    let tail := Game.run rest (g.apply op w).self (g.apply op w).world
    ((g.apply op w).result :: tail.1, tail.2)

/-- What the accessors of a session show of the match: history, configured rounds, the three
counters and the running flag. -/
structure SessionView where
  moves : List Move
  totalRounds : Int
  userScore : Int
  computerScore : Int
  drawCount : Int
  running : Bool
  deriving DecidableEq, Repr

/-- The accessor values of a session. -/
def Session.view {σ : Type} (s : Session σ) : SessionView :=
  { moves := s.getMoves, totalRounds := s.getTotalRounds, userScore := s.getUserScore,
    computerScore := s.getComputerScore, drawCount := s.getDrawCount,
    running := s.isRunning }

/-- The state of a game and the accessor values of its current session. -/
def Game.view {σ : Type} (g : Game σ) : GameState × Option SessionView :=
  (g.getState, g.getCurrentSession.map Session.view)

/-- The accessor values after one more round with move `m`, for a session whose callback
does not stop it. -/
def SessionView.afterRound (v : SessionView) (m : Move) : SessionView :=
  { moves := v.moves ++ [m], totalRounds := v.totalRounds,
    userScore := v.userScore + (if m.getWhoWins = MoveResult.UserWins then 1 else 0),
    computerScore :=
      v.computerScore + (if m.getWhoWins = MoveResult.ComputerWins then 1 else 0),
    drawCount := v.drawCount + (if m.getWhoWins = MoveResult.Draw then 1 else 0),
    running := decide ((v.moves.length : Int) + 1 < v.totalRounds) }

/-- Two sessions of the players `user` and `computer` that show the same accessor values,
the first holding the lambda of `newSession` for the sink `sink`, the second for no sink. -/
def Session.SameMatch {σ : Type} (user computer : IPlayer σ) (sink : OutputCallback σ)
    (s1 s2 : Session σ) : Prop :=
  s1.user = user ∧ s2.user = user ∧ s1.computer = computer ∧ s2.computer = computer ∧
  s1.roundCallback = some (Game.roundNotifier (some sink)) ∧
  s2.roundCallback = some (Game.roundNotifier none) ∧ s1.view = s2.view

/-- Two games of the players `user` and `computer` in the same state, the first with the
sink `sink` registered, the second with no sink, whose current sessions, if any, show the
same accessor values. -/
def Game.SameMatch {σ : Type} (user computer : IPlayer σ) (sink : OutputCallback σ)
    (g1 g2 : Game σ) : Prop :=
  g1.user = user ∧ g2.user = user ∧ g1.computer = computer ∧ g2.computer = computer ∧
  g1.outputCallback = some sink ∧ g2.outputCallback = none ∧ g1.state = g2.state ∧
  ((g1.currentSession = none ∧ g2.currentSession = none) ∨
    ∃ s1 s2 : Session σ, g1.currentSession = some s1 ∧ g2.currentSession = some s2 ∧
      Session.SameMatch user computer sink s1 s2)

/-- The text lines delivered to an output sink, oldest first, as the call log records
them. -/
def outputCalls : List Call → List String
  | [] => []
  | Call.output msg :: rest => msg :: outputCalls rest
  | _ :: rest => outputCalls rest

/-- The observable `received` of the caller state is the list of lines the sink has been
called with, oldest first: each call of `sink` appends its line, and the `chooseHand` of
the two players leaves the list alone.  The sink of the tests, which pushes every line to a
vector, is of this kind. -/
def SinkRecords {σ : Type} (sink : OutputCallback σ) (user computer : IPlayer σ)
    (received : σ → List String) : Prop :=
  (∀ (msg : String) (e : σ), received (sink msg e) = received e ++ [msg]) ∧
  (∀ v : World σ, received (user.chooseHand v).2.ext = received v.ext) ∧
  (∀ v : World σ, received (computer.chooseHand v).2.ext = received v.ext)

/-- The number of moves of a history whose outcome is `res`. -/
def tally (res : MoveResult) (moves : List Move) : Int :=
  ((moves.countP (fun m => decide (m.getWhoWins = res)) : Nat) : Int)

/-- Each counter equals the number of recorded moves with the matching outcome. -/
def Session.Tallied {σ : Type} (s : Session σ) : Prop :=
  s.getUserScore = tally MoveResult.UserWins s.getMoves ∧
  s.getComputerScore = tally MoveResult.ComputerWins s.getMoves ∧
  s.getDrawCount = tally MoveResult.Draw s.getMoves

/-- The games that a caller can reach from construction through `setOutputCallback`,
`newSession(n)` with `n ≥ 1` and `playSingleRound()`. -/
inductive Game.ReachableWithRounds {σ : Type} : Game σ → Prop where
  | create (user computer : IPlayer σ) : Game.ReachableWithRounds (Game.create user computer)
  | setOutputCallback (g : Game σ) (cb : Option (OutputCallback σ)) :
      Game.ReachableWithRounds g → Game.ReachableWithRounds (g.setOutputCallback cb)
  | newSession (g : Game σ) (rounds : Int) (w : World σ) :
      1 ≤ rounds → Game.ReachableWithRounds g →
      Game.ReachableWithRounds (g.newSession rounds w).self
  | playSingleRound (g : Game σ) (w : World σ) :
      Game.ReachableWithRounds g → Game.ReachableWithRounds (g.playSingleRound w).self

/-- The state of the game matches its session: Idle with no session, Running with a session
that has rounds left, Finished with a session that has played all its rounds and is not
running. -/
def Game.Consistent {σ : Type} (g : Game σ) : Prop :=
  (g.state = GameState.Idle ∧ g.currentSession = none) ∨
  (g.state = GameState.Running ∧
    ∃ s : Session σ, g.currentSession = some s ∧ s.getRoundsPlayed < s.getTotalRounds) ∨
  (g.state = GameState.Finished ∧
    ∃ s : Session σ, g.currentSession = some s ∧ s.getRoundsPlayed = s.getTotalRounds ∧
      s.isRunning = false)

/-! ## Test doubles of the repository's tests -/

/-- The state-free player of the tests: a `User` whose input callback always returns `c`. -/
def fixedUser (name : String) (c : Combination) : IPlayer Unit :=
  User.toIPlayer { username := name, inputCallback := fun e => (c, e) }

/-- A world with no caller state, a clock standing at 0 and an empty call log. -/
def quietWorld : World Unit := { ext := (), steadyClock := fun _ => 0, calls := [] }

/-- A round callback that counts its invocations in the caller state, like the callback
of the tests, and never stops the session. -/
def countingCallback : RoundCallback Nat :=
  fun _ _ w => ({ w with ext := w.ext + 1 }, false)

/-- A round callback that calls `stop()` on the session every time it runs. -/
def stoppingCallback : RoundCallback Unit :=
  fun _ _ w => (w, true)

/-- A round callback that calls `stop()` in the round of index `k` and in no other round. -/
def stopAtRound (k : Int) : RoundCallback Unit :=
  fun i _ w => (w, decide (i = k))

/-- A sink that keeps the lines it receives, like the sink of the tests. -/
def collectingSink : OutputCallback (List String) :=
  fun msg e => e ++ [msg]

/-- The state-free player of the tests over any caller state. -/
def constantUser {σ : Type} (name : String) (c : Combination) : IPlayer σ :=
  User.toIPlayer { username := name, inputCallback := fun e => (c, e) }

/-- A `User` that notes its name in the caller state each time its input callback runs and
then returns `c`, like the counting input callbacks of the tests. -/
def recordingUser (name : String) (c : Combination) : IPlayer (List String) :=
  User.toIPlayer { username := name, inputCallback := fun e => (c, e ++ [name]) }

/-- A world with the given caller state, a clock standing at 0 and an empty call log. -/
def worldOf {σ : Type} (e : σ) : World σ := { ext := e, steadyClock := fun _ => 0, calls := [] }

/-- A world with no caller state and an empty call log whose clock stands at `t`. -/
def worldAt (t : TimePoint) : World Unit := { ext := (), steadyClock := fun _ => t, calls := [] }

/-- The session of the tests: RockFan (always Rock) against ScissorsBot (always Scissors). -/
def rockVsScissors (rounds : Int) : Session Unit :=
  Session.fresh (fixedUser "RockFan" Combination.Rock)
    (fixedUser "ScissorsBot" Combination.Scissors) rounds

/-! ## Rules table and round evaluator -/

/-- C1: `beats a b` holds exactly for the pairs (Rock, Scissors), (Scissors, Paper),
(Paper, Rock); with Rock = 0, Scissors = 1, Paper = 2 this is `b = (a + 1) mod 3`; hence every
gesture beats exactly one other gesture and loses to exactly one other gesture. -/
theorem beats_iff_cycle (a b : Combination) :
    (beats a b = true ↔
      (a = Combination.Rock ∧ b = Combination.Scissors) ∨
      (a = Combination.Scissors ∧ b = Combination.Paper) ∨
      (a = Combination.Paper ∧ b = Combination.Rock)) ∧
    (beats a b = true ↔ b.underlying = (a.underlying + 1) % 3) ∧
    (∃! c : Combination, c ≠ a ∧ beats a c = true) ∧
    (∃! c : Combination, c ≠ a ∧ beats c a = true) := by
  refine ⟨?_, ?_, ?_, ?_⟩
  · cases a <;> cases b <;> decide
  · cases a <;> cases b <;> decide
  · cases a
    · exact ⟨Combination.Scissors, by decide, fun c hc => by revert hc; cases c <;> decide⟩
    · exact ⟨Combination.Paper, by decide, fun c hc => by revert hc; cases c <;> decide⟩
    · exact ⟨Combination.Rock, by decide, fun c hc => by revert hc; cases c <;> decide⟩
  · cases a
    · exact ⟨Combination.Paper, by decide, fun c hc => by revert hc; cases c <;> decide⟩
    · exact ⟨Combination.Rock, by decide, fun c hc => by revert hc; cases c <;> decide⟩
    · exact ⟨Combination.Scissors, by decide, fun c hc => by revert hc; cases c <;> decide⟩

/-- C2: for two different gestures exactly one of `beats a b`, `beats b a` is true
(never both, never neither). -/
theorem beats_exactly_one_direction (a b : Combination) (h : a ≠ b) :
    (beats a b = true ∨ beats b a = true) ∧ ¬(beats a b = true ∧ beats b a = true) := by
  revert h
  cases a <;> cases b <;> decide

/-- Witness of C2 at (Rock, Paper). -/
theorem beats_exactly_one_direction_witness :
    Combination.Rock ≠ Combination.Paper ∧
    ((beats Combination.Rock Combination.Paper = true ∨
        beats Combination.Paper Combination.Rock = true) ∧
      ¬(beats Combination.Rock Combination.Paper = true ∧
        beats Combination.Paper Combination.Rock = true)) :=
  ⟨by decide, beats_exactly_one_direction Combination.Rock Combination.Paper (by decide)⟩

/-- C3: no gesture beats itself, and a move of two equal hands is a Draw. -/
theorem beats_irrefl_and_equal_hands_draw (a : Combination) :
    beats a a = false ∧ (Move.mk (Hand.mk a) (Hand.mk a)).getWhoWins = MoveResult.Draw := by
  cases a <;> decide

/-- C4: the outcome of a move is Draw iff the gestures are equal, UserWins iff the user's
gesture beats the computer's, and ComputerWins iff the computer's gesture beats the user's. -/
theorem getWhoWins_characterisation (u c : Combination) :
    ((Move.mk (Hand.mk u) (Hand.mk c)).getWhoWins = MoveResult.Draw ↔ u = c) ∧
    ((Move.mk (Hand.mk u) (Hand.mk c)).getWhoWins = MoveResult.UserWins ↔ beats u c = true) ∧
    ((Move.mk (Hand.mk u) (Hand.mk c)).getWhoWins = MoveResult.ComputerWins ↔
      beats c u = true) := by
  cases u <;> cases c <;> decide

/-- C5: for different gestures, the user wins the move (a, b) iff the computer wins the
move with the roles swapped, (b, a). -/
theorem getWhoWins_swap (a b : Combination) (h : a ≠ b) :
    (Move.mk (Hand.mk a) (Hand.mk b)).getWhoWins = MoveResult.UserWins ↔
      (Move.mk (Hand.mk b) (Hand.mk a)).getWhoWins = MoveResult.ComputerWins := by
  revert h
  cases a <;> cases b <;> decide

/-- Witness of C5 at (Rock, Scissors), the pair of the repository's tests. -/
theorem getWhoWins_swap_witness :
    Combination.Rock ≠ Combination.Scissors ∧
    ((Move.mk (Hand.mk Combination.Rock) (Hand.mk Combination.Scissors)).getWhoWins
        = MoveResult.UserWins ↔
      (Move.mk (Hand.mk Combination.Scissors) (Hand.mk Combination.Rock)).getWhoWins
        = MoveResult.ComputerWins) :=
  ⟨by decide, getWhoWins_swap Combination.Rock Combination.Scissors (by decide)⟩

/-! ## Match engine: frame lemmas for the pieces of `playRound` -/

section SessionLemmas

variable {σ : Type}

@[simp]
theorem Session.record_moves (s : Session σ) (m : Move) :
    (s.record m).moves = s.moves ++ [m] := by
  unfold Session.record; cases m.getWhoWins <;> rfl

@[simp]
theorem Session.record_totalRounds (s : Session σ) (m : Move) :
    (s.record m).totalRounds = s.totalRounds := by
  unfold Session.record; cases m.getWhoWins <;> rfl

@[simp]
theorem Session.record_running (s : Session σ) (m : Move) :
    (s.record m).running = s.running := by
  unfold Session.record; cases m.getWhoWins <;> rfl

@[simp]
theorem Session.record_roundCallback (s : Session σ) (m : Move) :
    (s.record m).roundCallback = s.roundCallback := by
  unfold Session.record; cases m.getWhoWins <;> rfl

theorem Session.record_userScore (s : Session σ) (m : Move) :
    (s.record m).userScore =
      s.userScore + (if m.getWhoWins = MoveResult.UserWins then 1 else 0) := by
  unfold Session.record; cases m.getWhoWins <;> simp

theorem Session.record_computerScore (s : Session σ) (m : Move) :
    (s.record m).computerScore =
      s.computerScore + (if m.getWhoWins = MoveResult.ComputerWins then 1 else 0) := by
  unfold Session.record; cases m.getWhoWins <;> simp

theorem Session.record_drawCount (s : Session σ) (m : Move) :
    (s.record m).drawCount =
      s.drawCount + (if m.getWhoWins = MoveResult.Draw then 1 else 0) := by
  unfold Session.record; cases m.getWhoWins <;> simp

@[simp]
theorem Session.markRunning_moves (s : Session σ) (w : World σ) :
    (s.markRunning w).moves = s.moves := by
  unfold Session.markRunning; split <;> rfl

@[simp]
theorem Session.markRunning_totalRounds (s : Session σ) (w : World σ) :
    (s.markRunning w).totalRounds = s.totalRounds := by
  unfold Session.markRunning; split <;> rfl

@[simp]
theorem Session.markRunning_userScore (s : Session σ) (w : World σ) :
    (s.markRunning w).userScore = s.userScore := by
  unfold Session.markRunning; split <;> rfl

@[simp]
theorem Session.markRunning_computerScore (s : Session σ) (w : World σ) :
    (s.markRunning w).computerScore = s.computerScore := by
  unfold Session.markRunning; split <;> rfl

@[simp]
theorem Session.markRunning_drawCount (s : Session σ) (w : World σ) :
    (s.markRunning w).drawCount = s.drawCount := by
  unfold Session.markRunning; split <;> rfl

@[simp]
theorem Session.markRunning_user (s : Session σ) (w : World σ) :
    (s.markRunning w).user = s.user := by
  unfold Session.markRunning; split <;> rfl

@[simp]
theorem Session.markRunning_computer (s : Session σ) (w : World σ) :
    (s.markRunning w).computer = s.computer := by
  unfold Session.markRunning; split <;> rfl

@[simp]
theorem Session.notify_moves (s : Session σ) (m : Move) (w : World σ) :
    (s.notify m w).1.moves = s.moves := by
  unfold Session.notify Session.stop; split
  · dsimp only; split <;> rfl
  · rfl

@[simp]
theorem Session.notify_totalRounds (s : Session σ) (m : Move) (w : World σ) :
    (s.notify m w).1.totalRounds = s.totalRounds := by
  unfold Session.notify Session.stop; split
  · dsimp only; split <;> rfl
  · rfl

@[simp]
theorem Session.notify_userScore (s : Session σ) (m : Move) (w : World σ) :
    (s.notify m w).1.userScore = s.userScore := by
  unfold Session.notify Session.stop; split
  · dsimp only; split <;> rfl
  · rfl

@[simp]
theorem Session.notify_computerScore (s : Session σ) (m : Move) (w : World σ) :
    (s.notify m w).1.computerScore = s.computerScore := by
  unfold Session.notify Session.stop; split
  · dsimp only; split <;> rfl
  · rfl

@[simp]
theorem Session.notify_drawCount (s : Session σ) (m : Move) (w : World σ) :
    (s.notify m w).1.drawCount = s.drawCount := by
  unfold Session.notify Session.stop; split
  · dsimp only; split <;> rfl
  · rfl

@[simp]
theorem Session.closeIfComplete_moves (s : Session σ) (w : World σ) :
    (s.closeIfComplete w).moves = s.moves := by
  unfold Session.closeIfComplete; split <;> rfl

@[simp]
theorem Session.closeIfComplete_totalRounds (s : Session σ) (w : World σ) :
    (s.closeIfComplete w).totalRounds = s.totalRounds := by
  unfold Session.closeIfComplete; split <;> rfl

@[simp]
theorem Session.closeIfComplete_userScore (s : Session σ) (w : World σ) :
    (s.closeIfComplete w).userScore = s.userScore := by
  unfold Session.closeIfComplete; split <;> rfl

@[simp]
theorem Session.closeIfComplete_computerScore (s : Session σ) (w : World σ) :
    (s.closeIfComplete w).computerScore = s.computerScore := by
  unfold Session.closeIfComplete; split <;> rfl

@[simp]
theorem Session.closeIfComplete_drawCount (s : Session σ) (w : World σ) :
    (s.closeIfComplete w).drawCount = s.drawCount := by
  unfold Session.closeIfComplete; split <;> rfl

theorem Session.closeIfComplete_running_of_ge (s : Session σ) (w : World σ)
    (h : s.getRoundsPlayed ≥ s.totalRounds) : (s.closeIfComplete w).running = false := by
  unfold Session.closeIfComplete; rw [if_pos h]

@[simp]
theorem Session.playHands_moves (s : Session σ) (w : World σ) :
    (s.playHands w).session.moves = s.moves ++ [(s.playHands w).move] := by
  simp [Session.playHands]

@[simp]
theorem Session.playHands_totalRounds (s : Session σ) (w : World σ) :
    (s.playHands w).session.totalRounds = s.totalRounds := by
  simp [Session.playHands]

/-- The call that throws: nothing is touched. -/
theorem Session.playRound_of_ge (s : Session σ) (w : World σ)
    (h : s.getRoundsPlayed ≥ s.totalRounds) :
    s.playRound w =
      { result := Except.error (Error.runtime_error "All rounds have already been played."),
        self := s, world := w } := by
  unfold Session.playRound; rw [if_pos h]

/-- The call that plays a round, as the composition of its pieces. -/
theorem Session.playRound_of_lt (s : Session σ) (w : World σ)
    (h : s.getRoundsPlayed < s.totalRounds) :
    s.playRound w =
      { result := Except.ok (s.playHands w).move,
        self := (((s.playHands w).session.notify (s.playHands w).move
          (s.playHands w).world).1).closeIfComplete
            ((s.playHands w).session.notify (s.playHands w).move (s.playHands w).world).2,
        world := ((s.playHands w).session.notify (s.playHands w).move
          (s.playHands w).world).2 } := by
  unfold Session.playRound; rw [if_neg (not_le.mpr h)]

theorem Session.playRound_moves_of_lt (s : Session σ) (w : World σ)
    (h : s.getRoundsPlayed < s.totalRounds) :
    (s.playRound w).self.moves = s.moves ++ [(s.playHands w).move] := by
  rw [Session.playRound_of_lt s w h]; simp

@[simp]
theorem Session.playRound_totalRounds (s : Session σ) (w : World σ) :
    (s.playRound w).self.totalRounds = s.totalRounds := by
  by_cases h : s.getRoundsPlayed < s.totalRounds
  · rw [Session.playRound_of_lt s w h]; simp
  · rw [Session.playRound_of_ge s w (not_lt.mp h)]

end SessionLemmas

/-! ## Match engine: the claims about `playRound` -/

section SessionClaims

variable {σ : Type}

/-- C8: when the configured number of rounds has been reached, `playRound` throws
`std::runtime_error` and has no effect: the session (history, counters, running flag) and the
world, call log included, are unchanged, so neither `chooseHand` nor the round callback ran. -/
theorem playRound_exhausted_no_effect (s : Session σ) (w : World σ)
    (h : s.getRoundsPlayed ≥ s.getTotalRounds) :
    (s.playRound w).result =
        Except.error (Error.runtime_error "All rounds have already been played.") ∧
    (s.playRound w).self = s ∧
    (s.playRound w).world = w ∧
    (s.playRound w).world.calls = w.calls ∧
    (s.playRound w).self.getMoves = s.getMoves ∧
    (s.playRound w).self.getUserScore = s.getUserScore ∧
    (s.playRound w).self.getComputerScore = s.getComputerScore ∧
    (s.playRound w).self.getDrawCount = s.getDrawCount ∧
    (s.playRound w).self.isRunning = s.isRunning := by
  rw [Session.playRound_of_ge s w h]
  exact ⟨rfl, rfl, rfl, rfl, rfl, rfl, rfl, rfl, rfl⟩

/-- Witness of C8: a one-round session after its round. -/
theorem playRound_exhausted_no_effect_witness :
    ((rockVsScissors 1).playRound quietWorld).self.getRoundsPlayed ≥
        ((rockVsScissors 1).playRound quietWorld).self.getTotalRounds ∧
    ((((rockVsScissors 1).playRound quietWorld).self.playRound
        ((rockVsScissors 1).playRound quietWorld).world).result =
        Except.error (Error.runtime_error "All rounds have already been played.") ∧
      (((rockVsScissors 1).playRound quietWorld).self.playRound
        ((rockVsScissors 1).playRound quietWorld).world).self.getMoves =
        [Move.mk (Hand.mk Combination.Rock) (Hand.mk Combination.Scissors)]) :=
  have h := playRound_exhausted_no_effect ((rockVsScissors 1).playRound quietWorld).self
    ((rockVsScissors 1).playRound quietWorld).world (by decide)
  ⟨by decide, h.1, h.2.2.2.2.1.trans rfl⟩

/-- C9: while rounds remain, `playRound` returns the move made of the hands that the user's
and the computer's `chooseHand` returned in this call; that move becomes the last element of
the history, the number of rounds played grows by one, and every earlier move keeps its
position. -/
theorem playRound_appends_move (s : Session σ) (w : World σ)
    (h : s.getRoundsPlayed < s.getTotalRounds) :
    ∃ move : Move,
      (s.playRound w).result = Except.ok move ∧
      move.getUserHand = (s.user.chooseHand (w.logCall Call.userChooseHand)).1 ∧
      move.getComputerHand =
        (s.computer.chooseHand
          ((s.user.chooseHand (w.logCall Call.userChooseHand)).2.logCall
            Call.computerChooseHand)).1 ∧
      (s.playRound w).self.getMoves = s.getMoves ++ [move] ∧
      (s.playRound w).self.getMoves.getLast? = some move ∧
      (s.playRound w).self.getRoundsPlayed = s.getRoundsPlayed + 1 ∧
      ∀ i : Nat, i < s.getMoves.length →
        (s.playRound w).self.getMoves[i]? = s.getMoves[i]? := by
  have hm := Session.playRound_moves_of_lt s w h
  refine ⟨(s.playHands w).move, ?_, ?_, ?_, hm, ?_, ?_, ?_⟩
  · rw [Session.playRound_of_lt s w h]
  · simp [Session.playHands, Move.getUserHand]
  · simp [Session.playHands, Move.getComputerHand]
  · simp [Session.getMoves, hm]
  · simp [Session.getRoundsPlayed, hm]
  · intro i hi
    simp only [Session.getMoves] at hi ⊢
    rw [hm, List.getElem?_append_left hi]

/-- Witness of C9: the first round of the two-round session of the tests. -/
theorem playRound_appends_move_witness :
    (rockVsScissors 2).getRoundsPlayed < (rockVsScissors 2).getTotalRounds ∧
    ∃ move : Move,
      ((rockVsScissors 2).playRound quietWorld).result = Except.ok move ∧
      move.getUserHand = ((rockVsScissors 2).user.chooseHand
        (quietWorld.logCall Call.userChooseHand)).1 ∧
      move.getComputerHand =
        ((rockVsScissors 2).computer.chooseHand
          (((rockVsScissors 2).user.chooseHand
            (quietWorld.logCall Call.userChooseHand)).2.logCall
            Call.computerChooseHand)).1 ∧
      ((rockVsScissors 2).playRound quietWorld).self.getMoves =
        (rockVsScissors 2).getMoves ++ [move] ∧
      ((rockVsScissors 2).playRound quietWorld).self.getMoves.getLast? = some move ∧
      ((rockVsScissors 2).playRound quietWorld).self.getRoundsPlayed =
        (rockVsScissors 2).getRoundsPlayed + 1 ∧
      ∀ i : Nat, i < (rockVsScissors 2).getMoves.length →
        ((rockVsScissors 2).playRound quietWorld).self.getMoves[i]? =
          (rockVsScissors 2).getMoves[i]? :=
  ⟨by decide, playRound_appends_move (rockVsScissors 2) quietWorld (by decide)⟩

/-- C10: a successful `playRound` increments by one exactly the counter that matches the
outcome of the returned move (UserWins: user score, ComputerWins: computer score, Draw: draw
count) and leaves the other two counters and the configured number of rounds unchanged. -/
theorem playRound_counts_outcome (s : Session σ) (w : World σ) (move : Move)
    (h : (s.playRound w).result = Except.ok move) :
    (s.playRound w).self.getTotalRounds = s.getTotalRounds ∧
    (move.getWhoWins = MoveResult.UserWins →
      (s.playRound w).self.getUserScore = s.getUserScore + 1 ∧
      (s.playRound w).self.getComputerScore = s.getComputerScore ∧
      (s.playRound w).self.getDrawCount = s.getDrawCount) ∧
    (move.getWhoWins = MoveResult.ComputerWins →
      (s.playRound w).self.getUserScore = s.getUserScore ∧
      (s.playRound w).self.getComputerScore = s.getComputerScore + 1 ∧
      (s.playRound w).self.getDrawCount = s.getDrawCount) ∧
    (move.getWhoWins = MoveResult.Draw →
      (s.playRound w).self.getUserScore = s.getUserScore ∧
      (s.playRound w).self.getComputerScore = s.getComputerScore ∧
      (s.playRound w).self.getDrawCount = s.getDrawCount + 1) := by
  by_cases hlt : s.getRoundsPlayed < s.totalRounds
  · have hmove : (s.playHands w).move = move := by
      rw [Session.playRound_of_lt s w hlt] at h
      exact Except.ok.inj h
    have hsess : (s.playHands w).session = (s.markRunning w).record move := by
      rw [← hmove]; rfl
    rw [Session.playRound_of_lt s w hlt]
    simp only [Session.getTotalRounds, Session.getUserScore, Session.getComputerScore,
      Session.getDrawCount, Session.closeIfComplete_totalRounds,
      Session.closeIfComplete_userScore, Session.closeIfComplete_computerScore,
      Session.closeIfComplete_drawCount, Session.notify_totalRounds, Session.notify_userScore,
      Session.notify_computerScore, Session.notify_drawCount, hsess,
      Session.record_totalRounds, Session.record_userScore, Session.record_computerScore,
      Session.record_drawCount, Session.markRunning_totalRounds, Session.markRunning_userScore,
      Session.markRunning_computerScore, Session.markRunning_drawCount]
    refine ⟨trivial, ?_, ?_, ?_⟩ <;> intro hw <;> simp [hw]
  · rw [Session.playRound_of_ge s w (not_lt.mp hlt)] at h
    cases h

/-- Witness of C10: RockFan wins the first round of the two-round session of the tests. -/
theorem playRound_counts_outcome_witness :
    ((rockVsScissors 2).playRound quietWorld).result =
        Except.ok (Move.mk (Hand.mk Combination.Rock) (Hand.mk Combination.Scissors)) ∧
    ((rockVsScissors 2).playRound quietWorld).self.getUserScore = 1 ∧
    ((rockVsScissors 2).playRound quietWorld).self.getComputerScore = 0 ∧
    ((rockVsScissors 2).playRound quietWorld).self.getDrawCount = 0 :=
  have h := (playRound_counts_outcome (rockVsScissors 2) quietWorld
    (Move.mk (Hand.mk Combination.Rock) (Hand.mk Combination.Scissors)) rfl).2.1 (by decide)
  ⟨rfl, h.1.trans rfl, h.2.1.trans rfl, h.2.2.trans rfl⟩

end SessionClaims

/-! ## Match engine: round count and score conservation -/

section SessionInvariants

variable {σ : Type}

theorem Session.playRound_running_of_last (s : Session σ) (w : World σ)
    (h : s.getRoundsPlayed + 1 = s.totalRounds) : (s.playRound w).self.running = false := by
  have hlt : s.getRoundsPlayed < s.totalRounds := by omega
  rw [Session.playRound_of_lt s w hlt]
  apply Session.closeIfComplete_running_of_ge
  simp only [Session.getRoundsPlayed, Session.notify_moves, Session.notify_totalRounds,
    Session.playHands_moves, Session.playHands_totalRounds, List.length_append,
    List.length_singleton] at h ⊢
  omega

/-- Successive calls of `playRound` on a session with exactly `j` rounds left: every call
succeeds, `j` moves are added, and the last of them switches the running flag off. -/
theorem Session.playRounds_remaining (j : Nat) :
    ∀ (s : Session σ) (w : World σ), s.getRoundsPlayed + (j : Int) = s.totalRounds →
      (∀ r ∈ (s.playRounds j w).1, ∃ m : Move, r = Except.ok m) ∧
      (s.playRounds j w).1.length = j ∧
      (s.playRounds j w).2.1.moves.length = s.moves.length + j ∧
      (s.playRounds j w).2.1.totalRounds = s.totalRounds ∧
      (0 < j → (s.playRounds j w).2.1.running = false) := by
  induction j with
  | zero =>
    intro s w _
    simp [Session.playRounds]
  | succ k ih =>
    intro s w h
    have hlt : s.getRoundsPlayed < s.totalRounds := by omega
    have hm := Session.playRound_moves_of_lt s w hlt
    have hnext : (s.playRound w).self.getRoundsPlayed + (k : Int) =
        (s.playRound w).self.totalRounds := by
      simp only [Session.getRoundsPlayed, hm, Session.playRound_totalRounds,
        List.length_append, List.length_singleton] at h ⊢
      omega
    obtain ⟨h1, h2, h3, h4, h5⟩ := ih (s.playRound w).self (s.playRound w).world hnext
    refine ⟨?_, ?_, ?_, ?_, ?_⟩
    · intro r hr
      simp only [Session.playRounds, List.mem_cons] at hr
      rcases hr with hr | hr
      · exact ⟨(s.playHands w).move, by rw [hr, Session.playRound_of_lt s w hlt]⟩
      · exact h1 r hr
    · simp [Session.playRounds, h2]
    · simp only [Session.playRounds]
      rw [h3, hm]
      simp only [List.length_append, List.length_singleton]
      omega
    · simp only [Session.playRounds]
      rw [h4, Session.playRound_totalRounds]
    · intro _
      simp only [Session.playRounds]
      cases k with
      | zero =>
        simp only [Session.playRounds]
        exact Session.playRound_running_of_last s w (by simpa using h)
      | succ k => exact h5 (Nat.succ_pos k)

/-- C6: a session constructed with `N ≥ 1` rounds, whatever the two players and the
registered callback: the first `N` calls of `playRound` all succeed; after them `N` rounds
are played and the session is not running; the next call throws `std::runtime_error`. -/
theorem playRound_exactly_totalRounds (user computer : IPlayer σ) (N : Int) (hN : 1 ≤ N)
    (cb : Option (RoundCallback σ)) (w : World σ) :
    ∃ s : Session σ, Session.create user computer N = Except.ok s ∧
      (∀ r ∈ ((s.onRoundCompleted cb).playRounds N.toNat w).1, ∃ m : Move, r = Except.ok m) ∧
      ((s.onRoundCompleted cb).playRounds N.toNat w).1.length = N.toNat ∧
      ((s.onRoundCompleted cb).playRounds N.toNat w).2.1.getRoundsPlayed = N ∧
      ((s.onRoundCompleted cb).playRounds N.toNat w).2.1.isRunning = false ∧
      ∃ what : String,
        (((s.onRoundCompleted cb).playRounds N.toNat w).2.1.playRound
          ((s.onRoundCompleted cb).playRounds N.toNat w).2.2).result =
            Except.error (Error.runtime_error what) := by
  refine ⟨Session.fresh user computer N, ?_, ?_⟩
  · unfold Session.create; rw [if_neg (by omega)]
  · have hstart : ((Session.fresh user computer N).onRoundCompleted cb).getRoundsPlayed +
        ((N.toNat : Nat) : Int) = ((Session.fresh user computer N).onRoundCompleted cb).totalRounds := by
      simp only [Session.getRoundsPlayed, Session.onRoundCompleted, Session.fresh,
        List.length_nil]
      omega
    obtain ⟨h1, h2, h3, h4, h5⟩ :=
      Session.playRounds_remaining N.toNat _ w hstart
    have hlen : (((Session.fresh user computer N).onRoundCompleted cb).playRounds
        N.toNat w).2.1.getRoundsPlayed = N := by
      simp only [Session.getRoundsPlayed, h3]
      simp only [Session.onRoundCompleted, Session.fresh, List.length_nil]
      omega
    refine ⟨h1, h2, hlen, h5 (by omega), "All rounds have already been played.", ?_⟩
    rw [Session.playRound_of_ge]
    rw [hlen, h4]
    simp [Session.onRoundCompleted, Session.fresh]

/-- Witness of C6: the two-round session of the tests. -/
theorem playRound_exactly_totalRounds_witness :
    (1 : Int) ≤ 2 ∧
    ∃ s : Session Unit,
      Session.create (fixedUser "RockFan" Combination.Rock)
        (fixedUser "ScissorsBot" Combination.Scissors) 2 = Except.ok s ∧
      (∀ r ∈ ((s.onRoundCompleted none).playRounds (2 : Int).toNat quietWorld).1,
        ∃ m : Move, r = Except.ok m) ∧
      ((s.onRoundCompleted none).playRounds (2 : Int).toNat quietWorld).1.length
        = (2 : Int).toNat ∧
      ((s.onRoundCompleted none).playRounds (2 : Int).toNat quietWorld).2.1.getRoundsPlayed
        = 2 ∧
      ((s.onRoundCompleted none).playRounds (2 : Int).toNat quietWorld).2.1.isRunning
        = false ∧
      ∃ what : String,
        (((s.onRoundCompleted none).playRounds (2 : Int).toNat quietWorld).2.1.playRound
          ((s.onRoundCompleted none).playRounds (2 : Int).toNat quietWorld).2.2).result =
            Except.error (Error.runtime_error what) :=
  ⟨by decide, playRound_exactly_totalRounds (fixedUser "RockFan" Combination.Rock)
    (fixedUser "ScissorsBot" Combination.Scissors) 2 (by decide) none quietWorld⟩

end SessionInvariants

/-! ## Match engine: what `playRound` keeps and what it changes -/

section RoundFrame

variable {σ : Type}

@[simp]
theorem Session.record_user (s : Session σ) (m : Move) : (s.record m).user = s.user := by
  unfold Session.record; cases m.getWhoWins <;> rfl

@[simp]
theorem Session.record_computer (s : Session σ) (m : Move) :
    (s.record m).computer = s.computer := by
  unfold Session.record; cases m.getWhoWins <;> rfl

@[simp]
theorem Session.markRunning_roundCallback (s : Session σ) (w : World σ) :
    (s.markRunning w).roundCallback = s.roundCallback := by
  unfold Session.markRunning; split <;> rfl

@[simp]
theorem Session.markRunning_running (s : Session σ) (w : World σ) :
    (s.markRunning w).running = true := by
  unfold Session.markRunning
  cases h : s.running <;> simp [h]

@[simp]
theorem Session.playHands_user (s : Session σ) (w : World σ) :
    (s.playHands w).session.user = s.user := by
  simp [Session.playHands]

@[simp]
theorem Session.playHands_computer (s : Session σ) (w : World σ) :
    (s.playHands w).session.computer = s.computer := by
  simp [Session.playHands]

@[simp]
theorem Session.playHands_roundCallback (s : Session σ) (w : World σ) :
    (s.playHands w).session.roundCallback = s.roundCallback := by
  simp [Session.playHands]

@[simp]
theorem Session.playHands_running (s : Session σ) (w : World σ) :
    (s.playHands w).session.running = true := by
  simp [Session.playHands]

theorem Session.playHands_index (s : Session σ) (w : World σ) :
    (s.playHands w).session.getRoundsPlayed - 1 = s.getRoundsPlayed := by
  simp [Session.getRoundsPlayed]

@[simp]
theorem Session.notify_user (s : Session σ) (m : Move) (w : World σ) :
    (s.notify m w).1.user = s.user := by
  unfold Session.notify Session.stop; split
  · dsimp only; split <;> rfl
  · rfl

@[simp]
theorem Session.notify_computer (s : Session σ) (m : Move) (w : World σ) :
    (s.notify m w).1.computer = s.computer := by
  unfold Session.notify Session.stop; split
  · dsimp only; split <;> rfl
  · rfl

@[simp]
theorem Session.notify_roundCallback (s : Session σ) (m : Move) (w : World σ) :
    (s.notify m w).1.roundCallback = s.roundCallback := by
  unfold Session.notify Session.stop; split
  · dsimp only; split <;> rfl
  · rfl

@[simp]
theorem Session.closeIfComplete_user (s : Session σ) (w : World σ) :
    (s.closeIfComplete w).user = s.user := by
  unfold Session.closeIfComplete; split <;> rfl

@[simp]
theorem Session.closeIfComplete_computer (s : Session σ) (w : World σ) :
    (s.closeIfComplete w).computer = s.computer := by
  unfold Session.closeIfComplete; split <;> rfl

@[simp]
theorem Session.closeIfComplete_roundCallback (s : Session σ) (w : World σ) :
    (s.closeIfComplete w).roundCallback = s.roundCallback := by
  unfold Session.closeIfComplete; split <;> rfl

theorem Session.closeIfComplete_running_of_lt (s : Session σ) (w : World σ)
    (h : s.getRoundsPlayed < s.totalRounds) : (s.closeIfComplete w).running = s.running := by
  unfold Session.closeIfComplete; rw [if_neg (not_le.mpr h)]

@[simp]
theorem Session.playRound_user (s : Session σ) (w : World σ) :
    (s.playRound w).self.user = s.user := by
  by_cases h : s.getRoundsPlayed < s.totalRounds
  · rw [Session.playRound_of_lt s w h]; simp
  · rw [Session.playRound_of_ge s w (not_lt.mp h)]

@[simp]
theorem Session.playRound_computer (s : Session σ) (w : World σ) :
    (s.playRound w).self.computer = s.computer := by
  by_cases h : s.getRoundsPlayed < s.totalRounds
  · rw [Session.playRound_of_lt s w h]; simp
  · rw [Session.playRound_of_ge s w (not_lt.mp h)]

@[simp]
theorem Session.playRound_roundCallback (s : Session σ) (w : World σ) :
    (s.playRound w).self.roundCallback = s.roundCallback := by
  by_cases h : s.getRoundsPlayed < s.totalRounds
  · rw [Session.playRound_of_lt s w h]; simp
  · rw [Session.playRound_of_ge s w (not_lt.mp h)]

theorem Session.playRound_result_of_lt (s : Session σ) (w : World σ)
    (h : s.getRoundsPlayed < s.totalRounds) :
    (s.playRound w).result = Except.ok (s.playHands w).move := by
  rw [Session.playRound_of_lt s w h]

theorem Session.playRound_getRoundsPlayed_of_lt (s : Session σ) (w : World σ)
    (h : s.getRoundsPlayed < s.totalRounds) :
    (s.playRound w).self.getRoundsPlayed = s.getRoundsPlayed + 1 := by
  simp [Session.getRoundsPlayed, Session.playRound_moves_of_lt s w h]

theorem Session.playRound_userScore_of_lt (s : Session σ) (w : World σ)
    (h : s.getRoundsPlayed < s.totalRounds) :
    (s.playRound w).self.userScore = s.userScore +
      (if (s.playHands w).move.getWhoWins = MoveResult.UserWins then 1 else 0) := by
  rw [Session.playRound_of_lt s w h]
  simp [Session.playHands, Session.record_userScore]

theorem Session.playRound_computerScore_of_lt (s : Session σ) (w : World σ)
    (h : s.getRoundsPlayed < s.totalRounds) :
    (s.playRound w).self.computerScore = s.computerScore +
      (if (s.playHands w).move.getWhoWins = MoveResult.ComputerWins then 1 else 0) := by
  rw [Session.playRound_of_lt s w h]
  simp [Session.playHands, Session.record_computerScore]

theorem Session.playRound_drawCount_of_lt (s : Session σ) (w : World σ)
    (h : s.getRoundsPlayed < s.totalRounds) :
    (s.playRound w).self.drawCount = s.drawCount +
      (if (s.playHands w).move.getWhoWins = MoveResult.Draw then 1 else 0) := by
  rw [Session.playRound_of_lt s w h]
  simp [Session.playHands, Session.record_drawCount]

/-- The session handed on by the callback step runs unless the callback asked to stop. -/
theorem Session.notify_running (s : Session σ) (w : World σ) :
    ((s.playHands w).session.notify (s.playHands w).move (s.playHands w).world).1.running =
      !(s.stopRequested w) := by
  unfold Session.notify Session.stopRequested
  rw [Session.playHands_roundCallback, Session.playHands_index]
  cases hcb : s.roundCallback with
  | none => simp
  | some cb =>
    dsimp only
    split
    · rename_i hstop
      simp [Session.stop, hstop]
    · rename_i hstop
      simp [hstop]

/-- The running flag after a round that is not the last one. -/
theorem Session.playRound_running_of_not_last (s : Session σ) (w : World σ)
    (h : s.getRoundsPlayed + 1 < s.totalRounds) :
    (s.playRound w).self.running = !(s.stopRequested w) := by
  have hlt : s.getRoundsPlayed < s.totalRounds := by omega
  rw [Session.playRound_of_lt s w hlt, Session.closeIfComplete_running_of_lt,
    Session.notify_running]
  simp only [Session.getRoundsPlayed, Session.notify_moves, Session.notify_totalRounds,
    Session.playHands_moves, Session.playHands_totalRounds, List.length_append,
    List.length_singleton] at h ⊢
  omega

/-- The running flag after any successful round: still running iff the callback did not ask
to stop and rounds remain. -/
theorem Session.playRound_running_of_lt (s : Session σ) (w : World σ)
    (h : s.getRoundsPlayed < s.totalRounds) :
    (s.playRound w).self.running =
      (!(s.stopRequested w) && decide (s.getRoundsPlayed + 1 < s.totalRounds)) := by
  by_cases hlast : s.getRoundsPlayed + 1 < s.totalRounds
  · rw [Session.playRound_running_of_not_last s w hlast]; simp [hlast]
  · rw [Session.playRound_running_of_last s w (by omega)]; simp [hlast]

theorem Session.stopRequested_of_neverStops (s : Session σ) (w : World σ)
    (h : s.NeverStops) : s.stopRequested w = false := by
  unfold Session.stopRequested
  cases hcb : s.roundCallback with
  | none => rfl
  | some cb => exact h cb hcb _ _ _

theorem Session.neverStops_playRound (s : Session σ) (w : World σ) (h : s.NeverStops) :
    (s.playRound w).self.NeverStops := by
  unfold Session.NeverStops at h ⊢
  rw [Session.playRound_roundCallback]
  exact h

end RoundFrame

/-! ## Match engine: score conservation -/

section ScoreConservation

variable {σ : Type}

theorem Session.conserved_fresh (user computer : IPlayer σ) (rounds : Int) :
    (Session.fresh user computer rounds).Conserved := by
  simp [Session.Conserved, Session.fresh]

theorem Session.conserved_record (s : Session σ) (m : Move) (h : s.Conserved) :
    (s.record m).Conserved := by
  unfold Session.Conserved at h ⊢
  rw [Session.record_userScore, Session.record_computerScore, Session.record_drawCount,
    Session.record_moves, List.length_append, List.length_singleton]
  cases m.getWhoWins <;> simp <;> omega

theorem Session.conserved_playHands (s : Session σ) (w : World σ) (h : s.Conserved) :
    (s.playHands w).session.Conserved := by
  apply Session.conserved_record
  unfold Session.Conserved at h ⊢
  simpa using h

theorem Session.conserved_playRound (s : Session σ) (w : World σ) (h : s.Conserved) :
    (s.playRound w).self.Conserved := by
  by_cases hlt : s.getRoundsPlayed < s.totalRounds
  · have hp := Session.conserved_playHands s w h
    rw [Session.playRound_of_lt s w hlt]
    unfold Session.Conserved at hp ⊢
    simpa using hp
  · rw [Session.playRound_of_ge s w (not_lt.mp hlt)]
    exact h

/-- A property kept by every `playRound` is kept by the loop of `start`. -/
theorem Session.startLoop_preserves (P : Session σ → Prop)
    (hstep : ∀ (s : Session σ) (w : World σ), P s → P (s.playRound w).self) (fuel : Nat) :
    ∀ (s : Session σ) (w : World σ) (r : Outcome σ (Session σ) Unit),
      Session.startLoop fuel s w = some r → P s → P r.self := by
  induction fuel with
  | zero => intro s w r h; simp [Session.startLoop] at h
  | succ n ih =>
    intro s w r h hs
    unfold Session.startLoop at h
    split at h
    · split at h
      · exact ih _ _ r h (hstep s w hs)
      · cases h
        exact hstep s w hs
    · cases h
      exact hs

/-- The loop of `start` ends within any budget above the number of rounds still to play. -/
theorem Session.startLoop_terminates (fuel : Nat) :
    ∀ (s : Session σ) (w : World σ), (s.totalRounds - s.getRoundsPlayed).toNat < fuel →
      ∃ r : Outcome σ (Session σ) Unit,
        Session.startLoop fuel s w = some r ∧ r.result = Except.ok () := by
  induction fuel with
  | zero => intro s w h; omega
  | succ n ih =>
    intro s w h
    unfold Session.startLoop
    by_cases hc : (s.running && decide (s.getRoundsPlayed < s.totalRounds)) = true
    · rw [if_pos hc]
      have hlt : s.getRoundsPlayed < s.totalRounds := by
        simp only [Bool.and_eq_true, decide_eq_true_eq] at hc
        exact hc.2
      have hm := Session.playRound_moves_of_lt s w hlt
      have hres : (s.playRound w).result = Except.ok (s.playHands w).move := by
        rw [Session.playRound_of_lt s w hlt]
      rw [hres]
      apply ih
      simp only [Session.getRoundsPlayed, hm, Session.playRound_totalRounds,
        List.length_append, List.length_singleton] at h hlt ⊢
      omega
    · rw [if_neg hc]
      exact ⟨_, rfl, rfl⟩

/-- Method `start` always returns, and returns normally. -/
theorem Session.start_terminates (s : Session σ) (w : World σ) :
    ∃ r : Outcome σ (Session σ) Unit, s.start w = some r ∧ r.result = Except.ok () := by
  obtain ⟨r, hr, hok⟩ := Session.startLoop_terminates
    ((s.totalRounds - s.getRoundsPlayed).toNat + 1) (s.startEntry w) w
    (by simp [Session.startEntry, Session.getRoundsPlayed])
  refine ⟨{ result := Except.ok (),
            self := { r.self with running := false, endTime := r.world.now },
            world := r.world }, ?_, rfl⟩
  unfold Session.start
  rw [hr]
  dsimp only
  rw [hok]

theorem Session.conserved_start (s : Session σ) (w : World σ)
    (r : Outcome σ (Session σ) Unit) (hr : s.start w = some r) (h : s.Conserved) :
    r.self.Conserved := by
  unfold Session.start at hr
  split at hr
  · rename_i r0 h0
    have hloop : r0.self.Conserved :=
      Session.startLoop_preserves Session.Conserved Session.conserved_playRound _ _ _ r0 h0 h
    split at hr <;> cases hr <;> exact hloop
  · cases hr

theorem Session.Reachable.conserved {s : Session σ} (h : Session.Reachable s) :
    s.Conserved := by
  induction h with
  | create user computer rounds s hc =>
    unfold Session.create at hc
    split at hc
    · cases hc
    · cases hc
      exact Session.conserved_fresh user computer rounds
  | onRoundCompleted s cb _ ih => exact ih
  | playRound s w _ ih => exact Session.conserved_playRound s w ih
  | start s w r _ hr ih => exact Session.conserved_start s w r hr ih
  | stop s w _ ih => exact ih
  | startEntry s w _ ih => exact ih
  | inChooseHand s w _ _ ih =>
    unfold Session.Conserved at ih ⊢
    simpa using ih
  | inCallback s w _ _ ih => exact Session.conserved_playHands s w ih

theorem Session.bounded_playHands (s : Session σ) (w : World σ) (h : s.Bounded)
    (hlt : s.getRoundsPlayed < s.totalRounds) : (s.playHands w).session.Bounded := by
  unfold Session.Bounded at h ⊢
  simp only [Session.playHands, Session.record_userScore, Session.record_computerScore,
    Session.record_drawCount, Session.record_moves, Session.record_totalRounds,
    Session.markRunning_userScore, Session.markRunning_computerScore,
    Session.markRunning_drawCount, Session.markRunning_moves,
    Session.markRunning_totalRounds, List.length_append, List.length_singleton]
  simp only [Session.getRoundsPlayed] at hlt
  refine ⟨?_, ?_, ?_, ?_⟩
  · split <;> omega
  · split <;> omega
  · split <;> omega
  · push_cast; omega

theorem Session.bounded_playRound (s : Session σ) (w : World σ) (h : s.Bounded) :
    (s.playRound w).self.Bounded := by
  by_cases hlt : s.getRoundsPlayed < s.totalRounds
  · have hp := Session.bounded_playHands s w h hlt
    rw [Session.playRound_of_lt s w hlt]
    unfold Session.Bounded at hp ⊢
    simpa using hp
  · rw [Session.playRound_of_ge s w (not_lt.mp hlt)]
    exact h

/-- In every observable state the counters are non-negative and at most `totalRounds` moves
are recorded; with conservation, no counter exceeds the `int` given to the constructor. -/
theorem Session.Reachable.bounded {s : Session σ} (h : Session.Reachable s) :
    s.Bounded := by
  induction h with
  | create user computer rounds s hc =>
    unfold Session.create at hc
    split at hc
    · cases hc
    · rename_i hneg
      cases hc
      simp only [Session.Bounded, Session.fresh, List.length_nil]
      omega
  | onRoundCompleted s cb _ ih => exact ih
  | playRound s w _ ih => exact Session.bounded_playRound s w ih
  | start s w r _ hr ih =>
    unfold Session.start at hr
    split at hr
    · rename_i r0 h0
      have hloop : r0.self.Bounded :=
        Session.startLoop_preserves Session.Bounded Session.bounded_playRound _ _ _ r0 h0 ih
      split at hr <;> cases hr <;> exact hloop
    · cases hr
  | stop s w _ ih => exact ih
  | startEntry s w _ ih => exact ih
  | inChooseHand s w _ _ ih =>
    unfold Session.Bounded at ih ⊢
    simpa using ih
  | inCallback s w _ hlt ih => exact Session.bounded_playHands s w ih hlt

/-- C7: score conservation.  In every session state that can be observed (between the public
calls `playRound`, `start`, `stop`, `onRoundCompleted` after construction, and inside the
round callback), user score + computer score + draw count = rounds played. -/
theorem score_conservation (s : Session σ) (h : Session.Reachable s) :
    s.getUserScore + s.getComputerScore + s.getDrawCount = s.getRoundsPlayed :=
  Session.Reachable.conserved h

/-- Witness of C7: the state seen by the callback in the second round of a three-round
session, after a first round and a `stop()`. -/
theorem score_conservation_witness :
    Session.Reachable
      ((((rockVsScissors 3).playRound quietWorld).self.stop quietWorld).playHands
        quietWorld).session ∧
    ((((rockVsScissors 3).playRound quietWorld).self.stop quietWorld).playHands
        quietWorld).session.getUserScore +
      ((((rockVsScissors 3).playRound quietWorld).self.stop quietWorld).playHands
        quietWorld).session.getComputerScore +
      ((((rockVsScissors 3).playRound quietWorld).self.stop quietWorld).playHands
        quietWorld).session.getDrawCount =
      ((((rockVsScissors 3).playRound quietWorld).self.stop quietWorld).playHands
        quietWorld).session.getRoundsPlayed ∧
    ((((rockVsScissors 3).playRound quietWorld).self.stop quietWorld).playHands
        quietWorld).session.getRoundsPlayed = 2 :=
  have hr : Session.Reachable
      ((((rockVsScissors 3).playRound quietWorld).self.stop quietWorld).playHands
        quietWorld).session :=
    Session.Reachable.inCallback _ quietWorld
      (Session.Reachable.stop _ quietWorld
        (Session.Reachable.playRound _ quietWorld
          (Session.Reachable.create (fixedUser "RockFan" Combination.Rock)
            (fixedUser "ScissorsBot" Combination.Scissors) 3 (rockVsScissors 3) rfl)))
      (by decide)
  ⟨hr, score_conservation _ hr, by decide⟩

end ScoreConservation

/-! ## Match engine: the loop of `start` -/

section StartLoop

variable {σ : Type}

/-- A property of session and world kept by every `playRound` is kept by the loop of
`start`. -/
theorem Session.startLoop_preserves_pair (P : Session σ → World σ → Prop)
    (hstep : ∀ (s : Session σ) (w : World σ), s.getRoundsPlayed < s.totalRounds →
      P s w → P (s.playRound w).self (s.playRound w).world) (fuel : Nat) :
    ∀ (s : Session σ) (w : World σ) (r : Outcome σ (Session σ) Unit),
      Session.startLoop fuel s w = some r → P s w → P r.self r.world := by
  induction fuel with
  | zero => intro s w r h; simp [Session.startLoop] at h
  | succ n ih =>
    intro s w r h hs
    unfold Session.startLoop at h
    split at h
    · rename_i hc
      have hlt : s.getRoundsPlayed < s.totalRounds := by
        simp only [Bool.and_eq_true, decide_eq_true_eq] at hc
        exact hc.2
      split at h
      · exact ih _ _ r h (hstep s w hlt hs)
      · cases h
        exact hstep s w hlt hs
    · cases h
      exact hs

/-- With a callback that never stops the session, the loop of `start` plays every round
that is left and returns normally. -/
theorem Session.startLoop_plays_all (fuel : Nat) :
    ∀ (s : Session σ) (w : World σ), s.NeverStops →
      (s.getRoundsPlayed < s.totalRounds → s.running = true) →
      s.getRoundsPlayed ≤ s.totalRounds →
      (s.totalRounds - s.getRoundsPlayed).toNat < fuel →
      ∃ r : Outcome σ (Session σ) Unit,
        Session.startLoop fuel s w = some r ∧ r.result = Except.ok () ∧
        r.self.getRoundsPlayed = s.totalRounds ∧ r.self.totalRounds = s.totalRounds := by
  induction fuel with
  | zero => intro s w _ _ _ h; omega
  | succ n ih =>
    intro s w hns hrun hle hfuel
    unfold Session.startLoop
    by_cases hlt : s.getRoundsPlayed < s.totalRounds
    · have hc : (s.running && decide (s.getRoundsPlayed < s.totalRounds)) = true := by
        simp [hrun hlt, hlt]
      rw [if_pos hc, Session.playRound_result_of_lt s w hlt]
      have hsize := Session.playRound_getRoundsPlayed_of_lt s w hlt
      have htot := Session.playRound_totalRounds s w
      obtain ⟨r, hr, hok, hplayed, htotal⟩ := ih (s.playRound w).self (s.playRound w).world
        (Session.neverStops_playRound s w hns)
        (by
          intro hnext
          rw [hsize, htot] at hnext
          rw [Session.playRound_running_of_not_last s w hnext,
            Session.stopRequested_of_neverStops s w hns]
          rfl)
        (by rw [hsize, htot]; omega)
        (by rw [hsize, htot]; omega)
      exact ⟨r, hr, hok, by rw [hplayed, htot], by rw [htotal, htot]⟩
    · have hc : ¬ (s.running && decide (s.getRoundsPlayed < s.totalRounds)) = true := by
        simp [hlt]
      rw [if_neg hc]
      exact ⟨_, rfl, rfl, by dsimp only; omega, rfl⟩

/-- The loop of `start` leaves as soon as the round callback calls `stop()`: if the callback
does not stop before the round of index `k` and stops in that round, the loop ends with
`k + 1` rounds played. -/
theorem Session.startLoop_stops_at (k : Int) (cb : RoundCallback σ)
    (hbefore : ∀ (i : Int) (m : Move) (v : World σ), i < k → (cb i m v).2 = false)
    (hat : ∀ (m : Move) (v : World σ), (cb k m v).2 = true) (fuel : Nat) :
    ∀ (s : Session σ) (w : World σ), s.roundCallback = some cb → s.running = true →
      s.getRoundsPlayed ≤ k → k < s.totalRounds →
      (s.totalRounds - s.getRoundsPlayed).toNat < fuel →
      ∃ r : Outcome σ (Session σ) Unit,
        Session.startLoop fuel s w = some r ∧ r.result = Except.ok () ∧
        r.self.getRoundsPlayed = k + 1 ∧ r.self.running = false := by
  induction fuel with
  | zero => intro s w _ _ _ _ h; omega
  | succ n ih =>
    intro s w hcb hrun hle hk hfuel
    have hlt : s.getRoundsPlayed < s.totalRounds := by omega
    have hsize := Session.playRound_getRoundsPlayed_of_lt s w hlt
    have htot := Session.playRound_totalRounds s w
    unfold Session.startLoop
    have hc : (s.running && decide (s.getRoundsPlayed < s.totalRounds)) = true := by
      simp [hrun, hlt]
    rw [if_pos hc, Session.playRound_result_of_lt s w hlt]
    by_cases hidx : s.getRoundsPlayed = k
    · have hstop : s.stopRequested w = true := by
        unfold Session.stopRequested
        rw [hcb, hidx]
        exact hat _ _
      have hoff : (s.playRound w).self.running = false := by
        rw [Session.playRound_running_of_lt s w hlt, hstop]
        rfl
      obtain ⟨n0, rfl⟩ : ∃ n0, n = n0 + 1 := ⟨n - 1, by omega⟩
      refine ⟨{ result := Except.ok (), self := (s.playRound w).self,
                world := (s.playRound w).world }, ?_, rfl, ?_, hoff⟩
      · unfold Session.startLoop
        rw [hoff]
        rfl
      · dsimp only
        rw [hsize, hidx]
    · have hnostop : s.stopRequested w = false := by
        unfold Session.stopRequested
        rw [hcb]
        exact hbefore _ _ _ (by omega)
      have hon : (s.playRound w).self.running = true := by
        rw [Session.playRound_running_of_not_last s w (by omega), hnostop]
        rfl
      exact ih (s.playRound w).self (s.playRound w).world
        (by rw [Session.playRound_roundCallback, hcb]) hon
        (by rw [hsize]; omega) (by rw [htot]; exact hk) (by rw [hsize, htot]; omega)

/-- What `start` returns in terms of its loop. -/
theorem Session.start_of_loop (s : Session σ) (w : World σ)
    (r : Outcome σ (Session σ) Unit)
    (hr : Session.startLoop ((s.totalRounds - s.getRoundsPlayed).toNat + 1)
      (s.startEntry w) w = some r)
    (hok : r.result = Except.ok ()) :
    s.start w = some { result := Except.ok (),
                       self := { r.self with running := false, endTime := r.world.now },
                       world := r.world } := by
  unfold Session.start
  rw [hr]
  dsimp only
  rw [hok]

end StartLoop

/-! ## Match engine: `whoWins`, `start` and `stop` -/

section StartClaims

variable {σ : Type}

theorem Session.playHands_move (s : Session σ) (w : World σ) :
    (s.playHands w).move =
      Move.mk (s.user.chooseHand (w.logCall Call.userChooseHand)).1
        (s.computer.chooseHand
          ((s.user.chooseHand (w.logCall Call.userChooseHand)).2.logCall
            Call.computerChooseHand)).1 := by
  simp [Session.playHands]

/-- The counters after `start()` on a fresh session whose players produce, round after
round, moves of one and the same outcome. -/
theorem Session.start_fresh_constant_outcome (user computer : IPlayer σ) (N : Int)
    (res : MoveResult) (w : World σ) (hN : 0 ≤ N)
    (hres : ∀ v v2 : World σ,
      (Move.mk (user.chooseHand v).1 (computer.chooseHand v2).1).getWhoWins = res) :
    ∃ r : Outcome σ (Session σ) Unit,
      (Session.fresh user computer N).start w = some r ∧ r.result = Except.ok () ∧
      r.self.getRoundsPlayed = N ∧ r.self.running = false ∧
      r.self.user = user ∧ r.self.computer = computer ∧
      r.self.userScore = (if res = MoveResult.UserWins then N else 0) ∧
      r.self.computerScore = (if res = MoveResult.ComputerWins then N else 0) ∧
      r.self.drawCount = (if res = MoveResult.Draw then N else 0) := by
  have hns : ((Session.fresh user computer N).startEntry w).NeverStops := by
    intro cb hcb
    simp [Session.startEntry, Session.fresh] at hcb
  obtain ⟨r, hr, hok, hplayed, _⟩ := Session.startLoop_plays_all
    (((Session.fresh user computer N).totalRounds -
      (Session.fresh user computer N).getRoundsPlayed).toNat + 1)
    ((Session.fresh user computer N).startEntry w) w hns (fun _ => rfl)
    (by simp [Session.startEntry, Session.fresh, Session.getRoundsPlayed]; exact hN)
    (by simp [Session.startEntry, Session.fresh, Session.getRoundsPlayed])
  have hinv := Session.startLoop_preserves_pair
    (fun (s : Session σ) (_ : World σ) =>
      s.user = user ∧ s.computer = computer ∧
      s.userScore = (if res = MoveResult.UserWins then s.getRoundsPlayed else 0) ∧
      s.computerScore = (if res = MoveResult.ComputerWins then s.getRoundsPlayed else 0) ∧
      s.drawCount = (if res = MoveResult.Draw then s.getRoundsPlayed else 0))
    (by
      intro s v hlt ⟨hu, hc, h1, h2, h3⟩
      have hmove : (s.playHands v).move.getWhoWins = res := by
        rw [Session.playHands_move, hu, hc]
        exact hres _ _
      refine ⟨by rw [Session.playRound_user, hu], by rw [Session.playRound_computer, hc],
        ?_, ?_, ?_⟩
      · rw [Session.playRound_userScore_of_lt s v hlt,
          Session.playRound_getRoundsPlayed_of_lt s v hlt, hmove, h1]
        split <;> simp
      · rw [Session.playRound_computerScore_of_lt s v hlt,
          Session.playRound_getRoundsPlayed_of_lt s v hlt, hmove, h2]
        split <;> simp
      · rw [Session.playRound_drawCount_of_lt s v hlt,
          Session.playRound_getRoundsPlayed_of_lt s v hlt, hmove, h3]
        split <;> simp)
    _ _ w r hr
    (by simp [Session.startEntry, Session.fresh, Session.getRoundsPlayed])
  obtain ⟨hu, hc, h1, h2, h3⟩ := hinv
  have htotal : ((Session.fresh user computer N).startEntry w).totalRounds = N := rfl
  rw [htotal] at hplayed
  rw [hplayed] at h1 h2 h3
  exact ⟨_, Session.start_of_loop _ w r hr hok, rfl, hplayed, rfl, hu, hc, h1, h2, h3⟩

theorem Move.getWhoWins_of_beats (u c : Combination) (h : beats u c = true) :
    (Move.mk (Hand.mk u) (Hand.mk c)).getWhoWins = MoveResult.UserWins := by
  revert h
  cases u <;> cases c <;> decide

theorem Move.getWhoWins_of_same (g : Combination) :
    (Move.mk (Hand.mk g) (Hand.mk g)).getWhoWins = MoveResult.Draw := by
  cases g <;> decide

theorem Session.create_of_nonneg (user computer : IPlayer σ) (N : Int) (hN : 0 ≤ N) :
    Session.create user computer N = Except.ok (Session.fresh user computer N) := by
  unfold Session.create
  rw [if_neg (by omega)]

/-- C12: `whoWins` returns the user's name when the user's score is the greater, the
computer's name when the computer's score is the greater, and "Draw" when the scores are
equal; in particular "Draw" right after construction, before any round. -/
theorem whoWins_by_scores (s : Session σ) (w : World σ) :
    (s.getUserScore > s.getComputerScore → s.whoWins w = s.user.getName w.ext) ∧
    (s.getComputerScore > s.getUserScore → s.whoWins w = s.computer.getName w.ext) ∧
    (s.getUserScore = s.getComputerScore → s.whoWins w = "Draw") ∧
    (∀ (user computer : IPlayer σ) (rounds : Int) (s0 : Session σ),
      Session.create user computer rounds = Except.ok s0 →
        s0.getUserScore = 0 ∧ s0.getComputerScore = 0 ∧ s0.whoWins w = "Draw") := by
  simp only [Session.getUserScore, Session.getComputerScore]
  refine ⟨?_, ?_, ?_, ?_⟩
  · intro h
    unfold Session.whoWins
    rw [if_pos h]
  · intro h
    unfold Session.whoWins
    rw [if_neg (by omega), if_pos h]
  · intro h
    unfold Session.whoWins
    rw [if_neg (by omega), if_neg (by omega)]
  · intro user computer rounds s0 hs0
    unfold Session.create at hs0
    split at hs0
    · cases hs0
    · cases hs0
      exact ⟨rfl, rfl, rfl⟩

/-- C13: in a fresh session of `N ≥ 1` rounds whose user always plays `u` and whose computer
always plays `c`, with `u` beating `c`, `start()` returns with user score `N`, computer score
0, draw count 0, `N` rounds played, not running, and `whoWins` gives the user's name. -/
theorem start_user_wins_every_round (user computer : IPlayer σ) (N : Int)
    (u c : Combination) (w : World σ) (hN : 1 ≤ N) (hb : beats u c = true)
    (hu : ∀ v : World σ, (user.chooseHand v).1 = Hand.mk u)
    (hc : ∀ v : World σ, (computer.chooseHand v).1 = Hand.mk c) :
    ∃ (s : Session σ) (r : Outcome σ (Session σ) Unit),
      Session.create user computer N = Except.ok s ∧
      s.start w = some r ∧ r.result = Except.ok () ∧
      r.self.getUserScore = N ∧ r.self.getComputerScore = 0 ∧ r.self.getDrawCount = 0 ∧
      r.self.getRoundsPlayed = N ∧ r.self.isRunning = false ∧
      r.self.whoWins r.world = user.getName r.world.ext := by
  obtain ⟨r, hr, hok, hplayed, hrun, huser, _, h1, h2, h3⟩ :=
    Session.start_fresh_constant_outcome user computer N MoveResult.UserWins w (by omega)
      (by intro v v2; rw [hu, hc]; exact Move.getWhoWins_of_beats u c hb)
  simp only [if_true, if_false, reduceCtorEq] at h1 h2 h3
  refine ⟨_, r, Session.create_of_nonneg user computer N (by omega), hr, hok, h1, h2, h3,
    hplayed, hrun, ?_⟩
  unfold Session.whoWins
  rw [h1, h2, if_pos (by omega), huser]

/-- Witness of C13: the five-round test, Rock against Scissors. -/
theorem start_user_wins_every_round_witness :
    (1 : Int) ≤ 5 ∧ beats Combination.Rock Combination.Scissors = true ∧
    ∃ (s : Session Unit) (r : Outcome Unit (Session Unit) Unit),
      Session.create (fixedUser "RockFan" Combination.Rock)
        (fixedUser "ScissorsBot" Combination.Scissors) 5 = Except.ok s ∧
      s.start quietWorld = some r ∧ r.result = Except.ok () ∧
      r.self.getUserScore = 5 ∧ r.self.getComputerScore = 0 ∧ r.self.getDrawCount = 0 ∧
      r.self.getRoundsPlayed = 5 ∧ r.self.isRunning = false ∧
      r.self.whoWins r.world =
        (fixedUser "RockFan" Combination.Rock).getName r.world.ext :=
  ⟨by decide, by decide,
    start_user_wins_every_round (fixedUser "RockFan" Combination.Rock)
      (fixedUser "ScissorsBot" Combination.Scissors) 5 Combination.Rock Combination.Scissors
      quietWorld (by decide) (by decide) (fun _ => rfl) (fun _ => rfl)⟩

/-- C14: in a fresh session of `N ≥ 1` rounds whose two players always play the same
gesture `g`, `start()` returns with draw count `N`, both scores 0, and `whoWins` is "Draw". -/
theorem start_all_draws (user computer : IPlayer σ) (N : Int) (g : Combination)
    (w : World σ) (hN : 1 ≤ N)
    (hu : ∀ v : World σ, (user.chooseHand v).1 = Hand.mk g)
    (hc : ∀ v : World σ, (computer.chooseHand v).1 = Hand.mk g) :
    ∃ (s : Session σ) (r : Outcome σ (Session σ) Unit),
      Session.create user computer N = Except.ok s ∧
      s.start w = some r ∧ r.result = Except.ok () ∧
      r.self.getDrawCount = N ∧ r.self.getUserScore = 0 ∧ r.self.getComputerScore = 0 ∧
      r.self.whoWins r.world = "Draw" := by
  obtain ⟨r, hr, hok, _, _, _, _, h1, h2, h3⟩ :=
    Session.start_fresh_constant_outcome user computer N MoveResult.Draw w (by omega)
      (by intro v v2; rw [hu, hc]; exact Move.getWhoWins_of_same g)
  simp only [if_true, if_false, reduceCtorEq] at h1 h2 h3
  refine ⟨_, r, Session.create_of_nonneg user computer N (by omega), hr, hok, h3, h1, h2, ?_⟩
  unfold Session.whoWins
  rw [h1, h2, if_neg (by omega), if_neg (by omega)]

/-- Witness of C14: the three-round test, Rock against Rock. -/
theorem start_all_draws_witness :
    (1 : Int) ≤ 3 ∧
    ∃ (s : Session Unit) (r : Outcome Unit (Session Unit) Unit),
      Session.create (fixedUser "RockFan" Combination.Rock)
        (fixedUser "RockBot" Combination.Rock) 3 = Except.ok s ∧
      s.start quietWorld = some r ∧ r.result = Except.ok () ∧
      r.self.getDrawCount = 3 ∧ r.self.getUserScore = 0 ∧ r.self.getComputerScore = 0 ∧
      r.self.whoWins r.world = "Draw" :=
  ⟨by decide,
    start_all_draws (fixedUser "RockFan" Combination.Rock)
      (fixedUser "RockBot" Combination.Rock) 3 Combination.Rock quietWorld (by decide)
      (fun _ => rfl) (fun _ => rfl)⟩

/-- C15: on a fresh session of `N ≥ 0` rounds whose callback, if any, never calls `stop()`,
`start()` returns, returns normally (no exception), has played exactly `N` rounds
(`getMoves().size() = getRoundsPlayed() = N`) and leaves the session not running. -/
theorem start_plays_all_rounds (user computer : IPlayer σ) (N : Int)
    (cb : Option (RoundCallback σ)) (w : World σ) (hN : 0 ≤ N)
    (hcb : ∀ f : RoundCallback σ, cb = some f →
      ∀ (i : Int) (m : Move) (v : World σ), (f i m v).2 = false) :
    ∃ (s : Session σ) (r : Outcome σ (Session σ) Unit),
      Session.create user computer N = Except.ok s ∧
      (s.onRoundCompleted cb).start w = some r ∧ r.result = Except.ok () ∧
      (r.self.getMoves.length : Int) = N ∧ r.self.getRoundsPlayed = N ∧
      r.self.isRunning = false := by
  obtain ⟨r, hr, hok, hplayed, _⟩ := Session.startLoop_plays_all
    ((((Session.fresh user computer N).onRoundCompleted cb).totalRounds -
      ((Session.fresh user computer N).onRoundCompleted cb).getRoundsPlayed).toNat + 1)
    (((Session.fresh user computer N).onRoundCompleted cb).startEntry w) w
    (fun f hf => hcb f hf) (fun _ => rfl)
    (by
      simp [Session.startEntry, Session.onRoundCompleted, Session.fresh,
        Session.getRoundsPlayed]
      exact hN)
    (by
      simp [Session.startEntry, Session.onRoundCompleted, Session.fresh,
        Session.getRoundsPlayed])
  have htotal :
      (((Session.fresh user computer N).onRoundCompleted cb).startEntry w).totalRounds = N :=
    rfl
  rw [htotal] at hplayed
  exact ⟨_, _, Session.create_of_nonneg user computer N hN,
    Session.start_of_loop _ w r hr hok, rfl, hplayed, hplayed, rfl⟩

/-- Witness of C15: the four-round test with a counting callback. -/
theorem start_plays_all_rounds_witness :
    (0 : Int) ≤ 4 ∧
    ∃ (s : Session Nat) (r : Outcome Nat (Session Nat) Unit),
      Session.create (constantUser "RockFan" Combination.Rock)
        (constantUser "ScissorsBot" Combination.Scissors) 4 = Except.ok s ∧
      (s.onRoundCompleted (some countingCallback)).start (worldOf 0) = some r ∧
      r.result = Except.ok () ∧
      (r.self.getMoves.length : Int) = 4 ∧ r.self.getRoundsPlayed = 4 ∧
      r.self.isRunning = false :=
  ⟨by decide,
    start_plays_all_rounds (constantUser "RockFan" Combination.Rock)
      (constantUser "ScissorsBot" Combination.Scissors) 4 (some countingCallback) (worldOf 0)
      (by decide) (fun f hf i m v => by cases hf; rfl)⟩

end StartClaims

/-! ## Match engine: `stop` and the callback slot -/

section StopClaims

variable {σ : Type}

/-- The loop of `start` ends after the round in which the callback calls `stop()`. -/
theorem Session.startLoop_stops_now (s : Session σ) (w : World σ) (fuel : Nat)
    (hrun : s.running = true) (hlt : s.getRoundsPlayed < s.totalRounds)
    (hstop : s.stopRequested w = true) :
    Session.startLoop (fuel + 2) s w =
      some { result := Except.ok (), self := (s.playRound w).self,
             world := (s.playRound w).world } := by
  have hoff : (s.playRound w).self.running = false := by
    rw [Session.playRound_running_of_lt s w hlt, hstop]
    rfl
  unfold Session.startLoop
  have hc : (s.running && decide (s.getRoundsPlayed < s.totalRounds)) = true := by
    simp [hrun, hlt]
  rw [if_pos hc, Session.playRound_result_of_lt s w hlt]
  dsimp only
  unfold Session.startLoop
  rw [hoff]
  rfl

theorem Session.stopRequested_startEntry (s : Session σ) (w v : World σ) :
    (s.startEntry w).stopRequested v = s.stopRequested v := by
  simp [Session.stopRequested, Session.startEntry, Session.playHands, Session.getRoundsPlayed]

/-- C16: `stop()` switches the running flag off and leaves the history, the number of rounds
played, the three counters and the configured number of rounds as they were; and when the
round callback calls `stop()` during `start()`, `start()` returns after that round with the
rounds completed so far: one more than before when the callback stops in the first round
that `start()` plays, and `k + 1` when it first stops in the round of index `k`. -/
theorem stop_keeps_rounds_and_ends_start (s : Session σ) (w : World σ) (k : Int)
    (cb : RoundCallback σ) (hcb : s.roundCallback = some cb)
    (hle : s.getRoundsPlayed ≤ k) (hk : k < s.getTotalRounds)
    (hbefore : ∀ (i : Int) (m : Move) (v : World σ), i < k → (cb i m v).2 = false)
    (hat : ∀ (m : Move) (v : World σ), (cb k m v).2 = true) :
    (∀ (t : Session σ) (v : World σ),
      (t.stop v).isRunning = false ∧ (t.stop v).getMoves = t.getMoves ∧
      (t.stop v).getRoundsPlayed = t.getRoundsPlayed ∧
      (t.stop v).getUserScore = t.getUserScore ∧
      (t.stop v).getComputerScore = t.getComputerScore ∧
      (t.stop v).getDrawCount = t.getDrawCount ∧
      (t.stop v).getTotalRounds = t.getTotalRounds) ∧
    (∀ (t : Session σ) (v : World σ),
      t.getRoundsPlayed < t.getTotalRounds → t.stopRequested v = true →
      ∃ r : Outcome σ (Session σ) Unit,
        t.start v = some r ∧ r.result = Except.ok () ∧
        r.self.getRoundsPlayed = t.getRoundsPlayed + 1 ∧ r.self.isRunning = false) ∧
    ∃ r : Outcome σ (Session σ) Unit,
      s.start w = some r ∧ r.result = Except.ok () ∧
      r.self.getRoundsPlayed = k + 1 ∧ r.self.isRunning = false := by
  refine ⟨fun t v => ⟨rfl, rfl, rfl, rfl, rfl, rfl, rfl⟩, ?_, ?_⟩
  · intro t v hlt hstop
    have hlt2 : (t.startEntry v).getRoundsPlayed < (t.startEntry v).totalRounds := hlt
    obtain ⟨f, hf⟩ : ∃ f : Nat, (t.totalRounds - t.getRoundsPlayed).toNat + 1 = f + 2 :=
      ⟨(t.totalRounds - t.getRoundsPlayed).toNat - 1, by
        simp only [Session.getTotalRounds] at hlt
        omega⟩
    have hloop := Session.startLoop_stops_now (t.startEntry v) v f rfl hlt2
      (by rw [Session.stopRequested_startEntry]; exact hstop)
    rw [← hf] at hloop
    refine ⟨_, Session.start_of_loop t v _ hloop rfl, rfl, ?_, rfl⟩
    exact Session.playRound_getRoundsPlayed_of_lt (t.startEntry v) v hlt2
  obtain ⟨r, hr, hok, hplayed, _⟩ := Session.startLoop_stops_at k cb hbefore hat
    ((s.totalRounds - s.getRoundsPlayed).toNat + 1) (s.startEntry w) w hcb rfl hle hk
    (by simp [Session.startEntry, Session.getRoundsPlayed])
  exact ⟨_, Session.start_of_loop s w r hr hok, rfl, hplayed, rfl⟩

/-- Witness of C16: a three-round session whose callback stops in the round of index 1. -/
theorem stop_keeps_rounds_and_ends_start_witness :
    ((rockVsScissors 3).onRoundCompleted (some (stopAtRound 1))).getRoundsPlayed ≤ 1 ∧
    (1 : Int) < ((rockVsScissors 3).onRoundCompleted (some (stopAtRound 1))).getTotalRounds ∧
    ∃ r : Outcome Unit (Session Unit) Unit,
      ((rockVsScissors 3).onRoundCompleted (some (stopAtRound 1))).start quietWorld = some r ∧
      r.result = Except.ok () ∧ r.self.getRoundsPlayed = 1 + 1 ∧ r.self.isRunning = false :=
  ⟨by decide, by decide,
    (stop_keeps_rounds_and_ends_start
      ((rockVsScissors 3).onRoundCompleted (some (stopAtRound 1))) quietWorld 1
      (stopAtRound 1) rfl (by decide) (by decide)
      (fun i _ _ hi => by simp only [stopAtRound, decide_eq_false_iff_not]; omega)
      (fun _ _ => rfl)).2.2⟩

/-- C18: the callback slot is single: registering `cb2` after `cb1` leaves the session
exactly as if only `cb2` had been registered; a later round runs `cb2` once, on the world
the two players left, with the index and the move of that round, and `cb1` has no part in
it; after the round `cb2` is still the registered callback. -/
theorem onRoundCompleted_single_slot (s : Session σ) (cb1 cb2 : RoundCallback σ)
    (w : World σ) :
    (s.onRoundCompleted (some cb1)).onRoundCompleted (some cb2) =
      s.onRoundCompleted (some cb2) ∧
    (s.getRoundsPlayed < s.getTotalRounds →
      (((s.onRoundCompleted (some cb1)).onRoundCompleted (some cb2)).playRound w).world =
        (cb2 s.getRoundsPlayed (s.playHands w).move
          ((s.playHands w).world.logCall
            (Call.roundCallback s.getRoundsPlayed (s.playHands w).move))).1) ∧
    (((s.onRoundCompleted (some cb1)).onRoundCompleted (some cb2)).playRound
      w).self.roundCallback = some cb2 := by
  refine ⟨rfl, ?_, ?_⟩
  · intro h
    have hsame : (s.onRoundCompleted (some cb1)).onRoundCompleted (some cb2) =
        s.onRoundCompleted (some cb2) := rfl
    rw [hsame, Session.playRound_of_lt (s.onRoundCompleted (some cb2)) w h]
    have hp : ((s.onRoundCompleted (some cb2)).playHands w).move = (s.playHands w).move ∧
        ((s.onRoundCompleted (some cb2)).playHands w).world = (s.playHands w).world := by
      constructor <;> simp [Session.playHands, Session.onRoundCompleted]
    dsimp only
    unfold Session.notify
    rw [Session.playHands_roundCallback, Session.playHands_index]
    simp only [Session.onRoundCompleted, Session.getRoundsPlayed] at hp ⊢
    rw [hp.1, hp.2]
  · rw [Session.playRound_roundCallback]
    rfl

end StopClaims

/-! ## Match engine: the calls made by a round -/

section RoundCalls

variable {σ : Type}

theorem Session.playHands_world (s : Session σ) (w : World σ) :
    (s.playHands w).world =
      (s.computer.chooseHand
        ((s.user.chooseHand (w.logCall Call.userChooseHand)).2.logCall
          Call.computerChooseHand)).2 := by
  simp [Session.playHands]

/-- The world after a successful round, by the state of the callback slot. -/
theorem Session.playRound_world_of_lt (s : Session σ) (w : World σ)
    (h : s.getRoundsPlayed < s.totalRounds) :
    (s.playRound w).world =
      match s.roundCallback with
      | some cb =>
          (cb s.getRoundsPlayed (s.playHands w).move
            ((s.playHands w).world.logCall
              (Call.roundCallback s.getRoundsPlayed (s.playHands w).move))).1
      | none => (s.playHands w).world := by
  rw [Session.playRound_of_lt s w h]
  dsimp only
  unfold Session.notify
  rw [Session.playHands_roundCallback, Session.playHands_index]
  cases s.roundCallback <;> rfl

theorem roundCallbackCalls_append (l1 l2 : List Call) :
    roundCallbackCalls (l1 ++ l2) = roundCallbackCalls l1 ++ roundCallbackCalls l2 := by
  induction l1 with
  | nil => rfl
  | cons c rest ih => cases c <;> simp [roundCallbackCalls, ih]

theorem indexedFrom_append (l : List Move) (m : Move) :
    ∀ i : Nat, indexedFrom i (l ++ [m]) = indexedFrom i l ++ [(((i + l.length : Nat) : Int), m)] := by
  induction l with
  | nil => intro i; simp [indexedFrom]
  | cons x rest ih =>
    intro i
    have hidx : i + 1 + rest.length = i + (rest.length + 1) := by omega
    show ((i : Int), x) :: indexedFrom (i + 1) (rest ++ [m]) =
      ((i : Int), x) :: indexedFrom (i + 1) rest ++ [(((i + (rest.length + 1) : Nat) : Int), m)]
    rw [ih (i + 1), hidx]
    rfl

theorem indexedFrom_length (l : List Move) : ∀ i : Nat, (indexedFrom i l).length = l.length := by
  induction l with
  | nil => intro i; rfl
  | cons x rest ih => intro i; simp [indexedFrom, ih (i + 1)]

/-- The round-callback entries a successful round adds to the log, for players and a
callback that make no round-callback call of their own: one entry, with the index of the
round and its move. -/
theorem Session.playRound_roundCallbackCalls (s : Session σ) (w : World σ)
    (cb : RoundCallback σ) (hcb : s.roundCallback = some cb)
    (h : s.getRoundsPlayed < s.totalRounds)
    (hdu : ∀ v : World σ,
      roundCallbackCalls (s.user.chooseHand v).2.calls = roundCallbackCalls v.calls)
    (hdc : ∀ v : World σ,
      roundCallbackCalls (s.computer.chooseHand v).2.calls = roundCallbackCalls v.calls)
    (hdcb : ∀ (i : Int) (m : Move) (v : World σ),
      roundCallbackCalls (cb i m v).1.calls = roundCallbackCalls v.calls) :
    roundCallbackCalls (s.playRound w).world.calls =
      roundCallbackCalls w.calls ++ [(s.getRoundsPlayed, (s.playHands w).move)] := by
  rw [Session.playRound_world_of_lt s w h, hcb]
  dsimp only
  rw [hdcb]
  simp only [World.logCall, roundCallbackCalls_append]
  rw [Session.playHands_world, hdc]
  simp only [World.logCall, roundCallbackCalls_append]
  rw [hdu]
  simp [World.logCall, roundCallbackCalls_append, roundCallbackCalls]

/-- C11: a successful `playRound` invokes the user's `chooseHand` once and then the
computer's `chooseHand` once.  The returned move holds the hand returned by the user's
`chooseHand`, run on the world at entry, and the hand returned by the computer's
`chooseHand`, run on the world the user's call left; the world after the round is the one
the computer's call left, passed through the round callback if one is registered.  In the
call log the round adds exactly `userChooseHand`, `computerChooseHand`, in this order (for
players and a callback that make no such call themselves).  A `User` player's `chooseHand`
calls its input callback once (one log entry, the caller state is the one the callback
returned) and returns a `Hand` holding the value the callback returned. -/
theorem playRound_asks_user_then_computer (s : Session σ) (w : World σ)
    (h : s.getRoundsPlayed < s.getTotalRounds) :
    (s.playRound w).result =
      Except.ok (Move.mk (s.user.chooseHand (w.logCall Call.userChooseHand)).1
        (s.computer.chooseHand
          ((s.user.chooseHand (w.logCall Call.userChooseHand)).2.logCall
            Call.computerChooseHand)).1) ∧
    (s.roundCallback = none →
      (s.playRound w).world =
        (s.computer.chooseHand
          ((s.user.chooseHand (w.logCall Call.userChooseHand)).2.logCall
            Call.computerChooseHand)).2) ∧
    (∀ (cb : RoundCallback σ) (move : Move), s.roundCallback = some cb →
      (s.playRound w).result = Except.ok move →
      (s.playRound w).world =
        (cb s.getRoundsPlayed move
          ((s.computer.chooseHand
            ((s.user.chooseHand (w.logCall Call.userChooseHand)).2.logCall
              Call.computerChooseHand)).2.logCall
            (Call.roundCallback s.getRoundsPlayed move))).1) ∧
    ((∀ v : World σ, (s.user.chooseHand v).2.calls.filter Call.isChooseHand =
        v.calls.filter Call.isChooseHand) →
      (∀ v : World σ, (s.computer.chooseHand v).2.calls.filter Call.isChooseHand =
        v.calls.filter Call.isChooseHand) →
      (∀ cb : RoundCallback σ, s.roundCallback = some cb →
        ∀ (i : Int) (m : Move) (v : World σ),
          (cb i m v).1.calls.filter Call.isChooseHand = v.calls.filter Call.isChooseHand) →
      (s.playRound w).world.calls.filter Call.isChooseHand =
        w.calls.filter Call.isChooseHand ++
          [Call.userChooseHand, Call.computerChooseHand]) ∧
    (∀ (u : User σ) (v : World σ),
      u.toIPlayer.chooseHand v = u.chooseHand v ∧
      (u.chooseHand v).1 = Hand.mk (u.inputCallback v.ext).1 ∧
      (u.chooseHand v).1.getCombination = (u.inputCallback v.ext).1 ∧
      (u.chooseHand v).2.ext = (u.inputCallback v.ext).2 ∧
      (u.chooseHand v).2.calls = v.calls ++ [Call.inputCallback]) := by
  have hres := Session.playRound_result_of_lt s w h
  have hworld := Session.playRound_world_of_lt s w h
  have hhand : (s.playHands w).move =
      Move.mk (s.user.chooseHand (w.logCall Call.userChooseHand)).1
        (s.computer.chooseHand
          ((s.user.chooseHand (w.logCall Call.userChooseHand)).2.logCall
            Call.computerChooseHand)).1 := by
    simp [Session.playHands]
  have hleft : (s.playHands w).world =
      (s.computer.chooseHand
        ((s.user.chooseHand (w.logCall Call.userChooseHand)).2.logCall
          Call.computerChooseHand)).2 := by
    simp [Session.playHands]
  refine ⟨?_, ?_, ?_, ?_, fun u v => ⟨rfl, rfl, rfl, rfl, rfl⟩⟩
  · rw [hres, hhand]
  · intro hnone
    rw [hworld, hnone, hleft]
  · intro cb move hcb hmove
    rw [hres] at hmove
    cases hmove
    rw [hworld, hcb, hleft]
  · intro hu hc hcb
    have hhands : (s.playHands w).world.calls.filter Call.isChooseHand =
        w.calls.filter Call.isChooseHand ++
          [Call.userChooseHand, Call.computerChooseHand] := by
      rw [hleft, hc]
      simp only [World.logCall, List.filter_append]
      rw [hu]
      simp [World.logCall, List.filter_append, Call.isChooseHand]
    rw [hworld]
    cases hslot : s.roundCallback with
    | none => exact hhands
    | some cb =>
      dsimp only
      rw [hcb cb hslot]
      simp only [World.logCall, List.filter_append]
      rw [hhands]
      simp [Call.isChooseHand]

/-- Witness of C11: the first round of a two-round session whose players note their name
in the caller state when asked; after the round the state reads "user", "computer". -/
theorem playRound_asks_user_then_computer_witness :
    (Session.fresh (recordingUser "user" Combination.Rock)
        (recordingUser "computer" Combination.Scissors) 2).getRoundsPlayed <
      (Session.fresh (recordingUser "user" Combination.Rock)
        (recordingUser "computer" Combination.Scissors) 2).getTotalRounds ∧
    ((Session.fresh (recordingUser "user" Combination.Rock)
        (recordingUser "computer" Combination.Scissors) 2).playRound (worldOf [])).result =
      Except.ok (Move.mk (Hand.mk Combination.Rock) (Hand.mk Combination.Scissors)) ∧
    ((Session.fresh (recordingUser "user" Combination.Rock)
        (recordingUser "computer" Combination.Scissors) 2).playRound (worldOf [])).world.ext =
      ["user", "computer"] ∧
    ((Session.fresh (recordingUser "user" Combination.Rock)
        (recordingUser "computer" Combination.Scissors) 2).playRound
          (worldOf [])).world.calls.filter Call.isChooseHand =
      (worldOf ([] : List String)).calls.filter Call.isChooseHand ++
        [Call.userChooseHand, Call.computerChooseHand] :=
  ⟨by decide,
    (playRound_asks_user_then_computer
      (Session.fresh (recordingUser "user" Combination.Rock)
        (recordingUser "computer" Combination.Scissors) 2) (worldOf []) (by decide)).1.trans rfl,
    (congrArg World.ext
      ((playRound_asks_user_then_computer
        (Session.fresh (recordingUser "user" Combination.Rock)
          (recordingUser "computer" Combination.Scissors) 2) (worldOf [])
        (by decide)).2.1 rfl)).trans rfl,
    (playRound_asks_user_then_computer
      (Session.fresh (recordingUser "user" Combination.Rock)
        (recordingUser "computer" Combination.Scissors) 2) (worldOf []) (by decide)).2.2.2.1
      (fun v => by
        show List.filter Call.isChooseHand (v.calls ++ [Call.inputCallback]) = _
        simp [List.filter_append, Call.isChooseHand])
      (fun v => by
        show List.filter Call.isChooseHand (v.calls ++ [Call.inputCallback]) = _
        simp [List.filter_append, Call.isChooseHand])
      (fun cb hcb => by cases hcb)⟩

end RoundCalls

/-! ## Match engine: the round callback -/

section RoundCallbackClaims

variable {σ : Type}

/-- C17, as stated, fails: a callback may call `stop()`.  On the fresh two-round session of
the tests with a callback that stops the session, `start()` returns after one invocation of
the callback, with index 0, and not after two invocations with indices 0 and 1. -/
theorem start_invokes_callback_counterexample :
    ∃ (s : Session Unit) (r : Outcome Unit (Session Unit) Unit),
      Session.create (fixedUser "RockFan" Combination.Rock)
        (fixedUser "ScissorsBot" Combination.Scissors) 2 = Except.ok s ∧
      (s.onRoundCompleted (some stoppingCallback)).start quietWorld = some r ∧
      s.getTotalRounds = 2 ∧
      (roundCallbackCalls r.world.calls).map Prod.fst = [0] ∧
      (roundCallbackCalls r.world.calls).length ≠ 2 :=
  ⟨rockVsScissors 2, _, rfl, rfl, rfl, by decide, by decide⟩

/-- C17, amended: a successful `playRound` on a session with a registered callback calls it
once, on the world the players left, with the index `getRoundsPlayed() - 1` measured after
the append and with the returned move.  On a fresh session of `N` rounds whose callback
never calls `stop()`, `start()` calls it `N` times, with the indices 0, 1, ..., N-1 in this
order, each time with the move of that round (players and callback make no round-callback
call of their own). -/
theorem roundCallback_once_per_round (user computer : IPlayer σ) (N : Int)
    (cb : RoundCallback σ) (w : World σ) (hN : 0 ≤ N)
    (hns : ∀ (i : Int) (m : Move) (v : World σ), (cb i m v).2 = false)
    (hdu : ∀ v : World σ,
      roundCallbackCalls (user.chooseHand v).2.calls = roundCallbackCalls v.calls)
    (hdc : ∀ v : World σ,
      roundCallbackCalls (computer.chooseHand v).2.calls = roundCallbackCalls v.calls)
    (hdcb : ∀ (i : Int) (m : Move) (v : World σ),
      roundCallbackCalls (cb i m v).1.calls = roundCallbackCalls v.calls) :
    (∀ (t : Session σ) (f : RoundCallback σ) (v : World σ),
      t.roundCallback = some f → t.getRoundsPlayed < t.getTotalRounds →
      ∃ move : Move,
        (t.playRound v).result = Except.ok move ∧
        (t.playRound v).self.getMoves.getLast? = some move ∧
        (t.playRound v).world =
          (f ((t.playRound v).self.getRoundsPlayed - 1) move
            ((t.playHands v).world.logCall
              (Call.roundCallback ((t.playRound v).self.getRoundsPlayed - 1) move))).1) ∧
    ∃ (s : Session σ) (r : Outcome σ (Session σ) Unit),
      Session.create user computer N = Except.ok s ∧
      (s.onRoundCompleted (some cb)).start w = some r ∧ r.result = Except.ok () ∧
      (r.self.getMoves.length : Int) = N ∧
      roundCallbackCalls r.world.calls =
        roundCallbackCalls w.calls ++ indexedFrom 0 r.self.getMoves := by
  constructor
  · intro t f v hf hlt
    refine ⟨(t.playHands v).move, Session.playRound_result_of_lt t v hlt, ?_, ?_⟩
    · simp [Session.getMoves, Session.playRound_moves_of_lt t v hlt]
    · rw [Session.playRound_getRoundsPlayed_of_lt t v hlt, Session.playRound_world_of_lt t v hlt,
        hf]
      simp
  · obtain ⟨r, hr, hok, hplayed, _⟩ := Session.startLoop_plays_all
      ((((Session.fresh user computer N).onRoundCompleted (some cb)).totalRounds -
        ((Session.fresh user computer N).onRoundCompleted (some cb)).getRoundsPlayed).toNat + 1)
      (((Session.fresh user computer N).onRoundCompleted (some cb)).startEntry w) w
      (fun f hf => by cases hf; exact hns) (fun _ => rfl)
      (by
        simp [Session.startEntry, Session.onRoundCompleted, Session.fresh,
          Session.getRoundsPlayed]
        exact hN)
      (by
        simp [Session.startEntry, Session.onRoundCompleted, Session.fresh,
          Session.getRoundsPlayed])
    have hinv := Session.startLoop_preserves_pair
      (fun (s : Session σ) (v : World σ) =>
        s.user = user ∧ s.computer = computer ∧ s.roundCallback = some cb ∧
        roundCallbackCalls v.calls = roundCallbackCalls w.calls ++ indexedFrom 0 s.moves)
      (by
        intro s v hlt ⟨hu, hc, hslot, hlog⟩
        refine ⟨by rw [Session.playRound_user, hu], by rw [Session.playRound_computer, hc],
          by rw [Session.playRound_roundCallback, hslot], ?_⟩
        rw [Session.playRound_roundCallbackCalls s v cb hslot hlt (by rw [hu]; exact hdu)
          (by rw [hc]; exact hdc) hdcb, hlog, Session.playRound_moves_of_lt s v hlt,
          indexedFrom_append, List.append_assoc]
        simp [Session.getRoundsPlayed])
      _ _ w r hr ⟨rfl, rfl, rfl, by simp [Session.startEntry, Session.onRoundCompleted,
        Session.fresh, indexedFrom]⟩
    have htotal : (((Session.fresh user computer N).onRoundCompleted
        (some cb)).startEntry w).totalRounds = N := rfl
    rw [htotal] at hplayed
    exact ⟨_, _, Session.create_of_nonneg user computer N hN,
      Session.start_of_loop _ w r hr hok, rfl, hplayed, hinv.2.2.2⟩

/-- Witness of C17 (amended): the three-round test with a counting callback. -/
theorem roundCallback_once_per_round_witness :
    (0 : Int) ≤ 3 ∧
    ∃ (s : Session Nat) (r : Outcome Nat (Session Nat) Unit),
      Session.create (constantUser "RockFan" Combination.Rock)
        (constantUser "ScissorsBot" Combination.Scissors) 3 = Except.ok s ∧
      (s.onRoundCompleted (some countingCallback)).start (worldOf 0) = some r ∧
      r.result = Except.ok () ∧
      (r.self.getMoves.length : Int) = 3 ∧
      roundCallbackCalls r.world.calls =
        roundCallbackCalls (worldOf 0).calls ++ indexedFrom 0 r.self.getMoves :=
  ⟨by decide,
    (roundCallback_once_per_round (constantUser "RockFan" Combination.Rock)
      (constantUser "ScissorsBot" Combination.Scissors) 3 countingCallback (worldOf 0)
      (by decide) (fun _ _ _ => rfl)
      (fun v => by
        show roundCallbackCalls (v.calls ++ [Call.inputCallback]) = _
        simp [roundCallbackCalls_append, roundCallbackCalls])
      (fun v => by
        show roundCallbackCalls (v.calls ++ [Call.inputCallback]) = _
        simp [roundCallbackCalls_append, roundCallbackCalls])
      (fun _ _ _ => rfl)).2⟩

end RoundCallbackClaims

/-! ## Lifecycle controller -/

section GameClaims

variable {σ : Type}

theorem Game.roundNotifier_neverStops (s : Session σ) (sink : Option (OutputCallback σ))
    (h : s.roundCallback = some (Game.roundNotifier sink)) : s.NeverStops := by
  intro cb hcb i m v
  rw [h] at hcb
  cases hcb
  rfl

/-- One `playSingleRound` of a running game whose session has rounds left and a callback
that never stops it. -/
theorem Game.playSingleRound_of_running (g : Game σ) (s : Session σ) (w : World σ)
    (hs : g.currentSession = some s) (hstate : g.state = GameState.Running)
    (hns : s.NeverStops) (hlt : s.getRoundsPlayed < s.totalRounds) :
    (g.playSingleRound w).result = Except.ok (s.playHands w).move ∧
    (g.playSingleRound w).self.currentSession = some (s.playRound w).self ∧
    (g.playSingleRound w).self.state =
      (if s.getRoundsPlayed + 1 < s.totalRounds then GameState.Running
        else GameState.Finished) := by
  have hres := Session.playRound_result_of_lt s w hlt
  have hrun : (s.playRound w).self.isRunning =
      decide (s.getRoundsPlayed + 1 < s.totalRounds) := by
    unfold Session.isRunning
    rw [Session.playRound_running_of_lt s w hlt, Session.stopRequested_of_neverStops s w hns]
    rfl
  unfold Game.playSingleRound
  rw [hs]
  dsimp only
  rw [if_neg (by rw [hstate]; exact fun hne => hne rfl), hres]
  dsimp only
  rw [hrun]
  by_cases hnext : s.getRoundsPlayed + 1 < s.totalRounds
  · simp [hnext, hstate]
  · simp [hnext]

/-- A game that is not running, or has no session, refuses `playSingleRound`. -/
theorem Game.playSingleRound_of_not_running (g : Game σ) (w : World σ)
    (h : g.state ≠ GameState.Running) :
    g.playSingleRound w =
      { result := Except.error (Error.runtime_error "No active session."), self := g,
        world := w } := by
  unfold Game.playSingleRound
  cases g.currentSession with
  | none => rfl
  | some s => dsimp only; rw [if_pos h]

/-- Successive `playSingleRound` calls of a running game, as long as rounds are left. -/
theorem Game.playSingleRounds_running (j : Nat) :
    ∀ (g : Game σ) (s : Session σ) (w : World σ),
      g.currentSession = some s → g.state = GameState.Running → s.NeverStops →
      s.getRoundsPlayed < s.totalRounds → s.getRoundsPlayed + (j : Int) ≤ s.totalRounds →
      (∀ r ∈ (g.playSingleRounds j w).1, ∃ m : Move, r = Except.ok m) ∧
      (g.playSingleRounds j w).1.length = j ∧
      (g.playSingleRounds j w).2.1.state =
        (if s.getRoundsPlayed + (j : Int) < s.totalRounds then GameState.Running
          else GameState.Finished) := by
  induction j with
  | zero =>
    intro g s w _ hstate _ hlt _
    simp [Game.playSingleRounds, hstate, hlt]
  | succ k ih =>
    intro g s w hs hstate hns hlt hle
    obtain ⟨hres, hsess, hst⟩ := Game.playSingleRound_of_running g s w hs hstate hns hlt
    have hsize := Session.playRound_getRoundsPlayed_of_lt s w hlt
    have htot := Session.playRound_totalRounds s w
    by_cases hnext : s.getRoundsPlayed + 1 < s.totalRounds
    · rw [if_pos hnext] at hst
      obtain ⟨h1, h2, h3⟩ := ih (g.playSingleRound w).self (s.playRound w).self
        (g.playSingleRound w).world hsess hst (Session.neverStops_playRound s w hns)
        (by rw [hsize, htot]; exact hnext) (by rw [hsize, htot]; push_cast at hle; omega)
      refine ⟨?_, ?_, ?_⟩
      · intro r hr
        simp only [Game.playSingleRounds, List.mem_cons] at hr
        rcases hr with hr | hr
        · exact ⟨_, hr.trans hres⟩
        · exact h1 r hr
      · simp [Game.playSingleRounds, h2]
      · simp only [Game.playSingleRounds]
        rw [h3, hsize, htot]
        push_cast
        have : s.getRoundsPlayed + 1 + (k : Int) = s.getRoundsPlayed + ((k : Int) + 1) := by
          omega
        rw [this]
    · rw [if_neg hnext] at hst
      have hk : k = 0 := by push_cast at hle; omega
      subst hk
      refine ⟨?_, ?_, ?_⟩
      · intro r hr
        simp only [Game.playSingleRounds, List.mem_cons, List.not_mem_nil, or_false] at hr
        exact ⟨_, hr.trans hres⟩
      · simp [Game.playSingleRounds]
      · simp only [Game.playSingleRounds]
        rw [hst, if_neg (by push_cast; omega)]

theorem Game.newSession_of_nonneg (g : Game σ) (N : Int) (w : World σ) (hN : 0 ≤ N) :
    g.newSession N w =
      { result := Except.ok (),
        self :=
          { g with
            currentSession :=
              some ((Session.fresh g.user g.computer N).onRoundCompleted
                (some (Game.roundNotifier g.outputCallback))),
            state := GameState.Running },
        world := emitTo g.outputCallback
          ("=== New Session (" ++ toString N ++ " rounds) ===") w } := by
  unfold Game.newSession
  rw [Session.create_of_nonneg g.user g.computer N hN]

/-- C19: a newly constructed game is Idle and has no session; after `newSession(N)`,
`N ≥ 1`, it is Running; after `k` successive `playSingleRound()` calls, all of which succeed,
it is Running for `k < N` and Finished for `k = N`; the call after the `N`-th throws
`std::runtime_error`.  This holds whatever sink is registered. -/
theorem game_lifecycle (user computer : IPlayer σ) (N : Int)
    (sink : Option (OutputCallback σ)) (w : World σ) (hN : 1 ≤ N) :
    (Game.create user computer).getState = GameState.Idle ∧
    (Game.create user computer).getCurrentSession.isNone = true ∧
    (((Game.create user computer).setOutputCallback sink).newSession N w).result =
      Except.ok () ∧
    (((Game.create user computer).setOutputCallback sink).newSession N w).self.getState =
      GameState.Running ∧
    (∀ k : Nat, (k : Int) ≤ N →
      (∀ r ∈ ((((Game.create user computer).setOutputCallback sink).newSession N
          w).self.playSingleRounds k
          (((Game.create user computer).setOutputCallback sink).newSession N w).world).1,
        ∃ m : Move, r = Except.ok m) ∧
      ((((Game.create user computer).setOutputCallback sink).newSession N
          w).self.playSingleRounds k
          (((Game.create user computer).setOutputCallback sink).newSession N
            w).world).2.1.getState =
        (if (k : Int) < N then GameState.Running else GameState.Finished)) ∧
    ∃ what : String,
      (((((Game.create user computer).setOutputCallback sink).newSession N
          w).self.playSingleRounds N.toNat
          (((Game.create user computer).setOutputCallback sink).newSession N
            w).world).2.1.playSingleRound
        ((((Game.create user computer).setOutputCallback sink).newSession N
          w).self.playSingleRounds N.toNat
          (((Game.create user computer).setOutputCallback sink).newSession N
            w).world).2.2).result = Except.error (Error.runtime_error what) := by
  have hnew := Game.newSession_of_nonneg ((Game.create user computer).setOutputCallback sink)
    N w (by omega)
  have hrounds : ∀ k : Nat, (k : Int) ≤ N →
      (∀ r ∈ ((((Game.create user computer).setOutputCallback sink).newSession N
          w).self.playSingleRounds k
          (((Game.create user computer).setOutputCallback sink).newSession N w).world).1,
        ∃ m : Move, r = Except.ok m) ∧
      ((((Game.create user computer).setOutputCallback sink).newSession N
          w).self.playSingleRounds k
          (((Game.create user computer).setOutputCallback sink).newSession N
            w).world).2.1.state =
        (if (k : Int) < N then GameState.Running else GameState.Finished) := by
    intro k hk
    rw [hnew]
    obtain ⟨h1, _, h3⟩ := Game.playSingleRounds_running k
      { (Game.create user computer).setOutputCallback sink with
        currentSession :=
          some ((Session.fresh ((Game.create user computer).setOutputCallback sink).user
            ((Game.create user computer).setOutputCallback sink).computer
              N).onRoundCompleted
            (some (Game.roundNotifier
              ((Game.create user computer).setOutputCallback sink).outputCallback))),
        state := GameState.Running }
      ((Session.fresh ((Game.create user computer).setOutputCallback sink).user
        ((Game.create user computer).setOutputCallback sink).computer N).onRoundCompleted
        (some (Game.roundNotifier
          ((Game.create user computer).setOutputCallback sink).outputCallback)))
      (emitTo ((Game.create user computer).setOutputCallback sink).outputCallback
        ("=== New Session (" ++ toString N ++ " rounds) ===") w)
      rfl rfl (Game.roundNotifier_neverStops _ _ rfl)
      (by simp [Session.getRoundsPlayed, Session.onRoundCompleted, Session.fresh]; omega)
      (by simp [Session.getRoundsPlayed, Session.onRoundCompleted, Session.fresh]; omega)
    refine ⟨h1, ?_⟩
    rw [h3]
    simp [Session.getRoundsPlayed, Session.onRoundCompleted, Session.fresh]
  refine ⟨rfl, rfl, by rw [hnew], by rw [hnew]; rfl, hrounds,
    "No active session.", ?_⟩
  have hfin := (hrounds N.toNat (by omega)).2
  rw [if_neg (by omega)] at hfin
  rw [Game.playSingleRound_of_not_running _ _ (by rw [hfin]; decide)]

/-- Witness of C19: the two-round game of the tests, Paper against Rock. -/
theorem game_lifecycle_witness :
    (1 : Int) ≤ 2 ∧
    (((Game.create (constantUser "PaperPal" Combination.Paper)
        (constantUser "RockAI" Combination.Rock)).setOutputCallback
          (some collectingSink)).newSession 2 (worldOf [])).self.getState =
      GameState.Running ∧
    ∃ what : String,
      (((((Game.create (constantUser "PaperPal" Combination.Paper)
          (constantUser "RockAI" Combination.Rock)).setOutputCallback
            (some collectingSink)).newSession 2 (worldOf [])).self.playSingleRounds
          (2 : Int).toNat
          (((Game.create (constantUser "PaperPal" Combination.Paper)
            (constantUser "RockAI" Combination.Rock)).setOutputCallback
              (some collectingSink)).newSession 2 (worldOf [])).world).2.1.playSingleRound
        ((((Game.create (constantUser "PaperPal" Combination.Paper)
          (constantUser "RockAI" Combination.Rock)).setOutputCallback
            (some collectingSink)).newSession 2 (worldOf [])).self.playSingleRounds
          (2 : Int).toNat
          (((Game.create (constantUser "PaperPal" Combination.Paper)
            (constantUser "RockAI" Combination.Rock)).setOutputCallback
              (some collectingSink)).newSession 2 (worldOf [])).world).2.2).result =
        Except.error (Error.runtime_error what) :=
  have h := game_lifecycle (constantUser "PaperPal" Combination.Paper)
    (constantUser "RockAI" Combination.Rock) 2 (some collectingSink) (worldOf [])
    (by decide)
  ⟨by decide, h.2.2.2.1, h.2.2.2.2.2⟩

/-- C20: from every game state, `newSession(N)` with `N ≥ 1` succeeds and leaves the game
Running with a fresh session: `N` configured rounds, no round played, empty history, both
scores and the draw count 0.  The game it leaves depends on the players, the sink and `N`
only, so nothing of an earlier session survives.  With the default argument the session has
10 rounds. -/
theorem newSession_replaces_session (g : Game σ) (N : Int) (w : World σ) (hN : 1 ≤ N) :
    (g.newSession N w).result = Except.ok () ∧
    (g.newSession N w).self.getState = GameState.Running ∧
    (∃ s : Session σ, (g.newSession N w).self.getCurrentSession = some s ∧
      s.getTotalRounds = N ∧ s.getRoundsPlayed = 0 ∧ s.getMoves = [] ∧
      s.getUserScore = 0 ∧ s.getComputerScore = 0 ∧ s.getDrawCount = 0) ∧
    (∀ g2 : Game σ, g2.user = g.user → g2.computer = g.computer →
      g2.outputCallback = g.outputCallback →
      (g2.newSession N w).self = (g.newSession N w).self) ∧
    (∃ s : Session σ, (g.newSessionDefault w).self.getCurrentSession = some s ∧
      s.getTotalRounds = 10 ∧ s.getRoundsPlayed = 0) := by
  have hnew := Game.newSession_of_nonneg g N w (by omega)
  refine ⟨by rw [hnew], by rw [hnew]; rfl, ?_, ?_, ?_⟩
  · rw [hnew]
    exact ⟨_, rfl, rfl, rfl, rfl, rfl, rfl, rfl⟩
  · intro g2 hu hc hsink
    rw [hnew, Game.newSession_of_nonneg g2 N w (by omega), hu, hc, hsink]
  · unfold Game.newSessionDefault
    rw [Game.newSession_of_nonneg g Session.DEFAULT_ROUNDS w (by decide)]
    exact ⟨_, rfl, rfl, rfl⟩

/-- Witness of C20: a new three-round session requested in the middle of a two-round one. -/
theorem newSession_replaces_session_witness :
    (1 : Int) ≤ 3 ∧
    (∃ s : Session (List String),
      ((((Game.create (constantUser "PaperPal" Combination.Paper)
          (constantUser "RockAI" Combination.Rock)).newSession 2
            (worldOf [])).self.playSingleRound (worldOf [])).self.newSession 3
              (worldOf [])).self.getCurrentSession = some s ∧
      s.getTotalRounds = 3 ∧ s.getRoundsPlayed = 0 ∧ s.getMoves = [] ∧
      s.getUserScore = 0 ∧ s.getComputerScore = 0 ∧ s.getDrawCount = 0) :=
  ⟨by decide,
    (newSession_replaces_session
      (((Game.create (constantUser "PaperPal" Combination.Paper)
        (constantUser "RockAI" Combination.Rock)).newSession 2
          (worldOf [])).self.playSingleRound (worldOf [])).self 3 (worldOf [])
      (by decide)).2.2.1⟩

end GameClaims

/-! ## Value objects: display names, random hands, the `Hand` wrapper -/

section ValueObjects

/-- C25: `combinationToString` gives "Rock", "Scissors", "Paper" for the three gestures, so
it returns for each of them and is injective; on the underlying values the function agrees
with that on 0, 1, 2 and throws `std::invalid_argument` for every other value. -/
theorem combinationToString_names :
    combinationToString Combination.Rock = "Rock" ∧
    combinationToString Combination.Scissors = "Scissors" ∧
    combinationToString Combination.Paper = "Paper" ∧
    (∀ a b : Combination, combinationToString a = combinationToString b → a = b) ∧
    (∀ c : Combination,
      combinationToStringRaw (c.underlying : Int) = Except.ok (combinationToString c)) ∧
    (∀ value : Int, value ≠ 0 → value ≠ 1 → value ≠ 2 →
      combinationToStringRaw value =
        Except.error (Error.invalid_argument "Unknown Combination value")) := by
  refine ⟨rfl, rfl, rfl, ?_, ?_, ?_⟩
  · intro a b
    cases a <;> cases b <;> decide
  · intro c
    cases c <;> rfl
  · intro value h0 h1 h2
    unfold combinationToStringRaw
    rw [if_neg h0, if_neg h1, if_neg h2]

/-- C26: for every value `d` in 0..2 that the distribution can produce,
`Hand::generateCombination` returns a hand holding the gesture whose underlying value is `d`,
one of Rock, Scissors, Paper, and `ComputerAI::chooseHand` returns that same hand. -/
theorem generateCombination_valid (drawn : Int) (h0 : 0 ≤ drawn) (h2 : drawn ≤ 2)
    (ai : ComputerAI) :
    ∃ c : Combination,
      Hand.generateCombination drawn = some (Hand.mk c) ∧
      (c = Combination.Rock ∨ c = Combination.Scissors ∨ c = Combination.Paper) ∧
      (c.underlying : Int) = drawn ∧
      ai.chooseHand drawn = some (Hand.mk c) ∧
      (Hand.mk c).getCombination = c := by
  have hcases : drawn = 0 ∨ drawn = 1 ∨ drawn = 2 := by omega
  rcases hcases with h | h | h <;> subst h
  · exact ⟨Combination.Rock, rfl, Or.inl rfl, rfl, rfl, rfl⟩
  · exact ⟨Combination.Scissors, rfl, Or.inr (Or.inl rfl), rfl, rfl, rfl⟩
  · exact ⟨Combination.Paper, rfl, Or.inr (Or.inr rfl), rfl, rfl, rfl⟩

/-- Witness of C26: the draw 1 gives Scissors. -/
theorem generateCombination_valid_witness :
    (0 : Int) ≤ 1 ∧ (1 : Int) ≤ 2 ∧
    ∃ c : Combination,
      Hand.generateCombination 1 = some (Hand.mk c) ∧
      (c = Combination.Rock ∨ c = Combination.Scissors ∨ c = Combination.Paper) ∧
      (c.underlying : Int) = 1 ∧
      ComputerAI.default.chooseHand 1 = some (Hand.mk c) ∧
      (Hand.mk c).getCombination = c :=
  ⟨by decide, by decide, generateCombination_valid 1 (by decide) (by decide) ComputerAI.default⟩

/-- C27: `Hand` is a value wrapper: the default hand holds Rock; `Hand(c)` holds `c`;
`setCombination(c)` makes the hand hold `c` whatever it held; `a == b` iff the two hold the
same gesture; `a != b` is the negation of `a == b`. -/
theorem hand_value_wrapper :
    Hand.default.getCombination = Combination.Rock ∧
    (∀ c : Combination, (Hand.mk c).getCombination = c) ∧
    (∀ (h : Hand) (c : Combination), (h.setCombination c).getCombination = c) ∧
    (∀ a b : Hand, a.eq b = true ↔ a.getCombination = b.getCombination) ∧
    (∀ a b : Hand, a.ne b = !(a.eq b)) ∧
    (∀ a b : Hand, a.ne b = true ↔ a.getCombination ≠ b.getCombination) := by
  refine ⟨rfl, fun _ => rfl, fun _ _ => rfl, ?_, fun _ _ => rfl, ?_⟩
  · intro a b
    simp [Hand.eq, Hand.getCombination]
  · intro a b
    simp [Hand.ne, Hand.eq, Hand.getCombination]

end ValueObjects

/-! ## Match engine: running flag, resuming, elapsed time -/

section ResumeClaims

variable {σ : Type}

/-- C28, as stated, fails: on the two-round session of the tests with a callback that calls
`stop()`, the first `playRound` succeeds and leaves one round to play, yet the session is
not running. -/
theorem playRound_isRunning_counterexample :
    (∃ m : Move,
      (((rockVsScissors 2).onRoundCompleted (some stoppingCallback)).playRound
        quietWorld).result = Except.ok m) ∧
    (((rockVsScissors 2).onRoundCompleted (some stoppingCallback)).playRound
      quietWorld).self.getRoundsPlayed <
      (((rockVsScissors 2).onRoundCompleted (some stoppingCallback)).playRound
        quietWorld).self.getTotalRounds ∧
    (((rockVsScissors 2).onRoundCompleted (some stoppingCallback)).playRound
      quietWorld).self.isRunning = false :=
  ⟨⟨_, rfl⟩, by decide, rfl⟩

/-- C28, amended: after a successful `playRound`, `isRunning()` is true iff rounds remain
and the round callback did not call `stop()` in this round.  So with no callback, or one
that never calls `stop()`, it is true iff `getRoundsPlayed() < getTotalRounds()`: a round
that is not the last leaves the session running, whether or not it was running before; and
the last configured round always leaves it not running. -/
theorem playRound_isRunning_iff (s : Session σ) (w : World σ)
    (h : s.getRoundsPlayed < s.getTotalRounds) :
    ((s.playRound w).self.isRunning = true ↔
      (s.stopRequested w = false ∧
        (s.playRound w).self.getRoundsPlayed < (s.playRound w).self.getTotalRounds)) ∧
    (s.NeverStops →
      ((s.playRound w).self.isRunning = true ↔
        (s.playRound w).self.getRoundsPlayed < (s.playRound w).self.getTotalRounds)) ∧
    ((s.playRound w).self.getRoundsPlayed ≥ (s.playRound w).self.getTotalRounds →
      (s.playRound w).self.isRunning = false) := by
  have hrun := Session.playRound_running_of_lt s w h
  have hsize := Session.playRound_getRoundsPlayed_of_lt s w h
  have htot := Session.playRound_totalRounds s w
  simp only [Session.isRunning, Session.getTotalRounds] at *
  rw [hrun, hsize, htot]
  refine ⟨?_, ?_, ?_⟩
  · cases s.stopRequested w <;> simp
  · intro hns
    rw [Session.stopRequested_of_neverStops s w hns]
    simp
  · intro hge
    have : ¬ (s.getRoundsPlayed + 1 < s.totalRounds) := by omega
    simp [this]

/-- Witness of C28 (amended): the first of the two rounds of the test leaves the session
running. -/
theorem playRound_isRunning_iff_witness :
    (rockVsScissors 2).getRoundsPlayed < (rockVsScissors 2).getTotalRounds ∧
    (((rockVsScissors 2).playRound quietWorld).self.isRunning = true ↔
      ((rockVsScissors 2).stopRequested quietWorld = false ∧
        ((rockVsScissors 2).playRound quietWorld).self.getRoundsPlayed <
          ((rockVsScissors 2).playRound quietWorld).self.getTotalRounds)) ∧
    ((rockVsScissors 2).playRound quietWorld).self.isRunning = true :=
  ⟨by decide, (playRound_isRunning_iff (rockVsScissors 2) quietWorld (by decide)).1, rfl⟩

/-- Once a session is not running, the elapsed time is the end stamp minus the start stamp,
whatever the clock shows. -/
theorem Session.getElapsedSeconds_frozen (s : Session σ) (w : World σ)
    (h : s.isRunning = false) : s.getElapsedSeconds w = s.endTime - s.startTime := by
  unfold Session.isRunning at h
  simp [Session.getElapsedSeconds, h]

/-- C30, the failing input: a session on which neither `start()` nor `playRound()` was
called reports 0 at first, but after a `stop()` at clock reading 1000 it reports 1000 (the
end stamp minus the epoch), although no round was played and Session.h documents
"0 if not yet started"; that value is then frozen. -/
theorem getElapsedSeconds_after_stop_unstarted :
    (rockVsScissors 3).getElapsedSeconds (worldAt 1000) = 0 ∧
    ((rockVsScissors 3).stop (worldAt 1000)).getRoundsPlayed = 0 ∧
    ((rockVsScissors 3).stop (worldAt 1000)).isRunning = false ∧
    ((rockVsScissors 3).stop (worldAt 1000)).getElapsedSeconds (worldAt 1000) = 1000 ∧
    ((rockVsScissors 3).stop (worldAt 1000)).getElapsedSeconds (worldAt 5000) = 1000 := by
  decide

end ResumeClaims

/-! ## Match engine: resuming after `stop` -/

section ResumeAfterStop

variable {σ : Type}

theorem tally_append_singleton (res : MoveResult) (moves : List Move) (m : Move) :
    tally res (moves ++ [m]) = tally res moves + (if m.getWhoWins = res then 1 else 0) := by
  unfold tally
  rw [List.countP_append]
  by_cases h : m.getWhoWins = res <;> simp [List.countP_cons, h]

/-- What the loop of `start` adds to a session: moves behind the recorded ones, and to each
counter the number of added moves with the matching outcome. -/
theorem Session.startLoop_extends (s0 : Session σ) (fuel : Nat) (s : Session σ) (w : World σ)
    (r : Outcome σ (Session σ) Unit) (hr : Session.startLoop fuel s w = some r)
    (hstart : ∃ added : List Move, s.moves = s0.moves ++ added ∧
      s.userScore = s0.userScore + tally MoveResult.UserWins added ∧
      s.computerScore = s0.computerScore + tally MoveResult.ComputerWins added ∧
      s.drawCount = s0.drawCount + tally MoveResult.Draw added) :
    ∃ added : List Move, r.self.moves = s0.moves ++ added ∧
      r.self.userScore = s0.userScore + tally MoveResult.UserWins added ∧
      r.self.computerScore = s0.computerScore + tally MoveResult.ComputerWins added ∧
      r.self.drawCount = s0.drawCount + tally MoveResult.Draw added := by
  refine Session.startLoop_preserves_pair
    (fun (t : Session σ) (_ : World σ) =>
      ∃ added : List Move, t.moves = s0.moves ++ added ∧
        t.userScore = s0.userScore + tally MoveResult.UserWins added ∧
        t.computerScore = s0.computerScore + tally MoveResult.ComputerWins added ∧
        t.drawCount = s0.drawCount + tally MoveResult.Draw added)
    ?_ fuel s w r hr hstart
  intro t v hlt ⟨added, hm, h1, h2, h3⟩
  refine ⟨added ++ [(t.playHands v).move], ?_, ?_, ?_, ?_⟩
  · rw [Session.playRound_moves_of_lt t v hlt, hm, List.append_assoc]
  · rw [Session.playRound_userScore_of_lt t v hlt, h1, tally_append_singleton]
    omega
  · rw [Session.playRound_computerScore_of_lt t v hlt, h2, tally_append_singleton]
    omega
  · rw [Session.playRound_drawCount_of_lt t v hlt, h3, tally_append_singleton]
    omega

/-- C29, as stated, fails when the registered callback calls `stop()` again.  Three-round
session of the tests with a callback that stops the session in every round: after one round
and a `stop()` (1 < 3 rounds played), a `start()` returns with 2 rounds played, not 3; and a
`playRound()` succeeds but leaves the session not running although a round remains. -/
theorem resume_after_stop_counterexample :
    ((((rockVsScissors 3).onRoundCompleted (some stoppingCallback)).playRound
        quietWorld).self.stop quietWorld).getRoundsPlayed = 1 ∧
    (∃ r : Outcome Unit (Session Unit) Unit,
      ((((rockVsScissors 3).onRoundCompleted (some stoppingCallback)).playRound
        quietWorld).self.stop quietWorld).start quietWorld = some r ∧
      r.self.getRoundsPlayed = 2 ∧ r.self.getTotalRounds = 3) ∧
    (∃ m : Move,
      (((((rockVsScissors 3).onRoundCompleted (some stoppingCallback)).playRound
        quietWorld).self.stop quietWorld).playRound quietWorld).result = Except.ok m) ∧
    (((((rockVsScissors 3).onRoundCompleted (some stoppingCallback)).playRound
        quietWorld).self.stop quietWorld).playRound quietWorld).self.getRoundsPlayed = 2 ∧
    (((((rockVsScissors 3).onRoundCompleted (some stoppingCallback)).playRound
        quietWorld).self.stop quietWorld).playRound quietWorld).self.isRunning = false :=
  ⟨by decide, ⟨_, rfl, by decide, rfl⟩, ⟨_, rfl⟩, by decide, rfl⟩

/-- C29, amended: on a session with `k < N` rounds played whose callback, if any, never
calls `stop()`, after a `stop()`: a subsequent `start()` returns normally with `N` rounds
played and not running; the `k` recorded moves are the first `k` moves of the history and
each counter is its old value plus the number of matching outcomes among the `N - k` moves
played since.  Likewise a subsequent `playRound()` succeeds, appends one move behind the
recorded ones, and leaves the session running iff rounds still remain. -/
theorem resume_after_stop (s : Session σ) (w v : World σ)
    (hlt : s.getRoundsPlayed < s.getTotalRounds) (hns : s.NeverStops) :
    (∃ r : Outcome σ (Session σ) Unit,
      (s.stop w).start v = some r ∧ r.result = Except.ok () ∧
      r.self.getRoundsPlayed = s.getTotalRounds ∧ r.self.isRunning = false ∧
      r.self.getTotalRounds = s.getTotalRounds ∧
      ∃ added : List Move,
        r.self.getMoves = s.getMoves ++ added ∧
        (added.length : Int) = s.getTotalRounds - s.getRoundsPlayed ∧
        r.self.getUserScore = s.getUserScore + tally MoveResult.UserWins added ∧
        r.self.getComputerScore = s.getComputerScore + tally MoveResult.ComputerWins added ∧
        r.self.getDrawCount = s.getDrawCount + tally MoveResult.Draw added) ∧
    (∃ move : Move,
      ((s.stop w).playRound v).result = Except.ok move ∧
      ((s.stop w).playRound v).self.getMoves = s.getMoves ++ [move] ∧
      ((s.stop w).playRound v).self.getRoundsPlayed = s.getRoundsPlayed + 1 ∧
      (((s.stop w).playRound v).self.isRunning = true ↔
        s.getRoundsPlayed + 1 < s.getTotalRounds)) := by
  have hlt2 : (s.stop w).getRoundsPlayed < (s.stop w).totalRounds := hlt
  have hns2 : (s.stop w).NeverStops := hns
  constructor
  · obtain ⟨r, hr, hok, hplayed, htotal⟩ := Session.startLoop_plays_all
      (((s.stop w).totalRounds - (s.stop w).getRoundsPlayed).toNat + 1)
      ((s.stop w).startEntry v) v hns (fun _ => rfl) (le_of_lt hlt)
      (by simp [Session.startEntry, Session.stop, Session.getRoundsPlayed])
    obtain ⟨added, hm, h1, h2, h3⟩ := Session.startLoop_extends s _ _ v r hr
      ⟨[], by simp [Session.startEntry, Session.stop, tally]⟩
    have htot : ((s.stop w).startEntry v).totalRounds = s.totalRounds := rfl
    rw [htot] at hplayed htotal
    refine ⟨_, Session.start_of_loop (s.stop w) v r hr hok, rfl, hplayed, rfl, htotal,
      added, hm, ?_, h1, h2, h3⟩
    have hlen : (r.self.moves.length : Int) = s.totalRounds := hplayed
    rw [hm, List.length_append] at hlen
    simp only [Session.getTotalRounds, Session.getRoundsPlayed]
    push_cast at hlen
    omega
  · refine ⟨((s.stop w).playHands v).move, Session.playRound_result_of_lt _ v hlt2,
      Session.playRound_moves_of_lt _ v hlt2,
      Session.playRound_getRoundsPlayed_of_lt _ v hlt2, ?_⟩
    unfold Session.isRunning
    rw [Session.playRound_running_of_lt _ v hlt2,
      Session.stopRequested_of_neverStops _ v hns2]
    simp [Session.stop, Session.getRoundsPlayed, Session.getTotalRounds]

/-- Witness of C29 (amended): the three-round session of the tests, stopped after its first
round. -/
theorem resume_after_stop_witness :
    ((rockVsScissors 3).playRound quietWorld).self.getRoundsPlayed <
      ((rockVsScissors 3).playRound quietWorld).self.getTotalRounds ∧
    (∃ r : Outcome Unit (Session Unit) Unit,
      (((rockVsScissors 3).playRound quietWorld).self.stop quietWorld).start quietWorld =
        some r ∧ r.result = Except.ok () ∧
      r.self.getRoundsPlayed = ((rockVsScissors 3).playRound quietWorld).self.getTotalRounds ∧
      r.self.isRunning = false ∧
      r.self.getTotalRounds = ((rockVsScissors 3).playRound quietWorld).self.getTotalRounds ∧
      ∃ added : List Move,
        r.self.getMoves = ((rockVsScissors 3).playRound quietWorld).self.getMoves ++ added ∧
        (added.length : Int) =
          ((rockVsScissors 3).playRound quietWorld).self.getTotalRounds -
            ((rockVsScissors 3).playRound quietWorld).self.getRoundsPlayed ∧
        r.self.getUserScore = ((rockVsScissors 3).playRound quietWorld).self.getUserScore +
          tally MoveResult.UserWins added ∧
        r.self.getComputerScore =
          ((rockVsScissors 3).playRound quietWorld).self.getComputerScore +
            tally MoveResult.ComputerWins added ∧
        r.self.getDrawCount = ((rockVsScissors 3).playRound quietWorld).self.getDrawCount +
          tally MoveResult.Draw added) :=
  ⟨by decide,
    (resume_after_stop ((rockVsScissors 3).playRound quietWorld).self quietWorld quietWorld
      (by decide) (fun cb hcb => by cases hcb)).1⟩

end ResumeAfterStop

/-! ## Lifecycle controller: refusals and text lines -/

section GameLines

variable {σ : Type}

theorem outputCalls_append (l1 l2 : List Call) :
    outputCalls (l1 ++ l2) = outputCalls l1 ++ outputCalls l2 := by
  induction l1 with
  | nil => rfl
  | cons c rest ih => cases c <;> simp [outputCalls, ih]

theorem outputCalls_logCall_of_not_output (w : World σ) (c : Call)
    (h : ∀ msg : String, c ≠ Call.output msg) :
    outputCalls (w.logCall c).calls = outputCalls w.calls := by
  simp only [World.logCall, outputCalls_append]
  cases c with
  | output msg => exact absurd rfl (h msg)
  | _ => simp [outputCalls]

theorem outputCalls_emitTo (sink : Option (OutputCallback σ)) (msg : String) (w : World σ) :
    outputCalls (emitTo sink msg w).calls =
      outputCalls w.calls ++ (if sink.isSome then [msg] else []) := by
  cases sink with
  | none => simp [emitTo]
  | some f => simp [emitTo, World.logCall, outputCalls_append, outputCalls]

theorem Game.Reachable.wired {g : Game σ} (h : Game.Reachable g) : g.Wired := by
  induction h with
  | create user computer =>
    intro s hs
    simp [Game.create] at hs
  | setOutputCallback g cb _ ih =>
    intro s hs
    simp only [Game.setOutputCallback, Option.map_eq_some'] at hs
    obtain ⟨s0, hs0, rfl⟩ := hs
    obtain ⟨hu, hc, _⟩ := ih s0 hs0
    exact ⟨hu, hc, rfl⟩
  | newSession g rounds w _ ih =>
    unfold Game.newSession
    cases hcreate : Session.create g.user g.computer rounds with
    | error e => exact ih
    | ok s0 =>
      intro s hs
      simp only [Option.some.injEq] at hs
      subst hs
      unfold Session.create at hcreate
      split at hcreate
      · cases hcreate
      · cases hcreate
        exact ⟨rfl, rfl, rfl⟩
  | playSingleRound g w _ ih =>
    unfold Game.playSingleRound
    cases hcur : g.currentSession with
    | none => exact ih
    | some s0 =>
      obtain ⟨hu, hc, hcb⟩ := ih s0 hcur
      have hframe : ∀ s : Session σ, some (s0.playRound w).self = some s →
          s.user = g.user ∧ s.computer = g.computer ∧
          s.roundCallback = some (Game.roundNotifier g.outputCallback) := by
        intro s hs
        cases hs
        exact ⟨by rw [Session.playRound_user, hu], by rw [Session.playRound_computer, hc],
          by rw [Session.playRound_roundCallback, hcb]⟩
      dsimp only
      split
      · exact ih
      · split
        · exact hframe
        · split <;> exact hframe

/-- A successful `playSingleRound` comes from a running game with a session that had rounds
left. -/
theorem Game.playSingleRound_ok_inv (g : Game σ) (w : World σ) (move : Move)
    (h : (g.playSingleRound w).result = Except.ok move) :
    ∃ s : Session σ, g.currentSession = some s ∧ g.state = GameState.Running ∧
      s.getRoundsPlayed < s.totalRounds ∧ move = (s.playHands w).move := by
  unfold Game.playSingleRound at h
  cases hcur : g.currentSession with
  | none => rw [hcur] at h; cases h
  | some s =>
    rw [hcur] at h
    dsimp only at h
    by_cases hstate : g.state = GameState.Running
    · rw [if_neg (fun hne => hne hstate)] at h
      by_cases hlt : s.getRoundsPlayed < s.totalRounds
      · refine ⟨s, rfl, hstate, hlt, ?_⟩
        rw [Session.playRound_result_of_lt s w hlt] at h
        dsimp only at h
        split at h <;> exact (Except.ok.inj h).symm
      · rw [Session.playRound_of_ge s w (not_lt.mp hlt)] at h
        cases h
    · rw [if_pos hstate] at h
      cases h

/-- The world after a `playSingleRound` of a running game whose session has rounds left
and a callback that never stops it: the world after the round, followed by the summary when
that round was the last. -/
theorem Game.playSingleRound_world_of_running (g : Game σ) (s : Session σ) (w : World σ)
    (hs : g.currentSession = some s) (hstate : g.state = GameState.Running)
    (hns : s.NeverStops) (hlt : s.getRoundsPlayed < s.totalRounds) :
    (g.playSingleRound w).world =
      (if s.getRoundsPlayed + 1 < s.totalRounds then (s.playRound w).world
        else emitTo g.outputCallback (g.summary (s.playRound w).self (s.playRound w).world)
          (s.playRound w).world) ∧
    (g.playSingleRound w).self.user = g.user ∧
    (g.playSingleRound w).self.computer = g.computer ∧
    (g.playSingleRound w).self.outputCallback = g.outputCallback := by
  have hres := Session.playRound_result_of_lt s w hlt
  have hrun : (s.playRound w).self.isRunning =
      decide (s.getRoundsPlayed + 1 < s.totalRounds) := by
    unfold Session.isRunning
    rw [Session.playRound_running_of_lt s w hlt, Session.stopRequested_of_neverStops s w hns]
    rfl
  unfold Game.playSingleRound
  rw [hs]
  dsimp only
  rw [if_neg (by rw [hstate]; exact fun hne => hne rfl), hres]
  dsimp only
  rw [hrun]
  by_cases hnext : s.getRoundsPlayed + 1 < s.totalRounds
  · simp [hnext]
  · simp [hnext]

/-- The caller state after one round of a session that holds the lambda of `newSession` for
a registered sink: the sink, applied to the round line, on the state the players left. -/
theorem Session.playRound_ext_of_sink (s : Session σ) (w : World σ) (sink : OutputCallback σ)
    (hcb : s.roundCallback = some (Game.roundNotifier (some sink)))
    (hlt : s.getRoundsPlayed < s.totalRounds) :
    (s.playRound w).world.ext =
      sink (Game.roundLine s.getRoundsPlayed (s.playHands w).move)
        (s.playHands w).world.ext := by
  rw [Session.playRound_world_of_lt s w hlt, hcb]
  rfl

/-- Players that leave an observable of the caller state alone leave it alone over the two
`chooseHand` calls of a round. -/
theorem Session.playHands_received (s : Session σ) (w : World σ) (received : σ → List String)
    (hru : ∀ v : World σ, received (s.user.chooseHand v).2.ext = received v.ext)
    (hrc : ∀ v : World σ, received (s.computer.chooseHand v).2.ext = received v.ext) :
    received (s.playHands w).world.ext = received w.ext := by
  rw [Session.playHands_world, hrc]
  show received (s.user.chooseHand (w.logCall Call.userChooseHand)).2.ext = _
  rw [hru]
  rfl

/-- The lines kept by a sink that keeps what it receives, after one round of a session that
holds the lambda of `newSession` for that sink: one more line, the round line. -/
theorem Session.playRound_received (s : Session σ) (w : World σ) (sink : OutputCallback σ)
    (received : σ → List String)
    (hrec : ∀ (msg : String) (e : σ), received (sink msg e) = received e ++ [msg])
    (hcb : s.roundCallback = some (Game.roundNotifier (some sink)))
    (hlt : s.getRoundsPlayed < s.totalRounds)
    (hru : ∀ v : World σ, received (s.user.chooseHand v).2.ext = received v.ext)
    (hrc : ∀ v : World σ, received (s.computer.chooseHand v).2.ext = received v.ext) :
    received (s.playRound w).world.ext =
      received w.ext ++ [Game.roundLine s.getRoundsPlayed (s.playHands w).move] := by
  rw [Session.playRound_ext_of_sink s w sink hcb hlt, hrec,
    Session.playHands_received s w received hru hrc]

/-- C21: a game with no session, or not in state Running, refuses `playSingleRound` with
`std::runtime_error` and nothing changes: the game (state, session with its history and
counters) and the world, call log included, are as before, so no `chooseHand` ran and the
sink received nothing. -/
theorem playSingleRound_inactive_no_effect (g : Game σ) (w : World σ)
    (h : g.getCurrentSession = none ∨ g.getState ≠ GameState.Running) :
    (g.playSingleRound w).result = Except.error (Error.runtime_error "No active session.") ∧
    (g.playSingleRound w).self = g ∧
    (g.playSingleRound w).self.getState = g.getState ∧
    (g.playSingleRound w).self.view = g.view ∧
    (g.playSingleRound w).world = w ∧
    (g.playSingleRound w).world.calls = w.calls := by
  have hall : g.playSingleRound w =
      { result := Except.error (Error.runtime_error "No active session."), self := g,
        world := w } := by
    rcases h with h | h
    · unfold Game.playSingleRound
      unfold Game.getCurrentSession at h
      rw [h]
    · exact Game.playSingleRound_of_not_running g w h
  rw [hall]
  exact ⟨rfl, rfl, rfl, rfl, rfl, rfl⟩

/-- Witness of C21: the idle game of the tests, and the same game once finished. -/
theorem playSingleRound_inactive_no_effect_witness :
    ((Game.create (constantUser "PaperPal" Combination.Paper)
        (constantUser "RockAI" Combination.Rock)).playSingleRound (worldOf ())).result =
      Except.error (Error.runtime_error "No active session.") ∧
    ((((Game.create (constantUser "PaperPal" Combination.Paper)
        (constantUser "RockAI" Combination.Rock)).newSession 1
          (worldOf ())).self.playSingleRound (worldOf ())).self.playSingleRound
            (worldOf ())).world.calls = (worldOf ()).calls :=
  ⟨(playSingleRound_inactive_no_effect
      (Game.create (constantUser "PaperPal" Combination.Paper)
        (constantUser "RockAI" Combination.Rock)) (worldOf ()) (Or.inl rfl)).1,
    (playSingleRound_inactive_no_effect
      (((Game.create (constantUser "PaperPal" Combination.Paper)
        (constantUser "RockAI" Combination.Rock)).newSession 1
          (worldOf ())).self.playSingleRound (worldOf ())).self (worldOf ())
      (Or.inr (by decide))).2.2.2.2.2⟩

end GameLines

/-! ## Lifecycle controller: what the sink receives -/

section GameSink

variable {σ : Type}

/-- C23: for a round played through `playSingleRound` on a reachable game with a sink, the
sink is called with the line "Round k: <user gesture> vs <computer gesture> -> <outcome>",
`k` being the one-based number of the round (callback index + 1), both gestures shown by
`combinationToString` and the outcome by `moveResultToString`, which is "User Wins",
"Computer Wins" or "Draw".  The call is made on the caller state the two players left, and
its result is the caller state after the round; after the last round of the match the sink
is called once more, with the summary, on the state the round line left. -/
theorem roundLine_sent_to_sink (g : Game σ) (w : World σ) (move : Move)
    (sink : OutputCallback σ) (hreach : Game.Reachable g)
    (hsink : g.outputCallback = some sink)
    (hplay : (g.playSingleRound w).result = Except.ok move) :
    (∃ s : Session σ,
      g.getCurrentSession = some s ∧
      move = Move.mk (g.user.chooseHand (w.logCall Call.userChooseHand)).1
        (g.computer.chooseHand
          ((g.user.chooseHand (w.logCall Call.userChooseHand)).2.logCall
            Call.computerChooseHand)).1 ∧
      (s.getRoundsPlayed + 1 < s.getTotalRounds →
        (g.playSingleRound w).world.ext =
          sink
            ("Round " ++ toString (s.getRoundsPlayed + 1) ++ ": " ++
              combinationToString move.getUserHand.getCombination ++ " vs " ++
              combinationToString move.getComputerHand.getCombination ++ " -> " ++
              moveResultToString move.getWhoWins)
            (g.computer.chooseHand
              ((g.user.chooseHand (w.logCall Call.userChooseHand)).2.logCall
                Call.computerChooseHand)).2.ext) ∧
      (¬ s.getRoundsPlayed + 1 < s.getTotalRounds →
        ∃ v : World σ,
          v.ext =
            sink
              ("Round " ++ toString (s.getRoundsPlayed + 1) ++ ": " ++
                combinationToString move.getUserHand.getCombination ++ " vs " ++
                combinationToString move.getComputerHand.getCombination ++ " -> " ++
                moveResultToString move.getWhoWins)
              (g.computer.chooseHand
                ((g.user.chooseHand (w.logCall Call.userChooseHand)).2.logCall
                  Call.computerChooseHand)).2.ext ∧
          (g.playSingleRound w).world.ext =
            sink (g.summary (s.playRound w).self v) v.ext)) ∧
    moveResultToString MoveResult.UserWins = "User Wins" ∧
    moveResultToString MoveResult.ComputerWins = "Computer Wins" ∧
    moveResultToString MoveResult.Draw = "Draw" := by
  refine ⟨?_, rfl, rfl, rfl⟩
  obtain ⟨s, hs, hstate, hlt, hmove⟩ := Game.playSingleRound_ok_inv g w move hplay
  obtain ⟨hu, hc, hcb⟩ := Game.Reachable.wired hreach s hs
  have hns : s.NeverStops := Game.roundNotifier_neverStops s _ hcb
  have hworld := (Game.playSingleRound_world_of_running g s w hs hstate hns hlt).1
  rw [hsink] at hcb
  have hround := Session.playRound_ext_of_sink s w sink hcb hlt
  have hplayers : (s.playHands w).world =
      (g.computer.chooseHand
        ((g.user.chooseHand (w.logCall Call.userChooseHand)).2.logCall
          Call.computerChooseHand)).2 := by
    rw [Session.playHands_world, hu, hc]
  have hhands : (s.playHands w).move =
      Move.mk (g.user.chooseHand (w.logCall Call.userChooseHand)).1
        (g.computer.chooseHand
          ((g.user.chooseHand (w.logCall Call.userChooseHand)).2.logCall
            Call.computerChooseHand)).1 := by
    rw [Session.playHands_move, hu, hc]
  rw [hplayers, ← hmove] at hround
  refine ⟨s, hs, by rw [hmove, hhands], ?_, ?_⟩
  · intro hnext
    have hnext2 : s.getRoundsPlayed + 1 < s.totalRounds := hnext
    rw [hworld, if_pos hnext2, hround]
    rfl
  · intro hnext
    have hnext2 : ¬ s.getRoundsPlayed + 1 < s.totalRounds := hnext
    refine ⟨(s.playRound w).world, by rw [hround]; rfl, ?_⟩
    rw [hworld, if_neg hnext2, hsink]
    rfl

/-- Witness of C23: the first round of the two-round game of the tests, with a sink that
keeps its lines: after the round it holds the line of round 1. -/
theorem roundLine_sent_to_sink_witness :
    ((((Game.create (constantUser "PaperPal" Combination.Paper)
      (constantUser "RockAI" Combination.Rock)).setOutputCallback
        (some collectingSink)).newSession 2 (worldOf [])).self.playSingleRound
          (worldOf [])).result =
      Except.ok (Move.mk (Hand.mk Combination.Paper) (Hand.mk Combination.Rock)) ∧
    ∃ s : Session (List String),
      (((Game.create (constantUser "PaperPal" Combination.Paper)
        (constantUser "RockAI" Combination.Rock)).setOutputCallback
          (some collectingSink)).newSession 2 (worldOf [])).self.getCurrentSession =
        some s ∧
      (s.getRoundsPlayed + 1 < s.getTotalRounds →
        ((((Game.create (constantUser "PaperPal" Combination.Paper)
          (constantUser "RockAI" Combination.Rock)).setOutputCallback
            (some collectingSink)).newSession 2 (worldOf [])).self.playSingleRound
              (worldOf [])).world.ext =
          collectingSink
            ("Round " ++ toString (s.getRoundsPlayed + 1) ++ ": " ++
              combinationToString
                (Move.mk (Hand.mk Combination.Paper)
                  (Hand.mk Combination.Rock)).getUserHand.getCombination ++ " vs " ++
              combinationToString
                (Move.mk (Hand.mk Combination.Paper)
                  (Hand.mk Combination.Rock)).getComputerHand.getCombination ++ " -> " ++
              moveResultToString
                (Move.mk (Hand.mk Combination.Paper)
                  (Hand.mk Combination.Rock)).getWhoWins)
            []) :=
  ⟨rfl,
    (roundLine_sent_to_sink
      (((Game.create (constantUser "PaperPal" Combination.Paper)
        (constantUser "RockAI" Combination.Rock)).setOutputCallback
          (some collectingSink)).newSession 2 (worldOf [])).self (worldOf [])
      (Move.mk (Hand.mk Combination.Paper) (Hand.mk Combination.Rock)) collectingSink
      (Game.Reachable.newSession _ 2 (worldOf [])
        (Game.Reachable.setOutputCallback _ (some collectingSink)
          (Game.Reachable.create _ _)))
      rfl rfl).1.elim (fun s hs => ⟨s, hs.1, hs.2.2.1⟩)⟩

end GameSink

/-! ## Lifecycle controller: the lines of a whole match -/

section GameTranscript

variable {σ : Type}

theorem Game.summary_congr (g1 g2 : Game σ) (s : Session σ) (v : World σ)
    (hu : g1.user = g2.user) (hc : g1.computer = g2.computer) :
    g1.summary s v = g2.summary s v := by
  unfold Game.summary
  rw [hu, hc]

theorem Game.roundLinesFrom_cons (i : Nat) (m : Move) (rest : List Move) :
    Game.roundLinesFrom i (m :: rest) =
      Game.roundLine (i : Int) m :: Game.roundLinesFrom (i + 1) rest := by
  simp [Game.roundLinesFrom, indexedFrom]

theorem Game.roundLinesFrom_length (i : Nat) (moves : List Move) :
    (Game.roundLinesFrom i moves).length = moves.length := by
  simp [Game.roundLinesFrom, indexedFrom_length]

/-- The calls of the sink over `k` successive `playSingleRound` calls of a running game with
rounds left.  If the last of these rounds was the last of the match, the last call of the
sink is the one with the summary.  A sink that records what it receives has recorded the
round lines of the moves played, in order, then the summary if the match is over, and it
had recorded all these round lines when it was called with the summary. -/
theorem Game.playSingleRounds_received (user computer : IPlayer σ) (sink : OutputCallback σ)
    (k : Nat) :
    ∀ (g : Game σ) (s : Session σ) (w : World σ),
      g.user = user → g.computer = computer → g.outputCallback = some sink →
      g.currentSession = some s → g.state = GameState.Running →
      s.user = user → s.computer = computer →
      s.roundCallback = some (Game.roundNotifier (some sink)) →
      s.getRoundsPlayed < s.totalRounds → s.getRoundsPlayed + (k : Int) ≤ s.totalRounds →
      ∃ (s2 : Session σ) (added : List Move) (tail : List String),
        (g.playSingleRounds k w).2.1.currentSession = some s2 ∧
        s2.moves = s.moves ++ added ∧ added.length = k ∧
        s2.totalRounds = s.totalRounds ∧
        (s.getRoundsPlayed + (k : Int) < s.totalRounds → tail = []) ∧
        (0 < k → s.getRoundsPlayed + (k : Int) = s.totalRounds →
          ∃ v : World σ, tail = [(g.playSingleRounds k w).2.1.summary s2 v] ∧
            (g.playSingleRounds k w).2.2.ext =
              sink ((g.playSingleRounds k w).2.1.summary s2 v) v.ext ∧
            (g.playSingleRounds k w).2.1.state = GameState.Finished ∧
            ∀ received : σ → List String, SinkRecords sink user computer received →
              received v.ext =
                received w.ext ++ Game.roundLinesFrom s.moves.length added) ∧
        ∀ received : σ → List String, SinkRecords sink user computer received →
          received (g.playSingleRounds k w).2.2.ext =
            received w.ext ++ Game.roundLinesFrom s.moves.length added ++ tail := by
  induction k with
  | zero =>
    intro g s w _ _ _ hs _ _ _ _ _ _
    exact ⟨s, [], [], hs, by simp, rfl, rfl, fun _ => rfl, fun h => absurd h (lt_irrefl 0),
      fun received _ => by simp [Game.playSingleRounds, Game.roundLinesFrom, indexedFrom]⟩
  | succ k ih =>
    intro g s w hgu hgc hgs hs hstate hsu hsc hcb hlt hle
    have hns : s.NeverStops := Game.roundNotifier_neverStops s _ hcb
    obtain ⟨_, hsess, hst⟩ := Game.playSingleRound_of_running g s w hs hstate hns hlt
    obtain ⟨hworld, hgu1, hgc1, hgs1⟩ :=
      Game.playSingleRound_world_of_running g s w hs hstate hns hlt
    have hround : ∀ received : σ → List String, SinkRecords sink user computer received →
        received (s.playRound w).world.ext =
          received w.ext ++ [Game.roundLine s.getRoundsPlayed (s.playHands w).move] :=
      fun received hk => Session.playRound_received s w sink received hk.1 hcb hlt
        (by rw [hsu]; exact hk.2.1) (by rw [hsc]; exact hk.2.2)
    have hmoves := Session.playRound_moves_of_lt s w hlt
    have hsize := Session.playRound_getRoundsPlayed_of_lt s w hlt
    have htot := Session.playRound_totalRounds s w
    have hidx : s.getRoundsPlayed = ((s.moves.length : Nat) : Int) := rfl
    by_cases hnext : s.getRoundsPlayed + 1 < s.totalRounds
    · rw [if_pos hnext] at hst hworld
      obtain ⟨s2, added, tail, h1, h2, h3, h4, h6, h7, h5⟩ :=
        ih (g.playSingleRound w).self (s.playRound w).self (g.playSingleRound w).world
          (by rw [hgu1, hgu]) (by rw [hgc1, hgc]) (by rw [hgs1, hgs]) hsess hst
          (by rw [Session.playRound_user, hsu]) (by rw [Session.playRound_computer, hsc])
          (by rw [Session.playRound_roundCallback, hcb])
          (by rw [hsize, htot]; exact hnext) (by rw [hsize, htot]; push_cast at hle; omega)
      refine ⟨s2, (s.playHands w).move :: added, tail, h1, ?_, by simp [h3], ?_, ?_, ?_, ?_⟩
      · rw [h2, hmoves]; simp
      · rw [h4, htot]
      · intro hlt2
        apply h6
        rw [hsize, htot]; push_cast at hlt2; omega
      · intro _ heq
        have hk : 0 < k := by push_cast at heq; omega
        obtain ⟨v, hv1, hv2, hv4, hv3⟩ :=
          h7 hk (by rw [hsize, htot]; push_cast at heq; omega)
        refine ⟨v, hv1, hv2, hv4, ?_⟩
        intro received hrec
        rw [hv3 received hrec, hworld, hround received hrec, hmoves,
          Game.roundLinesFrom_cons, hidx]
        simp
      · intro received hrec
        show received (Game.playSingleRounds k (g.playSingleRound w).self
          (g.playSingleRound w).world).2.2.ext = _
        rw [h5 received hrec, hworld, hround received hrec, hmoves,
          Game.roundLinesFrom_cons, hidx]
        simp
    · rw [if_neg hnext] at hst hworld
      have hk : k = 0 := by push_cast at hle; omega
      subst hk
      have hsum := Game.summary_congr (Game.playSingleRounds (0 + 1) g w).2.1 g
        (s.playRound w).self (s.playRound w).world hgu1 hgc1
      have hext : (g.playSingleRound w).world.ext =
          sink (g.summary (s.playRound w).self (s.playRound w).world)
            (s.playRound w).world.ext := by
        rw [hworld, hgs]
        rfl
      have hlines : ∀ received : σ → List String, SinkRecords sink user computer received →
          received (s.playRound w).world.ext =
            received w.ext ++
              Game.roundLinesFrom s.moves.length [(s.playHands w).move] := by
        intro received hrec
        rw [hround received hrec, Game.roundLinesFrom_cons, hidx]
        simp [Game.roundLinesFrom, indexedFrom]
      refine ⟨(s.playRound w).self, [(s.playHands w).move],
        [g.summary (s.playRound w).self (s.playRound w).world], hsess, hmoves, rfl, htot,
        ?_, ?_, ?_⟩
      · intro hlt2
        exact absurd (by push_cast at hlt2; omega) hnext
      · intro _ _
        refine ⟨(s.playRound w).world, by rw [hsum], ?_, hst, hlines⟩
        rw [hsum]
        exact hext
      · intro received hrec
        show received (g.playSingleRound w).world.ext = _
        rw [hext, hrec.1, hlines received hrec]

/-- The calls of the sink from `newSession(N)` on any game holding that sink through
`k ≤ N` plays.  A sink that records what it receives has recorded the start notice, then
the round lines of the `k` moves played, then the summary if the match is over. -/
theorem Game.newSession_then_plays_received (g : Game σ) (sink : OutputCallback σ)
    (N : Int) (w : World σ) (hsink : g.outputCallback = some sink) (hN : 1 ≤ N)
    (k : Nat) (hkN : (k : Int) ≤ N) :
    ∃ (s2 : Session σ) (tail : List String),
      ((g.newSession N w).self.playSingleRounds k
        (g.newSession N w).world).2.1.currentSession = some s2 ∧
      s2.moves.length = k ∧
      ((k : Int) < N → tail = []) ∧
      ((k : Int) = N →
        ∃ v : World σ,
          tail = [((g.newSession N w).self.playSingleRounds k
            (g.newSession N w).world).2.1.summary s2 v] ∧
          ((g.newSession N w).self.playSingleRounds k (g.newSession N w).world).2.2.ext =
            sink (((g.newSession N w).self.playSingleRounds k
              (g.newSession N w).world).2.1.summary s2 v) v.ext ∧
          ((g.newSession N w).self.playSingleRounds k
            (g.newSession N w).world).2.1.state = GameState.Finished ∧
          ∀ received : σ → List String, SinkRecords sink g.user g.computer received →
            received v.ext =
              received w.ext ++
                ("=== New Session (" ++ toString N ++ " rounds) ===") ::
                  Game.roundLinesFrom 0 s2.moves) ∧
      ∀ received : σ → List String, SinkRecords sink g.user g.computer received →
        received ((g.newSession N w).self.playSingleRounds k
          (g.newSession N w).world).2.2.ext =
          received w.ext ++
            ("=== New Session (" ++ toString N ++ " rounds) ===") ::
              (Game.roundLinesFrom 0 s2.moves ++ tail) := by
  have hnew := Game.newSession_of_nonneg g N w (by omega)
  have hnotice : ∀ received : σ → List String, SinkRecords sink g.user g.computer received →
      received (g.newSession N w).world.ext =
        received w.ext ++ ["=== New Session (" ++ toString N ++ " rounds) ==="] := by
    intro received hrec
    rw [hnew, hsink]
    exact hrec.1 _ _
  obtain ⟨s2, added, tail, hcur, hmoves, hlen, _, hnone, hlast, hout⟩ :=
    Game.playSingleRounds_received g.user g.computer sink k
      (g.newSession N w).self
      ((Session.fresh g.user g.computer N).onRoundCompleted
        (some (Game.roundNotifier (some sink))))
      (g.newSession N w).world
      (by rw [hnew]) (by rw [hnew]) (by rw [hnew]; exact hsink) (by rw [hnew, hsink])
      (by rw [hnew]) rfl rfl rfl
      (by simp [Session.getRoundsPlayed, Session.onRoundCompleted, Session.fresh]; omega)
      (by simp [Session.getRoundsPlayed, Session.onRoundCompleted, Session.fresh]; omega)
  have hadded : s2.moves = added := by
    rw [hmoves]
    simp [Session.onRoundCompleted, Session.fresh]
  have hzero : ((Session.fresh g.user g.computer N).onRoundCompleted
      (some (Game.roundNotifier (some sink)))).moves.length = 0 := rfl
  have hplayed : ((Session.fresh g.user g.computer N).onRoundCompleted
      (some (Game.roundNotifier (some sink)))).getRoundsPlayed = 0 := rfl
  have htotal : ((Session.fresh g.user g.computer N).onRoundCompleted
      (some (Game.roundNotifier (some sink)))).totalRounds = N := rfl
  rw [hzero] at hout hlast
  rw [hplayed, htotal] at hnone hlast
  refine ⟨s2, tail, hcur, by rw [hadded, hlen], ?_, ?_, ?_⟩
  · intro hlt
    exact hnone (by omega)
  · intro heq
    obtain ⟨v, hv1, hv2, hv4, hv3⟩ := hlast (by omega) (by omega)
    refine ⟨v, hv1, hv2, hv4, ?_⟩
    intro received hrec
    rw [hv3 received hrec, hnotice received hrec, hadded]
    simp
  · intro received hrec
    rw [hout received hrec, hnotice received hrec, hadded]
    simp

/-- C22: on every game holding a sink when `newSession(N)`, `N ≥ 1`, is called, the sink is
called with the session-start notice during `newSession`, on the caller state at entry.
For every sink that records the lines it receives (as the sink of the tests does): after
`newSession` it has recorded the notice; after `k` plays, `k ≤ N`, it has recorded the
notice followed by at least `k` further lines, at least `k + 1` lines in all; and each
single play adds at least one line. -/
theorem sink_receives_notice_and_rounds (g : Game σ) (sink : OutputCallback σ)
    (N : Int) (k : Nat) (w : World σ)
    (hsink : g.outputCallback = some sink) (hN : 1 ≤ N) (hkN : (k : Int) ≤ N) :
    (g.newSession N w).world.ext =
      sink ("=== New Session (" ++ toString N ++ " rounds) ===") w.ext ∧
    ∀ received : σ → List String, SinkRecords sink g.user g.computer received →
      received (g.newSession N w).world.ext =
        received w.ext ++ ["=== New Session (" ++ toString N ++ " rounds) ==="] ∧
      (∃ rest : List String,
        received ((g.newSession N w).self.playSingleRounds k
          (g.newSession N w).world).2.2.ext =
          received w.ext ++
            ("=== New Session (" ++ toString N ++ " rounds) ===") :: rest ∧
        k ≤ rest.length) ∧
      (received w.ext).length + (k + 1) ≤
        (received ((g.newSession N w).self.playSingleRounds k
          (g.newSession N w).world).2.2.ext).length ∧
      (∀ j : Nat, j < k →
        (received ((g.newSession N w).self.playSingleRounds j
          (g.newSession N w).world).2.2.ext).length + 1 ≤
        (received ((g.newSession N w).self.playSingleRounds (j + 1)
          (g.newSession N w).world).2.2.ext).length) := by
  have hnew := Game.newSession_of_nonneg g N w (by omega)
  have hcall : (g.newSession N w).world.ext =
      sink ("=== New Session (" ++ toString N ++ " rounds) ===") w.ext := by
    rw [hnew, hsink]
    rfl
  refine ⟨hcall, ?_⟩
  intro received hrec
  obtain ⟨s2, tail, _, hlen, _, _, hout⟩ :=
    Game.newSession_then_plays_received g sink N w hsink hN k hkN
  have hout := hout received hrec
  refine ⟨by rw [hcall, hrec.1], ⟨_, hout, ?_⟩, ?_, ?_⟩
  · rw [List.length_append, Game.roundLinesFrom_length, hlen]
    omega
  · rw [hout]
    simp only [List.length_append, List.length_cons, Game.roundLinesFrom_length, hlen]
    omega
  · intro j hj
    obtain ⟨sj, tailj, _, hlenj, hnonej, _, houtj⟩ :=
      Game.newSession_then_plays_received g sink N w hsink hN j (by omega)
    obtain ⟨sn, tailn, _, hlenn, _, _, houtn⟩ :=
      Game.newSession_then_plays_received g sink N w hsink hN (j + 1)
        (by push_cast; omega)
    rw [houtj received hrec, houtn received hrec, hnonej (by omega)]
    simp only [List.length_append, List.length_cons, Game.roundLinesFrom_length, hlenj,
      hlenn, List.length_nil]
    omega

/-- Witness of C22: the one-round match of the tests, played once, with the sink of the
tests: it holds the notice after `newSession` and at least 2 lines after the play. -/
theorem sink_receives_notice_and_rounds_witness :
    (1 : Int) ≤ 1 ∧ ((1 : Nat) : Int) ≤ 1 ∧
    SinkRecords collectingSink (constantUser "PaperPal" Combination.Paper)
      (constantUser "RockAI" Combination.Rock) id ∧
    (((Game.create (constantUser "PaperPal" Combination.Paper)
      (constantUser "RockAI" Combination.Rock)).setOutputCallback
        (some collectingSink)).newSession 1 (worldOf [])).world.ext =
      ["=== New Session (1 rounds) ==="] ∧
    (worldOf ([] : List String)).ext.length + (1 + 1) ≤
      (((((Game.create (constantUser "PaperPal" Combination.Paper)
        (constantUser "RockAI" Combination.Rock)).setOutputCallback
          (some collectingSink)).newSession 1 (worldOf [])).self.playSingleRounds 1
        (((Game.create (constantUser "PaperPal" Combination.Paper)
          (constantUser "RockAI" Combination.Rock)).setOutputCallback
            (some collectingSink)).newSession 1 (worldOf [])).world).2.2.ext).length :=
  ⟨by decide, by decide, ⟨fun _ _ => rfl, fun _ => rfl, fun _ => rfl⟩,
    (sink_receives_notice_and_rounds
      ((Game.create (constantUser "PaperPal" Combination.Paper)
        (constantUser "RockAI" Combination.Rock)).setOutputCallback (some collectingSink))
      collectingSink 1 1 (worldOf []) rfl (by decide) (by decide)).1.trans (by decide),
    ((sink_receives_notice_and_rounds
      ((Game.create (constantUser "PaperPal" Combination.Paper)
        (constantUser "RockAI" Combination.Rock)).setOutputCallback (some collectingSink))
      collectingSink 1 1 (worldOf []) rfl (by decide) (by decide)).2 id
      ⟨fun _ _ => rfl, fun _ => rfl, fun _ => rfl⟩).2.2.1⟩

end GameTranscript

/-! ## Lifecycle controller: the sink does not influence the match -/

section SinkIndependence

variable {σ : Type}

/-- The accessor values after a successful round of a session whose callback never stops
it. -/
theorem Session.view_playRound_of_lt (s : Session σ) (w : World σ) (hns : s.NeverStops)
    (hlt : s.getRoundsPlayed < s.totalRounds) :
    (s.playRound w).self.view = s.view.afterRound (s.playHands w).move := by
  have hrun : (s.playRound w).self.running =
      decide (s.getRoundsPlayed + 1 < s.totalRounds) := by
    rw [Session.playRound_running_of_lt s w hlt, Session.stopRequested_of_neverStops s w hns]
    rfl
  unfold Session.view SessionView.afterRound
  simp only [Session.getMoves, Session.getTotalRounds, Session.getUserScore,
    Session.getComputerScore, Session.getDrawCount, Session.isRunning]
  rw [Session.playRound_moves_of_lt s w hlt, Session.playRound_totalRounds,
    Session.playRound_userScore_of_lt s w hlt, Session.playRound_computerScore_of_lt s w hlt,
    Session.playRound_drawCount_of_lt s w hlt, hrun]
  rfl

theorem Game.SameMatch.view_eq {user computer : IPlayer σ} {sink : OutputCallback σ}
    {g1 g2 : Game σ} (h : Game.SameMatch user computer sink g1 g2) : g1.view = g2.view := by
  obtain ⟨_, _, _, _, _, _, hst, hcur⟩ := h
  unfold Game.view Game.getState Game.getCurrentSession
  rw [hst]
  rcases hcur with ⟨h1, h2⟩ | ⟨s1, s2, h1, h2, hs⟩
  · rw [h1, h2]
  · rw [h1, h2]
    simp only [Option.map_some']
    rw [hs.2.2.2.2.2.2]

/-- One round of two sessions of the same match, with and without sink, in worlds the
players cannot tell apart: same result, same accessor values, and the worlds stay
indistinguishable. -/
theorem Session.SameMatch.playRound {user computer : IPlayer σ} {sink : OutputCallback σ}
    (R : World σ → World σ → Prop)
    (hlogL : ∀ (v1 v2 : World σ) (c : Call), R v1 v2 → R (v1.logCall c) v2)
    (hlogR : ∀ (v1 v2 : World σ) (c : Call), R v1 v2 → R v1 (v2.logCall c))
    (hsink : ∀ (msg : String) (v1 v2 : World σ), R v1 v2 →
      R { v1 with ext := sink msg v1.ext } v2)
    (hu : ∀ v1 v2 : World σ, R v1 v2 →
      (user.chooseHand v1).1 = (user.chooseHand v2).1 ∧
      R (user.chooseHand v1).2 (user.chooseHand v2).2)
    (hc : ∀ v1 v2 : World σ, R v1 v2 →
      (computer.chooseHand v1).1 = (computer.chooseHand v2).1 ∧
      R (computer.chooseHand v1).2 (computer.chooseHand v2).2)
    (s1 s2 : Session σ) (w1 w2 : World σ)
    (hs : Session.SameMatch user computer sink s1 s2) (hw : R w1 w2) :
    (s1.playRound w1).result = (s2.playRound w2).result ∧
    Session.SameMatch user computer sink (s1.playRound w1).self (s2.playRound w2).self ∧
    R (s1.playRound w1).world (s2.playRound w2).world := by
  obtain ⟨hu1, hu2, hc1, hc2, hcb1, hcb2, hview⟩ := hs
  have hmoves : s1.moves = s2.moves := congrArg SessionView.moves hview
  have htotal : s1.totalRounds = s2.totalRounds := congrArg SessionView.totalRounds hview
  have hsize : s1.getRoundsPlayed = s2.getRoundsPlayed := by
    simp only [Session.getRoundsPlayed, hmoves]
  by_cases hlt : s1.getRoundsPlayed < s1.totalRounds
  · have hlt2 : s2.getRoundsPlayed < s2.totalRounds := by rw [← hsize, ← htotal]; exact hlt
    have hU := hu _ _ (hlogR _ _ Call.userChooseHand (hlogL _ _ Call.userChooseHand hw))
    have hC := hc _ _ (hlogR _ _ Call.computerChooseHand
      (hlogL _ _ Call.computerChooseHand hU.2))
    have hmove : (s1.playHands w1).move = (s2.playHands w2).move := by
      rw [Session.playHands_move, Session.playHands_move, hu1, hu2, hc1, hc2, hU.1, hC.1]
    have hworldR : R (s1.playHands w1).world (s2.playHands w2).world := by
      rw [Session.playHands_world, Session.playHands_world, hu1, hu2, hc1, hc2]
      exact hC.2
    refine ⟨?_, ⟨?_, ?_, ?_, ?_, ?_, ?_, ?_⟩, ?_⟩
    · rw [Session.playRound_result_of_lt s1 w1 hlt, Session.playRound_result_of_lt s2 w2 hlt2,
        hmove]
    · rw [Session.playRound_user, hu1]
    · rw [Session.playRound_user, hu2]
    · rw [Session.playRound_computer, hc1]
    · rw [Session.playRound_computer, hc2]
    · rw [Session.playRound_roundCallback, hcb1]
    · rw [Session.playRound_roundCallback, hcb2]
    · rw [Session.view_playRound_of_lt s1 w1 (Game.roundNotifier_neverStops s1 _ hcb1) hlt,
        Session.view_playRound_of_lt s2 w2 (Game.roundNotifier_neverStops s2 _ hcb2) hlt2,
        hview, hmove]
    · rw [Session.playRound_world_of_lt s1 w1 hlt, Session.playRound_world_of_lt s2 w2 hlt2,
        hcb1, hcb2]
      exact hsink _ _ _ (hlogL _ _ _ (hlogL _ _ _ (hlogR _ _ _ hworldR)))
  · have hge2 : s2.getRoundsPlayed ≥ s2.totalRounds := by
      rw [← hsize, ← htotal]; exact not_lt.mp hlt
    rw [Session.playRound_of_ge s1 w1 (not_lt.mp hlt), Session.playRound_of_ge s2 w2 hge2]
    exact ⟨rfl, ⟨hu1, hu2, hc1, hc2, hcb1, hcb2, hview⟩, hw⟩

end SinkIndependence

section SinkIndependenceGame

variable {σ : Type}

/-- A running game whose session has no round left passes on the exception of
`playRound`. -/
theorem Game.playSingleRound_of_exhausted (g : Game σ) (s : Session σ) (w : World σ)
    (hs : g.currentSession = some s) (hstate : g.state = GameState.Running)
    (hge : s.getRoundsPlayed ≥ s.totalRounds) :
    g.playSingleRound w =
      { result := Except.error (Error.runtime_error "All rounds have already been played."),
        self := { g with currentSession := some s }, world := w } := by
  unfold Game.playSingleRound
  rw [hs]
  dsimp only
  rw [if_neg (by rw [hstate]; exact fun hne => hne rfl), Session.playRound_of_ge s w hge]

/-- One call on two games of the same match, with and without sink, in worlds the players
cannot tell apart: same result, still the same match, worlds still indistinguishable. -/
theorem Game.SameMatch.apply {user computer : IPlayer σ} {sink : OutputCallback σ}
    (R : World σ → World σ → Prop)
    (hlogL : ∀ (v1 v2 : World σ) (c : Call), R v1 v2 → R (v1.logCall c) v2)
    (hlogR : ∀ (v1 v2 : World σ) (c : Call), R v1 v2 → R v1 (v2.logCall c))
    (hsink : ∀ (msg : String) (v1 v2 : World σ), R v1 v2 →
      R { v1 with ext := sink msg v1.ext } v2)
    (hu : ∀ v1 v2 : World σ, R v1 v2 →
      (user.chooseHand v1).1 = (user.chooseHand v2).1 ∧
      R (user.chooseHand v1).2 (user.chooseHand v2).2)
    (hc : ∀ v1 v2 : World σ, R v1 v2 →
      (computer.chooseHand v1).1 = (computer.chooseHand v2).1 ∧
      R (computer.chooseHand v1).2 (computer.chooseHand v2).2)
    (op : GameOp) (g1 g2 : Game σ) (w1 w2 : World σ)
    (hg : Game.SameMatch user computer sink g1 g2) (hw : R w1 w2) :
    (g1.apply op w1).result = (g2.apply op w2).result ∧
    Game.SameMatch user computer sink (g1.apply op w1).self (g2.apply op w2).self ∧
    R (g1.apply op w1).world (g2.apply op w2).world := by
  have hemit : ∀ (msg1 msg2 : String) (v1 v2 : World σ), R v1 v2 →
      R (emitTo (some sink) msg1 v1) (emitTo none msg2 v2) :=
    fun msg1 _ v1 v2 h => hsink msg1 _ _ (hlogL _ _ _ h)
  obtain ⟨hu1, hu2, hc1, hc2, hk1, hk2, hst, hcur⟩ := hg
  cases op with
  | newSession rounds =>
    unfold Game.apply
    dsimp only
    by_cases hneg : rounds < 0
    · have hfail : ∀ g : Game σ, g.newSession rounds =
          fun w => { result := Except.error (Error.length_error "vector::reserve"),
                     self := g, world := w } := by
        intro g
        funext w
        unfold Game.newSession Session.create
        rw [if_pos hneg]
      rw [hfail g1, hfail g2]
      exact ⟨rfl, ⟨hu1, hu2, hc1, hc2, hk1, hk2, hst, hcur⟩, hw⟩
    · rw [Game.newSession_of_nonneg g1 rounds w1 (not_lt.mp hneg),
        Game.newSession_of_nonneg g2 rounds w2 (not_lt.mp hneg)]
      refine ⟨rfl, ⟨hu1, hu2, hc1, hc2, hk1, hk2, rfl, Or.inr ⟨_, _, rfl, rfl, ?_⟩⟩, ?_⟩
      · rw [hu1, hu2, hc1, hc2, hk1, hk2]
        exact ⟨rfl, rfl, rfl, rfl, rfl, rfl, rfl⟩
      · dsimp only
        rw [hk1, hk2]
        exact hemit _ _ _ _ hw
  | playSingleRound =>
    unfold Game.apply
    dsimp only
    rcases hcur with ⟨h1, h2⟩ | ⟨s1, s2, h1, h2, hs⟩
    · have hno : ∀ (g : Game σ) (w : World σ), g.currentSession = none →
          g.playSingleRound w =
            { result := Except.error (Error.runtime_error "No active session."), self := g,
              world := w } := by
        intro g w hnone
        unfold Game.playSingleRound
        rw [hnone]
      rw [hno g1 w1 h1, hno g2 w2 h2]
      exact ⟨rfl, ⟨hu1, hu2, hc1, hc2, hk1, hk2, hst, Or.inl ⟨h1, h2⟩⟩, hw⟩
    · by_cases hrun : g1.state = GameState.Running
      · have hrun2 : g2.state = GameState.Running := by rw [← hst]; exact hrun
        obtain ⟨hres, hsame, hworld⟩ :=
          Session.SameMatch.playRound R hlogL hlogR hsink hu hc s1 s2 w1 w2 hs hw
        have hview := hs.2.2.2.2.2.2
        have hmoves : s1.moves = s2.moves := congrArg SessionView.moves hview
        have htotal : s1.totalRounds = s2.totalRounds :=
          congrArg SessionView.totalRounds hview
        have hsize : s1.getRoundsPlayed = s2.getRoundsPlayed := by
          simp only [Session.getRoundsPlayed, hmoves]
        by_cases hlt : s1.getRoundsPlayed < s1.totalRounds
        · have hlt2 : s2.getRoundsPlayed < s2.totalRounds := by
            rw [← hsize, ← htotal]; exact hlt
          have hns1 := Game.roundNotifier_neverStops s1 _ hs.2.2.2.2.1
          have hns2 := Game.roundNotifier_neverStops s2 _ hs.2.2.2.2.2.1
          obtain ⟨hr1, hcur1, hst1⟩ :=
            Game.playSingleRound_of_running g1 s1 w1 h1 hrun hns1 hlt
          obtain ⟨hr2, hcur2, hst2⟩ :=
            Game.playSingleRound_of_running g2 s2 w2 h2 hrun2 hns2 hlt2
          obtain ⟨hw1, hgu1, hgc1, hgk1⟩ :=
            Game.playSingleRound_world_of_running g1 s1 w1 h1 hrun hns1 hlt
          obtain ⟨hw2, hgu2, hgc2, hgk2⟩ :=
            Game.playSingleRound_world_of_running g2 s2 w2 h2 hrun2 hns2 hlt2
          have hmove : (s1.playHands w1).move = (s2.playHands w2).move := by
            rw [Session.playRound_result_of_lt s1 w1 hlt,
              Session.playRound_result_of_lt s2 w2 hlt2] at hres
            exact Except.ok.inj hres
          refine ⟨by rw [hr1, hr2, hmove],
            ⟨by rw [hgu1, hu1], by rw [hgu2, hu2], by rw [hgc1, hc1], by rw [hgc2, hc2],
              by rw [hgk1, hk1], by rw [hgk2, hk2], by rw [hst1, hst2, hsize, htotal],
              Or.inr ⟨_, _, hcur1, hcur2, hsame⟩⟩, ?_⟩
          rw [hw1, hw2, hsize, htotal, hk1, hk2]
          by_cases hnext : s2.getRoundsPlayed + 1 < s2.totalRounds
          · rw [if_pos hnext, if_pos hnext]
            exact hworld
          · rw [if_neg hnext, if_neg hnext]
            exact hemit _ _ _ _ hworld
        · have hge2 : s2.getRoundsPlayed ≥ s2.totalRounds := by
            rw [← hsize, ← htotal]; exact not_lt.mp hlt
          rw [Game.playSingleRound_of_exhausted g1 s1 w1 h1 hrun (not_lt.mp hlt),
            Game.playSingleRound_of_exhausted g2 s2 w2 h2 hrun2 hge2]
          exact ⟨rfl, ⟨hu1, hu2, hc1, hc2, hk1, hk2, hst, Or.inr ⟨s1, s2, rfl, rfl, hs⟩⟩, hw⟩
      · have hrun2 : g2.state ≠ GameState.Running := by rw [← hst]; exact hrun
        rw [Game.playSingleRound_of_not_running g1 w1 hrun,
          Game.playSingleRound_of_not_running g2 w2 hrun2]
        exact ⟨rfl, ⟨hu1, hu2, hc1, hc2, hk1, hk2, hst, Or.inr ⟨s1, s2, h1, h2, hs⟩⟩, hw⟩

/-- A sequence of calls on two games of the same match, with and without sink: same
results, and the same match at the end. -/
theorem Game.SameMatch.run {user computer : IPlayer σ} {sink : OutputCallback σ}
    (R : World σ → World σ → Prop)
    (hlogL : ∀ (v1 v2 : World σ) (c : Call), R v1 v2 → R (v1.logCall c) v2)
    (hlogR : ∀ (v1 v2 : World σ) (c : Call), R v1 v2 → R v1 (v2.logCall c))
    (hsink : ∀ (msg : String) (v1 v2 : World σ), R v1 v2 →
      R { v1 with ext := sink msg v1.ext } v2)
    (hu : ∀ v1 v2 : World σ, R v1 v2 →
      (user.chooseHand v1).1 = (user.chooseHand v2).1 ∧
      R (user.chooseHand v1).2 (user.chooseHand v2).2)
    (hc : ∀ v1 v2 : World σ, R v1 v2 →
      (computer.chooseHand v1).1 = (computer.chooseHand v2).1 ∧
      R (computer.chooseHand v1).2 (computer.chooseHand v2).2)
    (ops : List GameOp) :
    ∀ (g1 g2 : Game σ) (w1 w2 : World σ),
      Game.SameMatch user computer sink g1 g2 → R w1 w2 →
      (Game.run ops g1 w1).1 = (Game.run ops g2 w2).1 ∧
      Game.SameMatch user computer sink (Game.run ops g1 w1).2.1 (Game.run ops g2 w2).2.1 := by
  induction ops with
  | nil => intro g1 g2 w1 w2 hg _; exact ⟨rfl, hg⟩
  | cons op rest ih =>
    intro g1 g2 w1 w2 hg hw
    obtain ⟨hres, hg2, hw2⟩ :=
      Game.SameMatch.apply R hlogL hlogR hsink hu hc op g1 g2 w1 w2 hg hw
    obtain ⟨hrest, hfinal⟩ := ih _ _ _ _ hg2 hw2
    exact ⟨by simp only [Game.run, hres, hrest], hfinal⟩

/-- C24: with no sink registered a notification is dropped (the world is left as it is),
and for every sequence of `newSession` / `playSingleRound` calls the results of the calls
(exceptions and returned moves), the game state and the session's history, counters,
configured rounds and running flag are the same with a sink as without one, in any two
worlds the players cannot tell apart (relation `R`, which neither the call log nor the sink
disturbs, so that both runs get the same gestures). -/
theorem sink_cannot_influence_match (user computer : IPlayer σ) (sink : OutputCallback σ)
    (R : World σ → World σ → Prop)
    (hlogL : ∀ (v1 v2 : World σ) (c : Call), R v1 v2 → R (v1.logCall c) v2)
    (hlogR : ∀ (v1 v2 : World σ) (c : Call), R v1 v2 → R v1 (v2.logCall c))
    (hsink : ∀ (msg : String) (v1 v2 : World σ), R v1 v2 →
      R { v1 with ext := sink msg v1.ext } v2)
    (hu : ∀ v1 v2 : World σ, R v1 v2 →
      (user.chooseHand v1).1 = (user.chooseHand v2).1 ∧
      R (user.chooseHand v1).2 (user.chooseHand v2).2)
    (hc : ∀ v1 v2 : World σ, R v1 v2 →
      (computer.chooseHand v1).1 = (computer.chooseHand v2).1 ∧
      R (computer.chooseHand v1).2 (computer.chooseHand v2).2)
    (ops : List GameOp) (w1 w2 : World σ) (hw : R w1 w2) :
    (∀ (g : Game σ) (msg : String) (v : World σ),
      g.outputCallback = none → g.emit msg v = v) ∧
    (Game.run ops ((Game.create user computer).setOutputCallback (some sink)) w1).1 =
      (Game.run ops (Game.create user computer) w2).1 ∧
    (Game.run ops ((Game.create user computer).setOutputCallback (some sink)) w1).2.1.view =
      (Game.run ops (Game.create user computer) w2).2.1.view := by
  have hstart : Game.SameMatch user computer sink
      ((Game.create user computer).setOutputCallback (some sink))
      (Game.create user computer) :=
    ⟨rfl, rfl, rfl, rfl, rfl, rfl, rfl, Or.inl ⟨rfl, rfl⟩⟩
  obtain ⟨hres, hfinal⟩ :=
    Game.SameMatch.run R hlogL hlogR hsink hu hc ops _ _ w1 w2 hstart hw
  refine ⟨?_, hres, Game.SameMatch.view_eq hfinal⟩
  intro g msg v hnone
  unfold Game.emit
  rw [hnone]
  rfl

/-- Witness of C24: the two-round game of the tests, played one call too many, with the
collecting sink and without a sink. -/
theorem sink_cannot_influence_match_witness :
    (Game.run [GameOp.newSession 2, GameOp.playSingleRound, GameOp.playSingleRound,
        GameOp.playSingleRound]
      ((Game.create (constantUser "PaperPal" Combination.Paper)
        (constantUser "RockAI" Combination.Rock)).setOutputCallback (some collectingSink))
      (worldOf [])).1 =
    (Game.run [GameOp.newSession 2, GameOp.playSingleRound, GameOp.playSingleRound,
        GameOp.playSingleRound]
      (Game.create (constantUser "PaperPal" Combination.Paper)
        (constantUser "RockAI" Combination.Rock)) (worldOf ([] : List String))).1 ∧
    (Game.run [GameOp.newSession 2, GameOp.playSingleRound, GameOp.playSingleRound,
        GameOp.playSingleRound]
      ((Game.create (constantUser "PaperPal" Combination.Paper)
        (constantUser "RockAI" Combination.Rock)).setOutputCallback (some collectingSink))
      (worldOf [])).2.1.view =
    (Game.run [GameOp.newSession 2, GameOp.playSingleRound, GameOp.playSingleRound,
        GameOp.playSingleRound]
      (Game.create (constantUser "PaperPal" Combination.Paper)
        (constantUser "RockAI" Combination.Rock)) (worldOf ([] : List String))).2.1.view :=
  (sink_cannot_influence_match (constantUser "PaperPal" Combination.Paper)
    (constantUser "RockAI" Combination.Rock) collectingSink (fun _ _ => True)
    (fun _ _ _ _ => trivial) (fun _ _ _ _ => trivial) (fun _ _ _ _ => trivial)
    (fun _ _ _ => ⟨rfl, trivial⟩) (fun _ _ _ => ⟨rfl, trivial⟩)
    [GameOp.newSession 2, GameOp.playSingleRound, GameOp.playSingleRound,
      GameOp.playSingleRound] (worldOf []) (worldOf []) trivial).2

end SinkIndependenceGame

/-! ## Match engine: counters and history -/

section Tallies

variable {σ : Type}

theorem Session.tallied_record (s : Session σ) (m : Move) (h : s.Tallied) :
    (s.record m).Tallied := by
  unfold Session.Tallied Session.getUserScore Session.getComputerScore Session.getDrawCount
    Session.getMoves at h ⊢
  obtain ⟨h1, h2, h3⟩ := h
  rw [Session.record_userScore, Session.record_computerScore, Session.record_drawCount,
    Session.record_moves, tally_append_singleton, tally_append_singleton,
    tally_append_singleton, h1, h2, h3]
  exact ⟨rfl, rfl, rfl⟩

theorem Session.tallied_playHands (s : Session σ) (w : World σ) (h : s.Tallied) :
    (s.playHands w).session.Tallied := by
  apply Session.tallied_record
  unfold Session.Tallied Session.getUserScore Session.getComputerScore Session.getDrawCount
    Session.getMoves at h ⊢
  simpa using h

theorem Session.tallied_playRound (s : Session σ) (w : World σ) (h : s.Tallied) :
    (s.playRound w).self.Tallied := by
  by_cases hlt : s.getRoundsPlayed < s.totalRounds
  · have hp := Session.tallied_playHands s w h
    rw [Session.playRound_of_lt s w hlt]
    unfold Session.Tallied Session.getUserScore Session.getComputerScore
      Session.getDrawCount Session.getMoves at hp ⊢
    simpa using hp
  · rw [Session.playRound_of_ge s w (not_lt.mp hlt)]
    exact h

theorem Session.Reachable.tallied {s : Session σ} (h : Session.Reachable s) : s.Tallied := by
  induction h with
  | create user computer rounds s hc =>
    unfold Session.create at hc
    split at hc
    · cases hc
    · cases hc
      exact ⟨rfl, rfl, rfl⟩
  | onRoundCompleted s cb _ ih => exact ih
  | playRound s w _ ih => exact Session.tallied_playRound s w ih
  | start s w r _ hr ih =>
    unfold Session.start at hr
    split at hr
    · rename_i r0 h0
      have hloop : r0.self.Tallied :=
        Session.startLoop_preserves Session.Tallied Session.tallied_playRound _ _ _ r0 h0 ih
      split at hr <;> cases hr <;> exact hloop
    · cases hr
  | stop s w _ ih => exact ih
  | startEntry s w _ ih => exact ih
  | inChooseHand s w _ _ ih =>
    unfold Session.Tallied Session.getUserScore Session.getComputerScore
      Session.getDrawCount Session.getMoves at ih ⊢
    simpa using ih
  | inCallback s w _ _ ih => exact Session.tallied_playHands s w ih

/-- C31: in every session state that can be observed (between the public calls after
construction, while the players are asked, inside the round callback) each counter is the
tally of the history: the user score is the number of recorded moves whose outcome is
UserWins, the computer score the number that are ComputerWins, the draw count the number
that are Draw. -/
theorem counters_equal_tallies (s : Session σ) (h : Session.Reachable s) :
    s.getUserScore =
      ((s.getMoves.countP (fun m => decide (m.getWhoWins = MoveResult.UserWins)) : Nat) :
        Int) ∧
    s.getComputerScore =
      ((s.getMoves.countP (fun m => decide (m.getWhoWins = MoveResult.ComputerWins)) : Nat) :
        Int) ∧
    s.getDrawCount =
      ((s.getMoves.countP (fun m => decide (m.getWhoWins = MoveResult.Draw)) : Nat) : Int) :=
  Session.Reachable.tallied h

/-- Witness of C31: the three-round session of the tests after `start()`. -/
theorem counters_equal_tallies_witness :
    ∃ r : Outcome Unit (Session Unit) Unit,
      (rockVsScissors 3).start quietWorld = some r ∧
      Session.Reachable r.self ∧
      r.self.getUserScore =
        ((r.self.getMoves.countP
          (fun m => decide (m.getWhoWins = MoveResult.UserWins)) : Nat) : Int) ∧
      r.self.getUserScore = 3 :=
  ⟨_, rfl,
    Session.Reachable.start _ quietWorld _
      (Session.Reachable.create (fixedUser "RockFan" Combination.Rock)
        (fixedUser "ScissorsBot" Combination.Scissors) 3 (rockVsScissors 3) rfl) rfl,
    (counters_equal_tallies _
      (Session.Reachable.start _ quietWorld _
        (Session.Reachable.create (fixedUser "RockFan" Combination.Rock)
          (fixedUser "ScissorsBot" Combination.Scissors) 3 (rockVsScissors 3) rfl) rfl)).1,
    by decide⟩

end Tallies

/-! ## Lifecycle controller: state and session agree -/

section Lifecycle

variable {σ : Type}

theorem Game.ReachableWithRounds.reachable {g : Game σ} (h : Game.ReachableWithRounds g) :
    Game.Reachable g := by
  induction h with
  | create user computer => exact Game.Reachable.create user computer
  | setOutputCallback g cb _ ih => exact Game.Reachable.setOutputCallback g cb ih
  | newSession g rounds w _ _ ih => exact Game.Reachable.newSession g rounds w ih
  | playSingleRound g w _ ih => exact Game.Reachable.playSingleRound g w ih

theorem Game.consistent_playSingleRound (g : Game σ) (w : World σ) (hw : g.Wired)
    (h : g.Consistent) : (g.playSingleRound w).self.Consistent := by
  rcases h with ⟨hst, hcur⟩ | ⟨hst, s, hcur, hlt⟩ | ⟨hst, s, hcur, hfull, hoff⟩
  · rw [Game.playSingleRound_of_not_running g w (by rw [hst]; decide)]
    exact Or.inl ⟨hst, hcur⟩
  · have hns : s.NeverStops := Game.roundNotifier_neverStops s _ (hw s hcur).2.2
    obtain ⟨_, hnew, hstate⟩ := Game.playSingleRound_of_running g s w hcur hst hns hlt
    have hsize := Session.playRound_getRoundsPlayed_of_lt s w hlt
    have htot : (s.playRound w).self.getTotalRounds = s.getTotalRounds :=
      Session.playRound_totalRounds s w
    by_cases hnext : s.getRoundsPlayed + 1 < s.totalRounds
    · rw [if_pos hnext] at hstate
      exact Or.inr (Or.inl ⟨hstate, _, hnew, by rw [hsize, htot]; exact hnext⟩)
    · rw [if_neg hnext] at hstate
      have hlast : s.getRoundsPlayed + 1 = s.totalRounds := by
        simp only [Session.getTotalRounds] at hlt
        omega
      exact Or.inr (Or.inr ⟨hstate, _, hnew, by rw [hsize, htot]; exact hlast,
        Session.playRound_running_of_last s w hlast⟩)
  · rw [Game.playSingleRound_of_not_running g w (by rw [hst]; decide)]
    exact Or.inr (Or.inr ⟨hst, s, hcur, hfull, hoff⟩)

theorem Game.ReachableWithRounds.consistent {g : Game σ}
    (h : Game.ReachableWithRounds g) : g.Consistent := by
  induction h with
  | create user computer => exact Or.inl ⟨rfl, rfl⟩
  | setOutputCallback g cb _ ih =>
    rcases ih with ⟨hst, hcur⟩ | ⟨hst, s, hcur, hlt⟩ | ⟨hst, s, hcur, hfull, hoff⟩
    · exact Or.inl ⟨hst, by simp [Game.setOutputCallback, hcur]⟩
    · exact Or.inr (Or.inl ⟨hst, s.onRoundCompleted (some (Game.roundNotifier cb)),
        by simp [Game.setOutputCallback, hcur], hlt⟩)
    · exact Or.inr (Or.inr ⟨hst, s.onRoundCompleted (some (Game.roundNotifier cb)),
        by simp [Game.setOutputCallback, hcur], hfull, hoff⟩)
  | newSession g rounds w hpos _ _ =>
    rw [Game.newSession_of_nonneg g rounds w (by omega)]
    refine Or.inr (Or.inl ⟨rfl, _, rfl, ?_⟩)
    simp only [Session.getRoundsPlayed, Session.getTotalRounds, Session.onRoundCompleted,
      Session.fresh, List.length_nil]
    omega
  | playSingleRound g w hreach ih =>
    exact Game.consistent_playSingleRound g w
      (Game.Reachable.wired (Game.ReachableWithRounds.reachable hreach)) ih

/-- C32: in every game reachable from construction through `newSession(n)` with `n ≥ 1` and
`playSingleRound()` (and `setOutputCallback`): the state is Idle iff there is no current
session; Running iff there is a current session with rounds left; Finished iff there is a
current session that has played all its rounds and is not running. -/
theorem state_matches_session (g : Game σ) (h : Game.ReachableWithRounds g) :
    (g.getState = GameState.Idle ↔ g.getCurrentSession = none) ∧
    (g.getState = GameState.Running ↔
      ∃ s : Session σ, g.getCurrentSession = some s ∧
        s.getRoundsPlayed < s.getTotalRounds) ∧
    (g.getState = GameState.Finished ↔
      ∃ s : Session σ, g.getCurrentSession = some s ∧
        s.getRoundsPlayed = s.getTotalRounds ∧ s.isRunning = false) := by
  unfold Game.getState Game.getCurrentSession
  rcases Game.ReachableWithRounds.consistent h with
    ⟨hst, hcur⟩ | ⟨hst, s, hcur, hlt⟩ | ⟨hst, s, hcur, hfull, hoff⟩
  · refine ⟨⟨fun _ => hcur, fun _ => hst⟩, ⟨?_, ?_⟩, ⟨?_, ?_⟩⟩
    · intro h2; rw [hst] at h2; cases h2
    · rintro ⟨s, hs, _⟩; rw [hcur] at hs; cases hs
    · intro h2; rw [hst] at h2; cases h2
    · rintro ⟨s, hs, _⟩; rw [hcur] at hs; cases hs
  · refine ⟨⟨?_, ?_⟩, ⟨fun _ => ⟨s, hcur, hlt⟩, fun _ => hst⟩, ⟨?_, ?_⟩⟩
    · intro h2; rw [hst] at h2; cases h2
    · intro h2; rw [hcur] at h2; cases h2
    · intro h2; rw [hst] at h2; cases h2
    · rintro ⟨s2, hs2, hfull2, _⟩
      rw [hcur] at hs2
      cases hs2
      omega
  · refine ⟨⟨?_, ?_⟩, ⟨?_, ?_⟩, ⟨fun _ => ⟨s, hcur, hfull, hoff⟩, fun _ => hst⟩⟩
    · intro h2; rw [hst] at h2; cases h2
    · intro h2; rw [hcur] at h2; cases h2
    · intro h2; rw [hst] at h2; cases h2
    · rintro ⟨s2, hs2, hlt2⟩
      rw [hcur] at hs2
      cases hs2
      omega

/-- Witness of C32: the two-round game of the tests after one round. -/
theorem state_matches_session_witness :
    Game.ReachableWithRounds
      (((Game.create (constantUser "PaperPal" Combination.Paper)
        (constantUser "RockAI" Combination.Rock)).newSession 2
          (worldOf ())).self.playSingleRound (worldOf ())).self ∧
    ((((Game.create (constantUser "PaperPal" Combination.Paper)
        (constantUser "RockAI" Combination.Rock)).newSession 2
          (worldOf ())).self.playSingleRound (worldOf ())).self.getState =
        GameState.Running ↔
      ∃ s : Session Unit,
        (((Game.create (constantUser "PaperPal" Combination.Paper)
          (constantUser "RockAI" Combination.Rock)).newSession 2
            (worldOf ())).self.playSingleRound (worldOf ())).self.getCurrentSession =
          some s ∧ s.getRoundsPlayed < s.getTotalRounds) ∧
    (((Game.create (constantUser "PaperPal" Combination.Paper)
        (constantUser "RockAI" Combination.Rock)).newSession 2
          (worldOf ())).self.playSingleRound (worldOf ())).self.getState =
      GameState.Running :=
  ⟨Game.ReachableWithRounds.playSingleRound _ (worldOf ())
      (Game.ReachableWithRounds.newSession _ 2 (worldOf ()) (by decide)
        (Game.ReachableWithRounds.create _ _)),
    (state_matches_session _
      (Game.ReachableWithRounds.playSingleRound _ (worldOf ())
        (Game.ReachableWithRounds.newSession _ 2 (worldOf ()) (by decide)
          (Game.ReachableWithRounds.create _ _)))).2.1,
    rfl⟩

/-- C34: a zero-round match never finishes.  From any game, `newSession(0)` succeeds and
leaves the state Running; every later `playSingleRound()` throws `std::runtime_error` and
leaves the state Running and the world, call log included, as it was, so no number of calls
reaches Finished or sends the summary, or anything else, to the sink. -/
theorem zero_round_match_never_finishes (g : Game σ) (w : World σ) :
    (g.newSession 0 w).result = Except.ok () ∧
    (g.newSession 0 w).self.getState = GameState.Running ∧
    ∀ k : Nat,
      (∀ r ∈ ((g.newSession 0 w).self.playSingleRounds k (g.newSession 0 w).world).1,
        ∃ what : String, r = Except.error (Error.runtime_error what)) ∧
      ((g.newSession 0 w).self.playSingleRounds k (g.newSession 0 w).world).1.length = k ∧
      ((g.newSession 0 w).self.playSingleRounds k
        (g.newSession 0 w).world).2.1.getState = GameState.Running ∧
      ((g.newSession 0 w).self.playSingleRounds k
        (g.newSession 0 w).world).2.1.getState ≠ GameState.Finished ∧
      ((g.newSession 0 w).self.playSingleRounds k (g.newSession 0 w).world).2.2 =
        (g.newSession 0 w).world ∧
      outputCalls ((g.newSession 0 w).self.playSingleRounds k
        (g.newSession 0 w).world).2.2.calls = outputCalls (g.newSession 0 w).world.calls := by
  have hloop : ∀ (k : Nat) (h : Game σ) (s : Session σ) (v : World σ),
      h.currentSession = some s → h.state = GameState.Running →
      s.getRoundsPlayed ≥ s.totalRounds →
      (∀ r ∈ (h.playSingleRounds k v).1,
        ∃ what : String, r = Except.error (Error.runtime_error what)) ∧
      (h.playSingleRounds k v).1.length = k ∧
      (h.playSingleRounds k v).2.1.state = GameState.Running ∧
      (h.playSingleRounds k v).2.2 = v := by
    intro k
    induction k with
    | zero =>
      intro h s v _ hst _
      exact ⟨by simp [Game.playSingleRounds], rfl, hst, rfl⟩
    | succ n ih =>
      intro h s v hcur hst hge
      have hstep := Game.playSingleRound_of_exhausted h s v hcur hst hge
      obtain ⟨h1, h2, h3, h4⟩ := ih (h.playSingleRound v).self s (h.playSingleRound v).world
        (by rw [hstep]) (by rw [hstep]; exact hst) hge
      refine ⟨?_, by simp [Game.playSingleRounds, h2], h3, ?_⟩
      · intro r hr
        simp only [Game.playSingleRounds, List.mem_cons] at hr
        rcases hr with hr | hr
        · exact ⟨_, by rw [hr, hstep]⟩
        · exact h1 r hr
      · show (Game.playSingleRounds n (h.playSingleRound v).self
          (h.playSingleRound v).world).2.2 = v
        rw [h4, hstep]
  have hnew := Game.newSession_of_nonneg g 0 w (le_refl 0)
  refine ⟨by rw [hnew], by rw [hnew]; rfl, ?_⟩
  intro k
  obtain ⟨h1, h2, h3, h4⟩ := hloop k (g.newSession 0 w).self
    ((Session.fresh g.user g.computer 0).onRoundCompleted
      (some (Game.roundNotifier g.outputCallback))) (g.newSession 0 w).world
    (by rw [hnew]) (by rw [hnew]) (by
      simp [Session.getRoundsPlayed, Session.onRoundCompleted, Session.fresh])
  refine ⟨h1, h2, h3, ?_, h4, by rw [h4]⟩
  unfold Game.getState
  rw [h3]
  decide

end Lifecycle

/-! ## Lifecycle controller: the transcript of a complete match -/

section MatchTranscript

variable {σ : Type}

theorem indexedFrom_getElem? (l : List Move) :
    ∀ j i : Nat, (indexedFrom j l)[i]? = (l[i]?).map (fun m => (((j + i : Nat) : Int), m)) := by
  induction l with
  | nil => intro j i; simp [indexedFrom]
  | cons x rest ih =>
    intro j i
    cases i with
    | zero => simp [indexedFrom]
    | succ n =>
      simp only [indexedFrom, List.getElem?_cons_succ, ih (j + 1) n]
      have : j + 1 + n = j + (n + 1) := by omega
      rw [this]

theorem Game.roundLinesFrom_getElem? (l : List Move) (j i : Nat) :
    (Game.roundLinesFrom j l)[i]? =
      (l[i]?).map (fun m => Game.roundLine (((j + i : Nat) : Int)) m) := by
  simp [Game.roundLinesFrom, List.getElem?_map, indexedFrom_getElem?, Option.map_map,
    Function.comp_def]

/-- The summary text opens with the "Session Over" banner and closes with the winner. -/
theorem Game.summary_shape (g : Game σ) (s : Session σ) (v : World σ) :
    (∃ rest : String, g.summary s v = "\n=== Session Over ===" ++ rest) ∧
    (∃ front : String, g.summary s v = front ++ ("Winner: " ++ s.whoWins v)) := by
  constructor
  · refine ⟨"\n" ++ (g.user.getName v.ext ++ (": " ++ (toString s.getUserScore ++
      (" wins\n" ++ (g.computer.getName v.ext ++ (": " ++ (toString s.getComputerScore ++
      (" wins\n" ++ ("Draws: " ++ (toString s.getDrawCount ++ ("\n" ++ ("Winner: " ++
      s.whoWins v)))))))))))), ?_⟩
    have hbanner : "\n=== Session Over ===\n" = "\n=== Session Over ===" ++ "\n" := by decide
    unfold Game.summary
    rw [hbanner]
    simp only [String.append_assoc]
  · refine ⟨"\n=== Session Over ===\n" ++ g.user.getName v.ext ++ ": " ++
      toString s.getUserScore ++ " wins\n" ++ g.computer.getName v.ext ++ ": " ++
      toString s.getComputerScore ++ " wins\n" ++ "Draws: " ++ toString s.getDrawCount ++
      "\n", ?_⟩
    unfold Game.summary
    simp only [String.append_assoc]

/-- C33: on every game holding a sink when `newSession(N)`, `N ≥ 1`, is called, playing the
`N` rounds ends the match, and the last call of the sink is the one with the summary, which
starts with "\n=== Session Over ===" and ends with "Winner: " followed by the session's
`whoWins()`; the first call is the one of `newSession`, with the start notice.  For every
sink that records the lines it receives (as the sink of the tests does) the match adds
exactly `N + 2` lines, in this order: the start notice "=== New Session (N rounds) ===",
the `N` round lines of the rounds 1..N (the line at position `i` is the round line with
number `i + 1` of the move at position `i` of the history), then the summary; when the
sink is called with the summary it has recorded the notice and all `N` round lines. -/
theorem complete_match_transcript (g : Game σ) (sink : OutputCallback σ)
    (N : Int) (w : World σ) (hsink : g.outputCallback = some sink) (hN : 1 ≤ N) :
    ∃ (s : Session σ) (v : World σ) (summary : String),
      ((g.newSession N w).self.playSingleRounds N.toNat
        (g.newSession N w).world).2.1.getCurrentSession = some s ∧
      ((g.newSession N w).self.playSingleRounds N.toNat
        (g.newSession N w).world).2.1.getState = GameState.Finished ∧
      (s.getMoves.length : Int) = N ∧
      (g.newSession N w).world.ext =
        sink ("=== New Session (" ++ toString N ++ " rounds) ===") w.ext ∧
      ((g.newSession N w).self.playSingleRounds N.toNat (g.newSession N w).world).2.2.ext =
        sink summary v.ext ∧
      (∃ rest : String, summary = "\n=== Session Over ===" ++ rest) ∧
      (∃ front : String, summary = front ++ ("Winner: " ++ s.whoWins v)) ∧
      (∀ i : Nat, (Game.roundLinesFrom 0 s.getMoves)[i]? =
        (s.getMoves[i]?).map (fun m =>
          "Round " ++ toString ((i : Int) + 1) ++ ": " ++
            combinationToString m.getUserHand.getCombination ++ " vs " ++
            combinationToString m.getComputerHand.getCombination ++ " -> " ++
            moveResultToString m.getWhoWins)) ∧
      ∀ received : σ → List String, SinkRecords sink g.user g.computer received →
        received ((g.newSession N w).self.playSingleRounds N.toNat
          (g.newSession N w).world).2.2.ext =
          received w.ext ++
            ("=== New Session (" ++ toString N ++ " rounds) ===") ::
              (Game.roundLinesFrom 0 s.getMoves ++ [summary]) ∧
        ((received ((g.newSession N w).self.playSingleRounds N.toNat
          (g.newSession N w).world).2.2.ext).length : Int) =
          ((received w.ext).length : Int) + (N + 2) ∧
        received v.ext =
          received w.ext ++
            ("=== New Session (" ++ toString N ++ " rounds) ===") ::
              Game.roundLinesFrom 0 s.getMoves := by
  have hnew := Game.newSession_of_nonneg g N w (by omega)
  have hcall : (g.newSession N w).world.ext =
      sink ("=== New Session (" ++ toString N ++ " rounds) ===") w.ext := by
    rw [hnew, hsink]
    rfl
  obtain ⟨s2, tail, hcur, hlen, _, hlast, hout⟩ :=
    Game.newSession_then_plays_received g sink N w hsink hN N.toNat (by omega)
  obtain ⟨v, htail, hworld, hstate, hbefore⟩ := hlast (by omega)
  have hcount : (s2.moves.length : Int) = N := by
    rw [hlen]
    omega
  obtain ⟨hopen, hclose⟩ := Game.summary_shape
    ((g.newSession N w).self.playSingleRounds N.toNat (g.newSession N w).world).2.1 s2 v
  refine ⟨s2, v, _, hcur, hstate, hcount, hcall, hworld, hopen, hclose, ?_, ?_⟩
  · intro i
    rw [Game.roundLinesFrom_getElem?]
    simp only [Nat.zero_add]
    rfl
  · intro received hrec
    have hall := hout received hrec
    rw [htail] at hall
    refine ⟨hall, ?_, hbefore received hrec⟩
    rw [hall]
    simp only [List.length_cons, List.length_append, Game.roundLinesFrom_length,
      List.length_singleton, List.length_nil]
    push_cast
    omega

/-- Witness of C33: a game that has already played one match to its end starts the
one-round match of the tests and plays it to its end; the sink of the tests, emptied before
the second match, then holds three lines, the notice first and the summary last. -/
theorem complete_match_transcript_witness :
    (1 : Int) ≤ 1 ∧
    ((((Game.create (constantUser "PaperPal" Combination.Paper)
      (constantUser "RockAI" Combination.Rock)).setOutputCallback
        (some collectingSink)).newSession 1 (worldOf [])).self.playSingleRound
          (worldOf [])).self.getState = GameState.Finished ∧
    SinkRecords collectingSink (constantUser "PaperPal" Combination.Paper)
      (constantUser "RockAI" Combination.Rock) id ∧
    ∃ (s : Session (List String)) (v : World (List String)) (summary : String),
      ((((((Game.create (constantUser "PaperPal" Combination.Paper)
        (constantUser "RockAI" Combination.Rock)).setOutputCallback
          (some collectingSink)).newSession 1 (worldOf [])).self.playSingleRound
            (worldOf [])).self.newSession 1 (worldOf [])).self.playSingleRounds
          (1 : Int).toNat
          (((((Game.create (constantUser "PaperPal" Combination.Paper)
            (constantUser "RockAI" Combination.Rock)).setOutputCallback
              (some collectingSink)).newSession 1 (worldOf [])).self.playSingleRound
                (worldOf [])).self.newSession 1 (worldOf [])).world).2.2.ext =
        (worldOf ([] : List String)).ext ++
          ("=== New Session (" ++ toString (1 : Int) ++ " rounds) ===") ::
            (Game.roundLinesFrom 0 s.getMoves ++ [summary]) ∧
      (s.getMoves.length : Int) = 1 ∧
      (∃ front : String, summary = front ++ ("Winner: " ++ s.whoWins v)) :=
  ⟨by decide, rfl, ⟨fun _ _ => rfl, fun _ => rfl, fun _ => rfl⟩,
    (complete_match_transcript
      ((((Game.create (constantUser "PaperPal" Combination.Paper)
        (constantUser "RockAI" Combination.Rock)).setOutputCallback
          (some collectingSink)).newSession 1 (worldOf [])).self.playSingleRound
            (worldOf [])).self
      collectingSink 1 (worldOf []) rfl (by decide)).elim
      (fun s hs => hs.elim (fun v hv => hv.elim (fun summary h =>
        ⟨s, v, summary,
          (h.2.2.2.2.2.2.2.2 id ⟨fun _ _ => rfl, fun _ => rfl, fun _ => rfl⟩).1,
          h.2.2.1, h.2.2.2.2.2.2.1⟩)))⟩

end MatchTranscript

end OneTwoGame
